import Mathlib

/-!
Verification of the lennox-s30 client against its specification.

The development shallowly embeds the reconciliation/diff engine, the command
builders and the diagnostic-level enforcer of the source (src/client.rs,
src/diff.rs, src/types.rs, src/protocol.rs, src/error.rs) as executable Lean
definitions, and proves or refutes the frozen specification claims about them.

Modelling conventions:
* serde_json values are modelled by the inductive `Json`; numbers are modelled
  by rational values (the source uses f64; every constant appearing in the
  claims and in the source arithmetic is exactly representable, and the
  device-rounding/deadband comparisons operate on halves, where rational and
  f64 arithmetic agree).  serde_json distinguishes the integer number 72 from
  the float 72.0; the rational model identifies them, which no claim depends
  on.
* serde_json object maps are modelled as association lists with first-match
  lookup; the source map type is ordered by key, but the embedded code only
  ever looks maps up by key or iterates the freshly parsed payload object, so
  ordering is immaterial except for payload field order, which the list keeps.
* Rust `Instant` timestamps are modelled as natural-number seconds;
  `duration_since` is truncated subtraction, matching the saturating
  behaviour on a monotonic clock.
* `u8`/`u16`/`u32` casts from u64 truncate, modelled by `% 2^w`.
-/

/-- JSON tree as processed by the client (model of serde_json Value). -/
inductive Json where
  | null
  | bool (b : Bool)
  | num (q : ℚ)
  | str (s : String)
  | arr (xs : List Json)
  | obj (fields : List (String × Json))

mutual

/-- Decidable equality for `Json` (model of serde_json value equality). -/
def Json.decEq : (a b : Json) → Decidable (a = b)
  | .null, .null => isTrue rfl
  | .bool a, .bool b =>
      if h : a = b then isTrue (by rw [h]) else
        isFalse (fun hc => h (Json.bool.inj hc))
  | .num a, .num b =>
      if h : a = b then isTrue (by rw [h]) else
        isFalse (fun hc => h (Json.num.inj hc))
  | .str a, .str b =>
      if h : a = b then isTrue (by rw [h]) else
        isFalse (fun hc => h (Json.str.inj hc))
  | .arr as, .arr bs =>
      match Json.decEqList as bs with
      | isTrue h => isTrue (by rw [h])
      | isFalse h => isFalse (fun hc => h (Json.arr.inj hc))
  | .obj as, .obj bs =>
      match Json.decEqFields as bs with
      | isTrue h => isTrue (by rw [h])
      | isFalse h => isFalse (fun hc => h (Json.obj.inj hc))
  | .null, .bool _ => isFalse (fun h => Json.noConfusion h)
  | .null, .num _ => isFalse (fun h => Json.noConfusion h)
  | .null, .str _ => isFalse (fun h => Json.noConfusion h)
  | .null, .arr _ => isFalse (fun h => Json.noConfusion h)
  | .null, .obj _ => isFalse (fun h => Json.noConfusion h)
  | .bool _, .null => isFalse (fun h => Json.noConfusion h)
  | .bool _, .num _ => isFalse (fun h => Json.noConfusion h)
  | .bool _, .str _ => isFalse (fun h => Json.noConfusion h)
  | .bool _, .arr _ => isFalse (fun h => Json.noConfusion h)
  | .bool _, .obj _ => isFalse (fun h => Json.noConfusion h)
  | .num _, .null => isFalse (fun h => Json.noConfusion h)
  | .num _, .bool _ => isFalse (fun h => Json.noConfusion h)
  | .num _, .str _ => isFalse (fun h => Json.noConfusion h)
  | .num _, .arr _ => isFalse (fun h => Json.noConfusion h)
  | .num _, .obj _ => isFalse (fun h => Json.noConfusion h)
  | .str _, .null => isFalse (fun h => Json.noConfusion h)
  | .str _, .bool _ => isFalse (fun h => Json.noConfusion h)
  | .str _, .num _ => isFalse (fun h => Json.noConfusion h)
  | .str _, .arr _ => isFalse (fun h => Json.noConfusion h)
  | .str _, .obj _ => isFalse (fun h => Json.noConfusion h)
  | .arr _, .null => isFalse (fun h => Json.noConfusion h)
  | .arr _, .bool _ => isFalse (fun h => Json.noConfusion h)
  | .arr _, .num _ => isFalse (fun h => Json.noConfusion h)
  | .arr _, .str _ => isFalse (fun h => Json.noConfusion h)
  | .arr _, .obj _ => isFalse (fun h => Json.noConfusion h)
  | .obj _, .null => isFalse (fun h => Json.noConfusion h)
  | .obj _, .bool _ => isFalse (fun h => Json.noConfusion h)
  | .obj _, .num _ => isFalse (fun h => Json.noConfusion h)
  | .obj _, .str _ => isFalse (fun h => Json.noConfusion h)
  | .obj _, .arr _ => isFalse (fun h => Json.noConfusion h)

def Json.decEqList : (as bs : List Json) → Decidable (as = bs)
  | [], [] => isTrue rfl
  | [], _ :: _ => isFalse (fun h => List.noConfusion h)
  | _ :: _, [] => isFalse (fun h => List.noConfusion h)
  | a :: as, b :: bs =>
      match Json.decEq a b with
      | isFalse h => isFalse (fun hc => h (List.head_eq_of_cons_eq hc))
      | isTrue h1 =>
        match Json.decEqList as bs with
        | isTrue h2 => isTrue (by rw [h1, h2])
        | isFalse h => isFalse (fun hc => h (List.tail_eq_of_cons_eq hc))

def Json.decEqFields : (as bs : List (String × Json)) → Decidable (as = bs)
  | [], [] => isTrue rfl
  | [], _ :: _ => isFalse (fun h => List.noConfusion h)
  | _ :: _, [] => isFalse (fun h => List.noConfusion h)
  | (k, a) :: as, (l, b) :: bs =>
      if hk : k = l then
        match Json.decEq a b with
        | isFalse h =>
            isFalse (fun hc => h (congrArg Prod.snd (List.head_eq_of_cons_eq hc)))
        | isTrue h1 =>
          match Json.decEqFields as bs with
          | isTrue h2 => isTrue (by rw [hk, h1, h2])
          | isFalse h => isFalse (fun hc => h (List.tail_eq_of_cons_eq hc))
      else
        isFalse (fun hc => hk (congrArg Prod.fst (List.head_eq_of_cons_eq hc)))

end

instance : DecidableEq Json := Json.decEq

/-- First-match association lookup (model of Map::get). -/
def jlookup : List (String × Json) → String → Option Json
  | [], _ => none
  | (k, v) :: fs, key => if k = key then some v else jlookup fs key

/-- Value::get with a string key: key lookup on objects, none otherwise. -/
def Json.get (j : Json) (key : String) : Option Json :=
  match j with
  | .obj f => jlookup f key
  | _ => none

/-- Value::pointer restricted to the object-key segments the client uses. -/
def jptr (j : Json) : List String → Option Json
  | [] => some j
  | s :: rest => (j.get s).bind (fun v => jptr v rest)

/-- Number extraction (model of as_f64: every JSON number converts). -/
def Json.asNum (j : Json) : Option ℚ :=
  match j with
  | .num q => some q
  | _ => none

/-- Unsigned-integer extraction (model of as_u64 on the rational model:
defined for non-negative integral numbers). -/
def Json.asNat (j : Json) : Option ℕ :=
  match j with
  | .num q => if q.den = 1 ∧ 0 ≤ q.num then some q.num.toNat else none
  | _ => none

def Json.asStr (j : Json) : Option String :=
  match j with
  | .str s => some s
  | _ => none

def Json.asBool (j : Json) : Option Bool :=
  match j with
  | .bool b => some b
  | _ => none

def Json.isObj (j : Json) : Bool :=
  match j with
  | .obj _ => true
  | _ => false

/-- Replace the value at the first occurrence of a key, or append the pair
(model of map insert for lookup purposes). -/
def setFirst : List (String × Json) → String → Json → List (String × Json)
  | [], k, v => [(k, v)]
  | (k1, v1) :: fs, k, v =>
      if k1 = k then (k1, v) :: fs else (k1, v1) :: setFirst fs k v

mutual

/-- client.rs deep_merge: objects merge key by key, everything else is
replaced by the source value. -/
def deepMerge : Json → Json → Json
  | .obj tf, .obj sf => .obj (deepMergeFields tf sf)
  | _, s => s
termination_by t s => sizeOf s
decreasing_by all_goals (simp_wf; try omega)

def deepMergeFields : List (String × Json) → List (String × Json) → List (String × Json)
  | tf, [] => tf
  | tf, (k, v) :: rest =>
      deepMergeFields (setFirst tf k (deepMerge ((jlookup tf k).getD .null) v)) rest
termination_by tf sf => sizeOf sf
decreasing_by all_goals (simp_wf; try omega)

end

/-- client.rs merge_json: deep-merge new data into the entry for a key
(absent entries start from Null). -/
def mergeIntoPrev (m : List (String × Json)) (key : String) (d : Json) :
    List (String × Json) :=
  setFirst m key (deepMerge ((jlookup m key).getD .null) d)

/-- Dotted paths are modelled as their list of segments (field names carry no
dots, so the two representations are isomorphic); `joinDots` recovers the
dotted string the source stores in events. -/
def joinDots : List String → String
  | [] => ""
  | [s] => s
  | s :: rest => s ++ "." ++ joinDots rest

mutual

/-- diff.rs diff_json: when both sides are objects, recurse over the keys of
the current object; otherwise report a single change if the values differ. -/
def diffJson : Json → Json → List String → List (List String × Json × Json)
  | .obj pf, .obj cf, pre => diffFields pf cf pre
  | p, c, pre => if p = c then [] else [(pre, p, c)]
termination_by p c pre => sizeOf c
decreasing_by all_goals (simp_wf; try omega)

def diffFields : List (String × Json) → List (String × Json) → List String →
    List (List String × Json × Json)
  | _, [], _ => []
  | pf, (k, cv) :: rest, pre =>
      (match jlookup pf k with
       | some pv => diffJson pv cv (pre ++ [k])
       | none =>
         if cv.isObj then
           diffJson (.obj []) cv (pre ++ [k])
         else
           [(pre ++ [k], .null, cv)]) ++
      diffFields pf rest pre
termination_by pf cf pre => sizeOf cf
decreasing_by all_goals (simp_wf; try omega)

end

/-- Key list of an object field list. -/
def keysOf (fs : List (String × Json)) : List String := fs.map Prod.fst

/-- No duplicate keys. -/
def nodupKeys : List String → Bool
  | [] => true
  | k :: ks => (!ks.contains k) && nodupKeys ks

mutual

/-- Well-formed JSON: every object (also inside arrays) has pairwise distinct
keys.  Payloads parsed by serde_json always satisfy this, since its map type
cannot hold duplicate keys. -/
def wfJson : Json → Bool
  | .obj f => nodupKeys (keysOf f) && wfFields f
  | .arr xs => wfList xs
  | _ => true
termination_by j => sizeOf j
decreasing_by all_goals (simp_wf; try omega)

def wfList : List Json → Bool
  | [] => true
  | x :: xs => wfJson x && wfList xs
termination_by xs => sizeOf xs
decreasing_by all_goals (simp_wf; try omega)

def wfFields : List (String × Json) → Bool
  | [] => true
  | (_, v) :: fs => wfJson v && wfFields fs
termination_by fs => sizeOf fs
decreasing_by all_goals (simp_wf; try omega)

end

/-- f64::round — nearest integer, halves away from zero. -/
def rustRound (q : ℚ) : ℤ :=
  if q < 0 then -(⌊-q + 1/2⌋) else ⌊q + 1/2⌋

/-- types.rs Temperature: a value type storing Celsius internally. -/
structure Temperature where
  c : ℚ
deriving DecidableEq, Repr

def Temperature.fromCelsius (x : ℚ) : Temperature := ⟨x⟩

def Temperature.fromFahrenheit (f : ℚ) : Temperature := ⟨(f - 32) * (5/9)⟩

/-- Construction from a reported (F, C) pair prefers the C value. -/
def Temperature.fromPair (_f c : ℚ) : Temperature := ⟨c⟩

def Temperature.celsius (t : Temperature) : ℚ := t.c

def Temperature.fahrenheit (t : Temperature) : ℚ := t.c * (9/5) + 32

/-- Device rounding for Celsius: nearest 0.5 increment. -/
def Temperature.toLennoxCelsius (t : Temperature) : ℚ :=
  (rustRound (t.c * 2) : ℚ) / 2

/-- Device rounding for Fahrenheit: nearest whole degree. -/
def Temperature.toLennoxFahrenheit (t : Temperature) : ℤ :=
  rustRound t.fahrenheit

inductive HvacMode where
  | off
  | heat
  | cool
  | heatCool
  | emergencyHeat
deriving DecidableEq, Repr

def HvacMode.asLennoxStr : HvacMode → String
  | .off => "off"
  | .heat => "heat"
  | .cool => "cool"
  | .heatCool => "heat and cool"
  | .emergencyHeat => "emergency heat"

def HvacMode.fromLennoxStr (s : String) : Option HvacMode :=
  if s = "off" then some .off
  else if s = "heat" then some .heat
  else if s = "cool" then some .cool
  else if s = "heat and cool" then some .heatCool
  else if s = "emergency heat" then some .emergencyHeat
  else none

inductive FanMode where
  | on
  | auto
  | circulate
deriving DecidableEq, Repr

def FanMode.asLennoxStr : FanMode → String
  | .on => "on"
  | .auto => "auto"
  | .circulate => "circulate"

def FanMode.fromLennoxStr (s : String) : Option FanMode :=
  if s = "on" then some .on
  else if s = "auto" then some .auto
  else if s = "circulate" then some .circulate
  else none

inductive OperatingState where
  | idle
  | heating
  | cooling
deriving DecidableEq, Repr

def OperatingState.fromLennoxStr (s : String) : Option OperatingState :=
  if s = "idle" ∨ s = "off" then some .idle
  else if s = "heating" then some .heating
  else if s = "cooling" then some .cooling
  else none

/-- types.rs Zone, with the Rust Default values as field defaults. -/
structure Zone where
  id : ℕ
  name : String := ""
  temperature : Option Temperature := none
  humidity : Option ℚ := none
  heatSetpoint : Option Temperature := none
  coolSetpoint : Option Temperature := none
  mode : Option HvacMode := none
  fanMode : Option FanMode := none
  fanRunning : Bool := false
  operating : OperatingState := .idle
  auxHeat : Bool := false
  scheduleId : Option ℕ := none
  overrideActive : Bool := false
deriving DecidableEq, Repr

inductive Descriptor where
  | range (min max inc : ℚ) (unit : String)
  | radio (options : List (String × String))
  | string (maxLen : Option ℕ)
deriving DecidableEq, Repr

structure Parameter where
  pid : ℕ
  name : String
  value : String
  enabled : Bool
  descriptor : Descriptor
deriving DecidableEq, Repr

structure Equipment where
  id : ℕ
  equipType : ℕ := 0
  parameters : List (ℕ × Parameter) := []
deriving DecidableEq, Repr

/-- Parameter map lookup (BTreeMap::get on the model association list). -/
def paramLookup : List (ℕ × Parameter) → ℕ → Option Parameter
  | [], _ => none
  | (k, v) :: ps, pid => if k = pid then some v else paramLookup ps pid

/-- Parameter map insert: replaces the value for an existing pid or appends. -/
def paramInsert : List (ℕ × Parameter) → ℕ → Parameter → List (ℕ × Parameter)
  | [], pid, p => [(pid, p)]
  | (k, v) :: ps, pid, p =>
      if k = pid then (k, p) :: ps else (k, v) :: paramInsert ps pid p

/-- types.rs System, with the Rust Default values as field defaults. -/
structure System where
  id : String := ""
  name : String := ""
  zones : List Zone := []
  outdoorTemperature : Option Temperature := none
  productType : String := ""
  temperatureUnit : String := ""
  indoorUnitType : String := ""
  outdoorUnitType : String := ""
  manualAway : Bool := false
  smartAwayEnabled : Bool := false
  smartAwaySetpointState : String := ""
  equipments : List Equipment := []
  singleSetpointMode : Bool := false
  diagLevel : Option ℕ := none
  hpLowAmbientLockout : Bool := false
  auxHeatHighAmbientLockout : Bool := false
deriving DecidableEq, Repr

/-- System::is_away. -/
def System.isAway (s : System) : Bool :=
  s.manualAway ||
    (s.smartAwayEnabled &&
      (s.smartAwaySetpointState = "transition" || s.smartAwaySetpointState = "away"))

/-- types.rs Event: events emitted by the diff engine. -/
inductive Event where
  | zoneTemperatureChanged (zoneId : ℕ) (name : String) (temp : Temperature)
  | zoneHumidityChanged (zoneId : ℕ) (name : String) (humidity : ℚ)
  | zoneModeChanged (zoneId : ℕ) (name : String) (mode : HvacMode)
  | zoneOperatingChanged (zoneId : ℕ) (name : String) (state : OperatingState) (aux : Bool)
  | zoneSetpointsChanged (zoneId : ℕ) (name : String)
      (heat : Option Temperature) (cool : Option Temperature)
  | zoneFanChanged (zoneId : ℕ) (name : String) (mode : FanMode) (running : Bool)
  | outdoorTempChanged (temp : Temperature)
  | awayModeChanged (away : Bool)
  | zoneHoldChanged (zoneId : ℕ) (name : String) (active : Bool)
  | systemTemperature (path : String) (temp : Temperature)
  | systemNumeric (path : String) (value : ℚ)
  | systemString (path : String) (value : String)
  | systemBool (path : String) (value : Bool)
  | zoneTemperature (zoneId : ℕ) (path : String) (temp : Temperature)
  | zoneNumeric (zoneId : ℕ) (path : String) (value : ℚ)
  | zoneString (zoneId : ℕ) (path : String) (value : String)
  | zoneBool (zoneId : ℕ) (path : String) (value : Bool)
  | equipmentNumeric (equipmentId : ℕ) (path : String) (value : ℚ)
  | equipmentString (equipmentId : ℕ) (path : String) (value : String)
  | equipmentBool (equipmentId : ℕ) (path : String) (value : Bool)
  | parameterChanged (equipmentId : ℕ) (pid : ℕ) (name : String) (value : String)
  | hpLockoutChanged (lockedOut : Bool)
  | auxLockoutChanged (lockedOut : Bool)
  | alertChanged (code : ℕ) (active : Bool)
deriving DecidableEq, Repr

/-- diff.rs TEMPERATURE_PAIRS. -/
def temperaturePairs : List (String × String) :=
  [("temperature", "temperatureC"),
   ("hsp", "hspC"),
   ("csp", "cspC"),
   ("sp", "spC"),
   ("outdoorTemperature", "outdoorTemperatureC"),
   ("maxHsp", "maxHspC"),
   ("minHsp", "minHspC"),
   ("maxCsp", "maxCspC"),
   ("minCsp", "minCspC")]

def isCelsiusCompanion (field : String) : Bool :=
  temperaturePairs.any (fun p => p.2 = field)

def celsiusCompanion (fField : String) : Option String :=
  (temperaturePairs.find? (fun p => p.1 = fField)).map Prod.snd

inductive Scope where
  | system
  | zone (id : ℕ)
  | equipment (id : ℕ)
deriving DecidableEq, Repr

/-- diff.rs try_build_temperature: both the F and C member must be present
and numeric in the parent subtree. -/
def tryBuildTemperature (fField : String) (parent : Json) : Option Temperature :=
  match celsiusCompanion fField with
  | none => none
  | some cField =>
    match (parent.get fField).bind Json.asNum, (parent.get cField).bind Json.asNum with
    | some fv, some cv => some (Temperature.fromPair fv cv)
    | _, _ => none

/-- diff.rs map_typed_event (paths as segment lists). -/
def mapTypedEvent (scope : Scope) (path : List String) (newValue : Json)
    (zoneName : String) (parentObj : Json) : Option Event :=
  match scope, path with
  | .system, ["status", "outdoorTemperature"] =>
    (tryBuildTemperature "outdoorTemperature"
      ((parentObj.get "status").getD .null)).map (fun t => .outdoorTempChanged t)
  | .zone id, ["status", "temperature"] =>
    (tryBuildTemperature "temperature"
      ((parentObj.get "status").getD .null)).map
      (fun t => .zoneTemperatureChanged id zoneName t)
  | .zone id, ["status", "humidity"] =>
    newValue.asNum.map (fun h => .zoneHumidityChanged id zoneName h)
  | .zone id, ["status", "period", "systemMode"] =>
    (newValue.asStr.bind HvacMode.fromLennoxStr).map
      (fun m => .zoneModeChanged id zoneName m)
  | .zone id, ["status", "tempOperation"] =>
    let state := (newValue.asStr.bind OperatingState.fromLennoxStr).getD .idle
    let aux := ((jptr parentObj ["status", "aux"]).bind Json.asBool).getD false
    some (.zoneOperatingChanged id zoneName state aux)
  | .zone id, ["status", "period", "hsp"] | .zone id, ["status", "period", "csp"] =>
    let status := (jptr parentObj ["status", "period"]).getD .null
    some (.zoneSetpointsChanged id zoneName
      (tryBuildTemperature "hsp" status) (tryBuildTemperature "csp" status))
  | .zone id, ["status", "period", "fanMode"] | .zone id, ["status", "fan"] =>
    let fanModeStr := (jptr parentObj ["status", "period", "fanMode"]).bind Json.asStr
    let fanRunning := ((jptr parentObj ["status", "fan"]).bind Json.asBool).getD false
    let mode := (fanModeStr.bind FanMode.fromLennoxStr).getD .auto
    some (.zoneFanChanged id zoneName mode fanRunning)
  | _, _ => none

/-- diff.rs generic_event: fall back to a kind-tagged event, suppressing any
leaf that is the Celsius companion of a temperature pair.  The leaf is the
last dotted segment; events carry the dotted path string. -/
def genericEvent (scope : Scope) (path : List String) (value : Json) : Option Event :=
  let leaf := (path.getLast?).getD ""
  if isCelsiusCompanion leaf then none
  else
    match scope with
    | .system =>
      match value with
      | .num n => some (.systemNumeric (joinDots path) n)
      | .str s => some (.systemString (joinDots path) s)
      | .bool b => some (.systemBool (joinDots path) b)
      | _ => none
    | .zone id =>
      match value with
      | .num n => some (.zoneNumeric id (joinDots path) n)
      | .str s => some (.zoneString id (joinDots path) s)
      | .bool b => some (.zoneBool id (joinDots path) b)
      | _ => none
    | .equipment id =>
      match value with
      | .num n => some (.equipmentNumeric id (joinDots path) n)
      | .str s => some (.equipmentString id (joinDots path) s)
      | .bool b => some (.equipmentBool id (joinDots path) b)
      | _ => none

/-- Structured reasons for invalid-parameter errors.  The source formats
these as human-readable strings; the model keeps the data that the messages
are formatted from. -/
inductive ParamReason where
  | equipmentNotFound
  | parameterNotFound
  | readOnly
  | notANumber (value : String)
  | outOfRange (v min max : ℚ)
  | offGrid (v inc min : ℚ)
  | unknownOption (value : String)
  | tooLong (len maxLen : ℕ)
deriving DecidableEq, Repr

/-- error.rs Error.  The transport-carrying variants (Http, Io) are nullary
here: the embedded core never constructs them, the transport is external. -/
inductive Error where
  | http
  | notConnected
  | invalidZone (id : ℕ)
  | invalidMode (mode : String)
  | protocolErr (msg : String)
  | invalidSetpoints (heatC coolC deadbandC : ℚ)
  | timeout
  | io
  | invalidParameter (equipmentId pid : ℕ) (reason : ParamReason)
deriving DecidableEq, Repr

/-- protocol.rs manual_schedule_id. -/
def manualScheduleId (zoneId : ℕ) : ℕ := 16 + zoneId

/-- protocol.rs away_schedule_id. -/
def awayScheduleId (zoneId : ℕ) : ℕ := 24 + zoneId

/-- protocol.rs override_schedule_id. -/
def overrideScheduleId (zoneId : ℕ) : ℕ := 32 + zoneId

/-- protocol.rs set_hvac_mode_data. -/
def setHvacModeData (scheduleId : ℕ) (mode : String) : Json :=
  .obj [("schedules", .arr [.obj
    [("schedule", .obj [("periods", .arr [.obj
      [("id", .num 0), ("period", .obj [("systemMode", .str mode)])]])]),
     ("id", .num scheduleId)]])]

/-- protocol.rs set_manual_mode_data. -/
def setManualModeData (zoneId : ℕ) : Json :=
  .obj [("zones", .arr [.obj
    [("config", .obj [("scheduleId", .num (manualScheduleId zoneId))]),
     ("id", .num zoneId)]])]

/-- protocol.rs set_setpoint_data. -/
def setSetpointData (scheduleId : ℕ) (hspF : ℤ) (hspC : ℚ) (cspF : ℤ) (cspC : ℚ) : Json :=
  .obj [("schedules", .arr [.obj
    [("schedule", .obj [("periods", .arr [.obj
      [("id", .num 0),
       ("period", .obj
         [("hsp", .num hspF), ("hspC", .num hspC),
          ("csp", .num cspF), ("cspC", .num cspC)])]])]),
     ("id", .num scheduleId)]])]

/-- protocol.rs set_fan_mode_data. -/
def setFanModeData (scheduleId : ℕ) (mode : String) : Json :=
  .obj [("schedules", .arr [.obj
    [("schedule", .obj [("periods", .arr [.obj
      [("id", .num 0), ("period", .obj [("fanMode", .str mode)])]])]),
     ("id", .num scheduleId)]])]

/-- Modelled from the spec: set_manual_away_data is called from client.rs but
its definition is not among the provided sources.  Spec section 6: the away
command sets manualAway under an occupancy-shaped body. -/
def setManualAwayData (away : Bool) : Json :=
  .obj [("occupancy", .obj [("manualAway", .bool away)])]

/-- Modelled from the spec: set_schedule_hold_data is called from client.rs
but its definition is not among the provided sources.  Spec section 6: hold
sets config.scheduleHold with the scheduleId and enabled fields for the zone. -/
def setScheduleHoldData (zoneId : ℕ) (hold : Bool) : Json :=
  .obj [("zones", .arr [.obj
    [("config", .obj [("scheduleHold", .obj
      [("scheduleId", .num (overrideScheduleId zoneId)),
       ("enabled", .bool hold)])]),
     ("id", .num zoneId)]])]

/-- Modelled from the spec: set_parameter_data is called from client.rs but
its definition is not among the provided sources.  Spec section 6: parameter
writes target an equipment-type and pid keyed body (the tests expect a
parameterUpdate field). -/
def setParameterData (equipType pid : ℕ) (value : String) : Json :=
  .obj [("systemControl", .obj [("parameterUpdate", .obj
    [("et", .num equipType), ("pid", .num pid), ("value", .str value)])])]

/-- Modelled from the spec: set_diag_level_data is called from client.rs but
its definition is not among the provided sources.  Spec glossary: the
diagnostic level is a verbosity setting reasserted by the enforcer. -/
def setDiagLevelData (level : ℕ) : Json :=
  .obj [("systemControl", .obj [("diagControl", .obj [("level", .num level)])])]

def digitsToNatAux : List Char → ℕ → Option ℕ
  | [], acc => some acc
  | c :: cs, acc =>
    if 48 ≤ c.toNat ∧ c.toNat ≤ 57 then
      digitsToNatAux cs (acc * 10 + (c.toNat - 48))
    else none

/-- Decimal digit-run value; none when empty or a non-digit appears. -/
def digitsToNat : List Char → Option ℕ
  | [] => none
  | c :: cs => digitsToNatAux (c :: cs) 0

def splitDotAux : List Char → List Char → List (List Char)
  | [], cur => [cur.reverse]
  | c :: cs, cur =>
    if c = '.' then cur.reverse :: splitDotAux cs []
    else splitDotAux cs (c :: cur)

/-- Split a character list on the dot character. -/
def splitDot (cs : List Char) : List (List Char) := splitDotAux cs []

/-- Model of the plain-decimal fragment of f64 FromStr, covering every string
the descriptors and claims use (optional minus sign, digits, optional
fractional part). -/
def parseNum (s : String) : Option ℚ :=
  let signed : Bool × List Char :=
    match s.data with
    | c :: rest => if c = '-' then (true, rest) else (false, s.data)
    | [] => (false, [])
  let mag : Option ℚ :=
    match splitDot signed.2 with
    | [a] => (digitsToNat a).map (fun n => (n : ℚ))
    | [a, b] =>
      match digitsToNat a, digitsToNat b with
      | some n, some m => some ((n : ℚ) + (m : ℚ) / (10 ^ b.length : ℚ))
      | _, _ => none
    | _ => none
  if signed.1 then mag.map (fun q => -q) else mag

/-- client.rs validate_parameter.  Error reasons are structured instead of
formatted strings. -/
def validateParameter (param : Parameter) (value : String) :
    Except ParamReason String :=
  match param.descriptor with
  | .range min max inc _unit =>
    match parseNum value with
    | none => .error (.notANumber value)
    | some v =>
      if v < min ∨ v > max then .error (.outOfRange v min max)
      else if inc > 0 then
        let steps : ℤ := rustRound ((v - min) / inc)
        let reconstructed := min + (steps : ℚ) * inc
        if |reconstructed - v| > 1/1000000000 then .error (.offGrid v inc min)
        else .ok value
      else .ok value
  | .radio options =>
    if (options.lookup value).isSome then .ok value
    else
      match options.find? (fun p => p.2 = value) with
      | some (id, _) => .ok id
      | none => .error (.unknownOption value)
  | .string maxLen =>
    match maxLen with
    | some mx => if value.length > mx then .error (.tooLong value.length mx) else .ok value
    | none => .ok value

/-- client.rs parse_descriptor: min, max and inc arrive as strings and are
parsed, with defaults 0, 0 and 1. -/
def parseDescriptor (paramData : Json) : Descriptor :=
  match (paramData.get "descriptor").bind Json.asStr with
  | some "range" =>
    let range := (jptr paramData ["range"]).getD .null
    .range ((((range.get "min").bind Json.asStr).bind parseNum).getD 0)
           ((((range.get "max").bind Json.asStr).bind parseNum).getD 0)
           ((((range.get "inc").bind Json.asStr).bind parseNum).getD 1)
           (((paramData.get "unit").bind Json.asStr).getD "")
  | some "radio" =>
    match paramData.get "radio" with
    | some (.obj m) =>
      .radio (m.filterMap (fun kv => kv.2.asStr.map (fun text => (kv.1, text))))
    | _ => .radio []
  | _ =>
    .string (((paramData.get "string_max").bind Json.asNat).map (fun n => n % 2 ^ 32))

/-- client.rs DiagEnforcer state.  Timestamps are seconds on a monotonic
clock. -/
structure DiagEnforcer where
  targetLevel : ℕ
  lastSent : Option ℕ
  attemptsThisHour : ℕ
  hourStart : ℕ
deriving DecidableEq, Repr

def DiagEnforcer.new (level : ℕ) (now : ℕ) : DiagEnforcer :=
  ⟨level, none, 0, now⟩

/-- DiagEnforcer::should_send.  Returns the decision and the updated state
(the rolling window reset persists even when the answer is false). -/
def DiagEnforcer.shouldSend (e : DiagEnforcer) (now : ℕ) : Bool × DiagEnforcer :=
  let e := if now - e.hourStart ≥ 3600
    then { e with attemptsThisHour := 0, hourStart := now } else e
  if e.attemptsThisHour ≥ 3 then (false, e)
  else
    match e.lastSent with
    | some last => if now - last < 300 then (false, e) else (true, e)
    | none => (true, e)

def DiagEnforcer.recordSent (e : DiagEnforcer) (now : ℕ) : DiagEnforcer :=
  { e with lastSent := some now, attemptsThisHour := e.attemptsThisHour + 1 }

def DiagEnforcer.reset (e : DiagEnforcer) (now : ℕ) : DiagEnforcer :=
  { e with lastSent := none, attemptsThisHour := 0, hourStart := now }

/-- The client state relevant to the embedded core: connection flag, domain
model, previous-payload mirror (an object map), enforcer state. -/
structure ClientState where
  connected : Bool
  systems : List System
  prevMap : List (String × Json)
  diagEnforcer : Option DiagEnforcer
  diagReassertNeeded : Bool

/-- The state of a freshly built client (S30ClientBuilder::build without a
diagnostic level). -/
def ClientState.initial : ClientState :=
  ⟨false, [], [], none, false⟩

/-- An outbound command request handed to the transport. -/
structure Request where
  action : String
  zone : Option ℕ
  data : Json

/-- client.rs publish_command_logged: the not-connected guard runs before
anything is sent. -/
def publishCommand (st : ClientState) (action : String) (zone : Option ℕ)
    (data : Json) : Except Error Unit × List Request :=
  if st.connected then (.ok (), [⟨action, zone, data⟩])
  else (.error .notConnected, [])

/-- Sequencing of command steps: requests accumulate, errors stop the flow. -/
def seqCmd (a : Except Error Unit × List Request)
    (b : Unit → Except Error Unit × List Request) :
    Except Error Unit × List Request :=
  match a with
  | (.error e, reqs) => (.error e, reqs)
  | (.ok _, reqs) => ((b ()).1, reqs ++ (b ()).2)

/-- client.rs find_zone: first zone with the id across all systems. -/
def findZone (st : ClientState) (zoneId : ℕ) : Except Error Zone :=
  match st.systems.findSome? (fun s => s.zones.find? (fun z => z.id == zoneId)) with
  | some z => .ok z
  | none => .error (.invalidZone zoneId)

/-- client.rs ensure_manual_schedule. -/
def ensureManualSchedule (st : ClientState) (zoneId : ℕ) :
    Except Error Unit × List Request :=
  match findZone st zoneId with
  | .error e => (.error e, [])
  | .ok z =>
    if z.scheduleId = some (manualScheduleId zoneId) then (.ok (), [])
    else publishCommand st "set_manual_schedule" (some zoneId) (setManualModeData zoneId)

/-- client.rs poll, reduced to its connectivity gate; the rest of poll is
transport interaction with the device. -/
def pollGate (st : ClientState) : Except Error Unit × List Request :=
  if st.connected then (.ok (), []) else (.error .notConnected, [])

def DEADBAND_C : ℚ := 3/2

/-- S30Client::set_hvac_mode. -/
def setHvacMode (st : ClientState) (zoneId : ℕ) (mode : HvacMode) :
    Except Error Unit × List Request :=
  seqCmd (ensureManualSchedule st zoneId) (fun _ =>
    publishCommand st "set_hvac_mode" (some zoneId)
      (setHvacModeData (manualScheduleId zoneId) mode.asLennoxStr))

/-- S30Client::set_heat_setpoint. -/
def setHeatSetpoint (st : ClientState) (zoneId : ℕ) (temp : Temperature) :
    Except Error Unit × List Request :=
  match findZone st zoneId with
  | .error e => (.error e, [])
  | .ok zone =>
    let hspC := temp.toLennoxCelsius
    let hspF := temp.toLennoxFahrenheit
    let cool : ℚ × ℤ :=
      match zone.coolSetpoint with
      | some c =>
        let minCool := hspC + DEADBAND_C
        if c.toLennoxCelsius < minCool then
          let adjusted := Temperature.fromCelsius minCool
          (adjusted.toLennoxCelsius, adjusted.toLennoxFahrenheit)
        else (c.toLennoxCelsius, c.toLennoxFahrenheit)
      | none =>
        let defaultCool := Temperature.fromCelsius (hspC + DEADBAND_C)
        (defaultCool.toLennoxCelsius, defaultCool.toLennoxFahrenheit)
    seqCmd (ensureManualSchedule st zoneId) (fun _ =>
      publishCommand st "set_heat_setpoint" (some zoneId)
        (setSetpointData (manualScheduleId zoneId) hspF hspC cool.2 cool.1))

/-- S30Client::set_cool_setpoint. -/
def setCoolSetpoint (st : ClientState) (zoneId : ℕ) (temp : Temperature) :
    Except Error Unit × List Request :=
  match findZone st zoneId with
  | .error e => (.error e, [])
  | .ok zone =>
    let cspC := temp.toLennoxCelsius
    let cspF := temp.toLennoxFahrenheit
    let heat : ℚ × ℤ :=
      match zone.heatSetpoint with
      | some h =>
        let maxHeat := cspC - DEADBAND_C
        if h.toLennoxCelsius > maxHeat then
          let adjusted := Temperature.fromCelsius maxHeat
          (adjusted.toLennoxCelsius, adjusted.toLennoxFahrenheit)
        else (h.toLennoxCelsius, h.toLennoxFahrenheit)
      | none =>
        let defaultHeat := Temperature.fromCelsius (cspC - DEADBAND_C)
        (defaultHeat.toLennoxCelsius, defaultHeat.toLennoxFahrenheit)
    seqCmd (ensureManualSchedule st zoneId) (fun _ =>
      publishCommand st "set_cool_setpoint" (some zoneId)
        (setSetpointData (manualScheduleId zoneId) heat.2 heat.1 cspF cspC))

/-- S30Client::set_away. -/
def setAway (st : ClientState) (away : Bool) : Except Error Unit × List Request :=
  publishCommand st "set_away" none (setManualAwayData away)

/-- S30Client::set_schedule_hold. -/
def setScheduleHold (st : ClientState) (zoneId : ℕ) (hold : Bool) :
    Except Error Unit × List Request :=
  match findZone st zoneId with
  | .error e => (.error e, [])
  | .ok _ =>
    publishCommand st "set_schedule_hold" (some zoneId)
      (setScheduleHoldData zoneId hold)

/-- S30Client::set_setpoints: the deadband validation runs before the zone
lookup, the manual-schedule switch and the publish. -/
def setSetpoints (st : ClientState) (zoneId : ℕ) (heat cool : Temperature) :
    Except Error Unit × List Request :=
  let hspC := heat.toLennoxCelsius
  let cspC := cool.toLennoxCelsius
  if cspC < hspC + DEADBAND_C then
    (.error (.invalidSetpoints hspC cspC DEADBAND_C), [])
  else
    match findZone st zoneId with
    | .error e => (.error e, [])
    | .ok _ =>
      seqCmd (ensureManualSchedule st zoneId) (fun _ =>
        publishCommand st "set_setpoints" (some zoneId)
          (setSetpointData (manualScheduleId zoneId)
            heat.toLennoxFahrenheit hspC cool.toLennoxFahrenheit cspC))

/-- S30Client::set_fan_mode. -/
def setFanMode (st : ClientState) (zoneId : ℕ) (mode : FanMode) :
    Except Error Unit × List Request :=
  seqCmd (ensureManualSchedule st zoneId) (fun _ =>
    publishCommand st "set_fan_mode" (some zoneId)
      (setFanModeData (manualScheduleId zoneId) mode.asLennoxStr))

/-- S30Client::set_equipment_parameter: equipment and parameter lookup,
read-only check and descriptor validation all run before any request. -/
def setEquipmentParameter (st : ClientState) (equipmentId pid : ℕ)
    (value : String) : Except Error Unit × List Request :=
  match (st.systems.flatMap (fun s => s.equipments)).find?
      (fun e => e.id == equipmentId) with
  | none => (.error (.invalidParameter equipmentId pid .equipmentNotFound), [])
  | some equipment =>
    match paramLookup equipment.parameters pid with
    | none => (.error (.invalidParameter equipmentId pid .parameterNotFound), [])
    | some param =>
      if !param.enabled then
        (.error (.invalidParameter equipmentId pid .readOnly), [])
      else
        match validateParameter param value with
        | .error reason => (.error (.invalidParameter equipmentId pid reason), [])
        | .ok validated =>
          publishCommand st "set_parameter" none
            (setParameterData equipment.equipType pid validated)

/-- S30Client::update_system_from_json. -/
def updateSystemFromJson (s : System) (d : Json) : System :=
  let s := match (jptr d ["config", "name"]).bind Json.asStr with
    | some n => { s with name := n }
    | none => s
  let s := match (jptr d ["config", "options", "productType"]).bind Json.asStr with
    | some v => { s with productType := v }
    | none => s
  let s := match (jptr d ["config", "options", "temperatureUnit"]).bind Json.asStr with
    | some v => { s with temperatureUnit := v }
    | none => s
  let s := match (jptr d ["config", "options", "indoorUnitType"]).bind Json.asStr with
    | some v => { s with indoorUnitType := v }
    | none => s
  let s := match (jptr d ["config", "options", "outdoorUnitType"]).bind Json.asStr with
    | some v => { s with outdoorUnitType := v }
    | none => s
  let status := (d.get "status").getD .null
  let s := match (status.get "outdoorTemperature").bind Json.asNum,
      (status.get "outdoorTemperatureC").bind Json.asNum with
    | some f, some c => { s with outdoorTemperature := some (Temperature.fromPair f c) }
    | none, some c => { s with outdoorTemperature := some (Temperature.fromCelsius c) }
    | some f, none => { s with outdoorTemperature := some (Temperature.fromFahrenheit f) }
    | none, none => s
  let s := match (status.get "singleSetpointMode").bind Json.asBool with
    | some b => { s with singleSetpointMode := b }
    | none => s
  match (status.get "diagLevel").bind Json.asNat with
  | some n => { s with diagLevel := some (n % 2 ^ 8) }
  | none => s

/-- The name update of S30Client::update_zone_from_json. -/
def zoneNameStage (z : Zone) (d : Json) : Zone :=
  match (d.get "name").bind Json.asStr with
  | some n => { z with name := n }
  | none =>
    match (jptr d ["config", "name"]).bind Json.asStr with
    | some n => { z with name := n }
    | none => z

/-- The temperature and humidity updates of update_zone_from_json. -/
def zoneStatusStage1 (z : Zone) (status : Json) : Zone :=
  let z := match (status.get "temperature").bind Json.asNum,
      (status.get "temperatureC").bind Json.asNum with
    | some f, some c => { z with temperature := some (Temperature.fromPair f c) }
    | none, some c => { z with temperature := some (Temperature.fromCelsius c) }
    | some f, none => { z with temperature := some (Temperature.fromFahrenheit f) }
    | none, none => z
  match (status.get "humidity").bind Json.asNum with
  | some h => { z with humidity := some h }
  | none => z

/-- The schedule-period updates (mode, setpoints, fan mode) of
update_zone_from_json. -/
def zonePeriodStage (z : Zone) (period : Json) : Zone :=
  let z := match (period.get "systemMode").bind Json.asStr with
    | some m => { z with mode := HvacMode.fromLennoxStr m }
    | none => z
  let z := match (period.get "hsp").bind Json.asNum,
      (period.get "hspC").bind Json.asNum with
    | some f, some c => { z with heatSetpoint := some (Temperature.fromPair f c) }
    | _, _ => z
  let z := match (period.get "csp").bind Json.asNum,
      (period.get "cspC").bind Json.asNum with
    | some f, some c => { z with coolSetpoint := some (Temperature.fromPair f c) }
    | _, _ => z
  match (period.get "fanMode").bind Json.asStr with
  | some m => { z with fanMode := FanMode.fromLennoxStr m }
  | none => z

/-- The fan/operation/aux status updates of update_zone_from_json. -/
def zoneStatusStage2 (z : Zone) (status : Json) : Zone :=
  let z := match (status.get "fan").bind Json.asBool with
    | some b => { z with fanRunning := b }
    | none => z
  let z := match (status.get "tempOperation").bind Json.asStr with
    | some op => { z with operating := (OperatingState.fromLennoxStr op).getD .idle }
    | none => z
  match (status.get "aux").bind Json.asBool with
  | some b => { z with auxHeat := b }
  | none => z

/-- The schedule-id config update of update_zone_from_json. -/
def zoneCfgStage (z : Zone) (d : Json) : Zone :=
  match (jptr d ["config", "scheduleId"]).bind Json.asNat with
  | some n => { z with scheduleId := some (n % 2 ^ 32) }
  | none => z

/-- The field updates of S30Client::update_zone_from_json applied to one
zone record. -/
def applyZoneJson (z : Zone) (zoneId : ℕ) (d : Json) : Zone :=
  let z := zoneNameStage z d
  let status := (d.get "status").getD .null
  let z := zoneStatusStage1 z status
  let period := (jptr status ["period"]).getD .null
  let z := zonePeriodStage z period
  let z := zoneStatusStage2 z status
  let z := zoneCfgStage z d
  match jptr d ["config", "scheduleHold"] with
  | some hold =>
    let holdSched := (((hold.get "scheduleId").bind Json.asNat).getD 0) % 2 ^ 32
    let enabled := ((hold.get "enabled").bind Json.asBool).getD false
    { z with overrideActive := holdSched = overrideScheduleId zoneId ∧ enabled }
  | none => z

/-- Update the first zone with the given id. -/
def updateFirstZone : List Zone → ℕ → (Zone → Zone) → List Zone
  | [], _, _ => []
  | z :: zs, zoneId, f =>
      if z.id = zoneId then f z :: zs else z :: updateFirstZone zs zoneId f

/-- S30Client::update_zone_from_json: find the zone or lazily create it, then
apply the field updates. -/
def updateZoneFromJson (s : System) (zoneId : ℕ) (d : Json) : System :=
  if s.zones.any (fun z => z.id == zoneId) then
    { s with zones := updateFirstZone s.zones zoneId (fun z => applyZoneJson z zoneId d) }
  else
    { s with zones := s.zones ++ [applyZoneJson { id := zoneId } zoneId d] }

/-- The Parameter record built from one parameter payload by
update_equipment_from_json. -/
def buildParam (paramData : Json) (pid : ℕ) : Parameter :=
  { pid := pid
    name := ((paramData.get "name").bind Json.asStr).getD ""
    value := ((paramData.get "value").bind Json.asStr).getD ""
    enabled := ((paramData.get "enabled").bind Json.asBool).getD false
    descriptor := parseDescriptor paramData }

/-- One parameter entry of S30Client::update_equipment_from_json: updates the
parameter map and fires parameter-changed when a previously known parameter
changes value. -/
def applyParamEntry (acc : List (ℕ × Parameter) × List Event) (entry : Json) :
    List (ℕ × Parameter) × List Event :=
  match entry.get "parameter" with
  | none => acc
  | some paramData =>
    match (paramData.get "pid").bind Json.asNat with
    | none => acc
    | some rawPid =>
      let pid := rawPid % 2 ^ 16
      let param := buildParam paramData pid
      let prevValue := (paramLookup acc.1 pid).map Parameter.value
      let params := paramInsert acc.1 pid param
      if prevValue ≠ some param.value ∧ prevValue.isSome then
        (params, acc.2 ++ [.parameterChanged 0 pid param.name param.value])
      else (params, acc.2)

/-- Update the first equipment with the given id. -/
def updateFirstEquip : List Equipment → ℕ → (Equipment → Equipment) → List Equipment
  | [], _, _ => []
  | e :: es, eid, f =>
      if e.id = eid then f e :: es else e :: updateFirstEquip es eid f

/-- The per-equipment update closure of S30Client::update_equipment_from_json
(the equipment id is substituted into the parameter-changed events). -/
def equipUpd (equipId : ℕ) (d : Json) (equipment : Equipment) :
    Equipment × List Event :=
  let equipment := match (jptr d ["equipment", "equipType"]).bind Json.asNat with
    | some et => { equipment with equipType := et % 2 ^ 16 }
    | none => equipment
  match jptr d ["equipment", "parameters"] with
  | some (.arr params) =>
    let r := params.foldl applyParamEntry (equipment.parameters, [])
    ({ equipment with parameters := r.1 },
     r.2.map (fun ev => match ev with
       | .parameterChanged _ pid n v => .parameterChanged equipId pid n v
       | other => other))
  | _ => (equipment, [])

/-- S30Client::update_equipment_from_json: find or lazily create the
equipment, then apply the update closure. -/
def updateEquipmentFromJson (s : System) (equipId : ℕ) (d : Json) :
    System × List Event :=
  if s.equipments.any (fun e => e.id == equipId) then
    let existing := (s.equipments.find? (fun e => e.id == equipId)).getD { id := equipId }
    let r := equipUpd equipId d existing
    ({ s with equipments := updateFirstEquip s.equipments equipId (fun _ => r.1) }, r.2)
  else
    let r := equipUpd equipId d { id := equipId }
    ({ s with equipments := s.equipments ++ [r.1] }, r.2)

/-- Decimal digit characters of a natural number (model of to_string on the
unsigned ids used as mirror keys). -/
def natChars (n : ℕ) : List Char :=
  if h : n < 10 then [Char.ofNat (48 + n)]
  else natChars (n / 10) ++ [Char.ofNat (48 + n % 10)]
decreasing_by exact Nat.div_lt_self (by omega) (by omega)

/-- Decimal string key for an entity id. -/
def natKey (n : ℕ) : String := ⟨natChars n⟩

/-- Accumulated output of one process_data pass: the state, the events to
fire (in order), and the indices of systems whose snapshot callbacks fire. -/
structure PassOut where
  st : ClientState
  events : List Event
  snaps : List ℕ

/-- HashSet::insert on the snapshot index set (kept as a duplicate-free
list; the pass only ever inserts the single system index). -/
def insertSnap (l : List ℕ) (i : ℕ) : List ℕ :=
  if i ∈ l then l else l ++ [i]

/-- Vec position search (model of iter().position()). -/
def findPos (pred : System → Bool) : List System → Option ℕ
  | [] => none
  | s :: ss => if pred s then some 0 else (findPos pred ss).map (fun i => i + 1)

/-- S30Client::ensure_system. -/
def ensureSystem (ss : List System) (id : String) : List System × ℕ :=
  match findPos (fun s => s.id == id) ss with
  | some i => (ss, i)
  | none => (ss ++ [{ id := id }], ss.length)

def getSys (ss : List System) (i : ℕ) : System := (ss.get? i).getD {}

def modifyAt : List System → ℕ → (System → System) → List System
  | [], _, _ => []
  | s :: ss, 0, f => f s :: ss
  | s :: ss, n + 1, f => s :: modifyAt ss n f

/-- The typed-or-generic classification loop over one list of diff changes. -/
def classifyChanges (scope : Scope) (zoneName : String) (parent : Json) :
    List (List String × Json × Json) → List Event
  | [] => []
  | (path, _, newVal) :: rest =>
    (match mapTypedEvent scope path newVal zoneName parent with
     | some e => [e]
     | none =>
       match genericEvent scope path newVal with
       | some e => [e]
       | none => []) ++ classifyChanges scope zoneName parent rest

/-- The generic-only classification loop (equipment scope). -/
def classifyGenericChanges (scope : Scope) :
    List (List String × Json × Json) → List Event
  | [] => []
  | (path, _, newVal) :: rest =>
    (match genericEvent scope path newVal with
     | some e => [e]
     | none => []) ++ classifyGenericChanges scope rest

/-- Mirror insert for the zones and equipments sections: the entry object
under the section key is replaced wholesale for the entity id. -/
def insertEntityMirror (m : List (String × Json)) (sectionKey idStr : String)
    (d : Json) : List (String × Json) :=
  match jlookup m sectionKey with
  | some (.obj inner) => setFirst m sectionKey (.obj (setFirst inner idStr d))
  | some _ => m
  | none => setFirst m sectionKey (.obj [(idStr, d)])

/-- The system section of S30Client::process_data. -/
def processSystemSection (d : Json) (p : PassOut) : PassOut :=
  match d.get "system" with
  | none => p
  | some sd =>
    let es := ensureSystem p.st.systems "0"
    let prevSystem := (jlookup p.st.prevMap "system").getD (.obj [])
    let changes := diffJson prevSystem sd []
    let evs := classifyChanges .system "" sd changes
    let systems := modifyAt es.1 es.2 (fun s => updateSystemFromJson s sd)
    { st := { p.st with
        systems := systems
        prevMap := mergeIntoPrev p.st.prevMap "system" sd }
      events := p.events ++ evs
      snaps := insertSnap p.snaps es.2 }

/-- The occupancy field updates of process_data. -/
def applyOccupancy (s : System) (occ : Json) : System :=
  let s := match (occ.get "manualAway").bind Json.asBool with
    | some b => { s with manualAway := b }
    | none => s
  match jptr occ ["smartAway"] with
  | some sa =>
    let s := match (sa.get "enabled").bind Json.asBool with
      | some b => { s with smartAwayEnabled := b }
      | none => s
    match (sa.get "setpointState").bind Json.asStr with
    | some v => { s with smartAwaySetpointState := v }
    | none => s
  | none => s

/-- The occupancy section of process_data: away-mode composite event from
the derived is_away predicate before and after the merge. -/
def processOccupancySection (d : Json) (p : PassOut) : PassOut :=
  match d.get "occupancy" with
  | none => p
  | some occ =>
    let es := ensureSystem p.st.systems "0"
    let prevAway := (getSys es.1 es.2).isAway
    let systems := modifyAt es.1 es.2 (fun s => applyOccupancy s occ)
    let newAway := (getSys systems es.2).isAway
    let evs := if newAway ≠ prevAway then [Event.awayModeChanged newAway] else []
    { st := { p.st with
        systems := systems
        prevMap := mergeIntoPrev p.st.prevMap "occupancy" occ }
      events := p.events ++ evs
      snaps := insertSnap p.snaps es.2 }

/-- One zone entry of the zones section of process_data. -/
def processZoneEntry (p : PassOut) (zoneData : Json) : PassOut :=
  match (zoneData.get "id").bind Json.asNat with
  | none => p
  | some rawId =>
    let zoneId := rawId % 2 ^ 8
    let es := ensureSystem p.st.systems "0"
    let prevZone := ((jlookup p.st.prevMap "zones").bind
      (fun zm => zm.get (natKey zoneId))).getD (.obj [])
    let changes := diffJson prevZone zoneData []
    let zoneName :=
      match ((zoneData.get "name").orElse
          (fun _ => jptr zoneData ["config", "name"])).bind Json.asStr with
      | some n => n
      | none =>
        (((getSys es.1 es.2).zones.find? (fun z => z.id == zoneId)).map
          Zone.name).getD ""
    let evs := classifyChanges (.zone zoneId) zoneName zoneData changes
    let prevOverride := ((getSys es.1 es.2).zones.find?
      (fun z => z.id == zoneId)).map Zone.overrideActive
    let systems := modifyAt es.1 es.2 (fun s => updateZoneFromJson s zoneId zoneData)
    let zref := ((getSys systems es.2).zones.find?
      (fun z => z.id == zoneId)).getD { id := zoneId }
    let holdEvs := if some zref.overrideActive ≠ prevOverride then
        [Event.zoneHoldChanged zoneId zoneName zref.overrideActive]
      else []
    { st := { p.st with
        systems := systems
        prevMap := insertEntityMirror p.st.prevMap "zones" (natKey zoneId) zoneData }
      events := p.events ++ evs ++ holdEvs
      snaps := insertSnap p.snaps es.2 }

/-- The zones section of process_data. -/
def processZonesSection (d : Json) (p : PassOut) : PassOut :=
  match d.get "zones" with
  | some (.arr zs) => zs.foldl processZoneEntry p
  | _ => p

/-- One equipment entry of the equipments section of process_data. -/
def processEquipEntry (p : PassOut) (equipData : Json) : PassOut :=
  match (equipData.get "id").bind Json.asNat with
  | none => p
  | some rawId =>
    let equipId := rawId % 2 ^ 16
    let prevEquip := ((jlookup p.st.prevMap "equipments").bind
      (fun em => em.get (natKey equipId))).getD (.obj [])
    let changes := diffJson prevEquip equipData []
    let evs := classifyGenericChanges (.equipment equipId) changes
    let es := ensureSystem p.st.systems "0"
    let r := updateEquipmentFromJson (getSys es.1 es.2) equipId equipData
    let systems := modifyAt es.1 es.2 (fun _ => r.1)
    { st := { p.st with
        systems := systems
        prevMap := insertEntityMirror p.st.prevMap "equipments" (natKey equipId) equipData }
      events := p.events ++ evs ++ r.2
      snaps := insertSnap p.snaps es.2 }

/-- The equipments section of process_data. -/
def processEquipmentsSection (d : Json) (p : PassOut) : PassOut :=
  match d.get "equipments" with
  | some (.arr es) => es.foldl processEquipEntry p
  | _ => p

/-- One alerts.active entry: every entry fires an alert-changed event, and
codes 18 and 19 drive the lockout flags. -/
def applyAlertEntry (acc : Bool × Bool × List Event) (entry : Json) :
    Bool × Bool × List Event :=
  match entry.get "alert" with
  | none => acc
  | some alert =>
    match (alert.get "code").bind Json.asNat with
    | none => acc
    | some rawCode =>
      let code := rawCode % 2 ^ 16
      let isActive := ((alert.get "isStillActive").bind Json.asBool).getD false
      let hp := if code = 18 then isActive else acc.1
      let aux := if code = 19 then isActive else acc.2.1
      (hp, aux, acc.2.2 ++ [.alertChanged code isActive])

/-- The alerts section of process_data: runs only when alerts.active is an
array; lockout flags are recomputed from false and compared with the
previous flags for the composite lockout events. -/
def processAlertsSection (d : Json) (p : PassOut) : PassOut :=
  match (d.get "alerts").bind (fun a => a.get "active") with
  | some (.arr active) =>
    let es := ensureSystem p.st.systems "0"
    let sys := getSys es.1 es.2
    let prevHp := sys.hpLowAmbientLockout
    let prevAux := sys.auxHeatHighAmbientLockout
    let r := active.foldl applyAlertEntry (false, false, [])
    let sysNew := { sys with
      hpLowAmbientLockout := r.1
      auxHeatHighAmbientLockout := r.2.1 }
    let evs := r.2.2 ++
      (if r.1 ≠ prevHp then [Event.hpLockoutChanged r.1] else []) ++
      (if r.2.1 ≠ prevAux then [Event.auxLockoutChanged r.2.1] else [])
    { st := { p.st with systems := modifyAt es.1 es.2 (fun _ => sysNew) }
      events := p.events ++ evs
      snaps := insertSnap p.snaps es.2 }
  | _ => p

/-- The diagnostic-enforcer check at the end of process_data: should_send is
consulted only when the observed level is below the target. -/
def enforcerStep (st : ClientState) (now : ℕ) : ClientState :=
  match st.diagEnforcer with
  | none => st
  | some enf =>
    match st.systems.head?.bind System.diagLevel with
    | some level =>
      if level < enf.targetLevel then
        let r := enf.shouldSend now
        { st with
          diagEnforcer := some r.2
          diagReassertNeeded := st.diagReassertNeeded || r.1 }
      else st
    | none => st

/-- S30Client::process_data: the sections in source order, then the enforcer
check.  The returned events are delivered to every event callback in order,
then each system index in snaps is delivered to every snapshot callback. -/
def processData (d : Json) (now : ℕ) (st : ClientState) : PassOut :=
  let p := processAlertsSection d
    (processEquipmentsSection d
      (processZonesSection d
        (processOccupancySection d
          (processSystemSection d ⟨st, [], []⟩))))
  { p with st := enforcerStep p.st now }

/-! ### Helper lemmas -/

theorem findZone_error_eq (st : ClientState) (z : ℕ) (e : Error)
    (h : findZone st z = .error e) : e = .invalidZone z := by
  unfold findZone at h
  split at h
  · exact absurd h (by simp)
  · exact (Except.error.inj h).symm

theorem publishCommand_fst_cases (st : ClientState) (a : String) (z : Option ℕ)
    (d : Json) :
    (publishCommand st a z d).1 = .ok () ∨
      (publishCommand st a z d).1 = .error .notConnected := by
  unfold publishCommand
  split <;> simp

theorem ensureManualSchedule_fst_cases (st : ClientState) (z : ℕ) :
    (ensureManualSchedule st z).1 = .ok () ∨
      (ensureManualSchedule st z).1 = .error (.invalidZone z) ∨
      (ensureManualSchedule st z).1 = .error .notConnected := by
  unfold ensureManualSchedule
  cases h : findZone st z with
  | error e =>
    have := findZone_error_eq st z e h
    subst this
    simp
  | ok zone =>
    dsimp only
    by_cases hsched : zone.scheduleId = some (manualScheduleId z)
    · rw [if_pos hsched]
      simp
    · rw [if_neg hsched]
      rcases publishCommand_fst_cases st "set_manual_schedule" (some z)
        (setManualModeData z) with h2 | h2 <;> simp [h2]

theorem seqCmd_fst_cases (a : Except Error Unit × List Request)
    (b : Unit → Except Error Unit × List Request) :
    (seqCmd a b).1 = a.1 ∨ (a.1 = .ok () ∧ (seqCmd a b).1 = (b ()).1) := by
  rcases a with ⟨x, reqs⟩
  cases x with
  | error e => left; rfl
  | ok u => right; exact ⟨rfl, rfl⟩

theorem seqCmd_ok (a : Except Error Unit × List Request)
    (b : Unit → Except Error Unit × List Request)
    (h : (seqCmd a b).1 = .ok ()) :
    (seqCmd a b).2 = a.2 ++ (b ()).2 := by
  rcases a with ⟨x, reqs⟩
  cases x with
  | error e => exact absurd h (by simp [seqCmd])
  | ok u => rfl

theorem rustRound_intCast (k : ℤ) : rustRound (k : ℚ) = k := by
  unfold rustRound
  split
  · rw [show ((-(k : ℚ)) + 1/2 : ℚ) = ((-k : ℤ) : ℚ) + (1/2 : ℚ) by push_cast; ring]
    rw [Int.floor_int_add]
    norm_num
  · rw [Int.floor_int_add]
    norm_num

/-- Device-rounded Celsius values are half-integers, and half-integers round
to themselves. -/
theorem toLennoxCelsius_halfInt (k : ℤ) :
    Temperature.toLennoxCelsius ⟨(k : ℚ) / 2⟩ = (k : ℚ) / 2 := by
  unfold Temperature.toLennoxCelsius
  rw [show ((k : ℚ) / 2 * 2 : ℚ) = (k : ℚ) by ring, rustRound_intCast]

theorem toLennoxCelsius_eq_half (t : Temperature) :
    t.toLennoxCelsius = (rustRound (t.c * 2) : ℚ) / 2 := rfl

theorem tlc_f72 : (Temperature.fromFahrenheit 72).toLennoxCelsius = 22 := by
  norm_num [Temperature.fromFahrenheit, Temperature.toLennoxCelsius, rustRound]

theorem tlc_f73 : (Temperature.fromFahrenheit 73).toLennoxCelsius = 23 := by
  norm_num [Temperature.fromFahrenheit, Temperature.toLennoxCelsius, rustRound]

theorem tlc_f65 : (Temperature.fromFahrenheit 65).toLennoxCelsius = 37/2 := by
  norm_num [Temperature.fromFahrenheit, Temperature.toLennoxCelsius, rustRound]

theorem tlc_f75 : (Temperature.fromFahrenheit 75).toLennoxCelsius = 24 := by
  norm_num [Temperature.fromFahrenheit, Temperature.toLennoxCelsius, rustRound]

/-- Shared shape lemma: when the requested pair violates the deadband,
set_setpoints returns the invalid-setpoints error before anything else. -/
theorem setSetpoints_violation (st : ClientState) (zoneId : ℕ)
    (heat cool : Temperature)
    (h : cool.toLennoxCelsius < heat.toLennoxCelsius + DEADBAND_C) :
    setSetpoints st zoneId heat cool =
      (.error (.invalidSetpoints heat.toLennoxCelsius cool.toLennoxCelsius
        DEADBAND_C), []) := by
  unfold setSetpoints
  rw [if_pos h]

/-- Shared shape lemma: when the deadband holds, the result of set_setpoints
is never the invalid-setpoints error. -/
theorem setSetpoints_no_violation (st : ClientState) (zoneId : ℕ)
    (heat cool : Temperature)
    (h : ¬ cool.toLennoxCelsius < heat.toLennoxCelsius + DEADBAND_C) :
    ∀ hc cc db, (setSetpoints st zoneId heat cool).1 ≠
      .error (.invalidSetpoints hc cc db) := by
  intro hc cc db
  unfold setSetpoints
  rw [if_neg h]
  cases hz : findZone st zoneId with
  | error e =>
    have := findZone_error_eq st zoneId e hz
    subst this
    simp
  | ok zone =>
    dsimp only
    rcases seqCmd_fst_cases (ensureManualSchedule st zoneId)
      (fun _ => publishCommand st "set_setpoints" (some zoneId)
        (setSetpointData (manualScheduleId zoneId)
          heat.toLennoxFahrenheit heat.toLennoxCelsius
          cool.toLennoxFahrenheit cool.toLennoxCelsius)) with hs | ⟨_, hs⟩
    · rw [hs]
      rcases ensureManualSchedule_fst_cases st zoneId with h2 | h2 | h2 <;>
        simp [h2]
    · rw [hs]
      rcases publishCommand_fst_cases st "set_setpoints" (some zoneId)
        (setSetpointData (manualScheduleId zoneId)
          heat.toLennoxFahrenheit heat.toLennoxCelsius
          cool.toLennoxFahrenheit cool.toLennoxCelsius) with h2 | h2 <;>
        simp [h2]

/-! ### Claims -/

/-- C9: the structural differ never recurses into arrays — whenever the two
sides at a path are both arrays, or any pair of non-object values, a
difference is reported as exactly one change at that path carrying the whole
old and new values, and nothing is reported when they are equal. -/
theorem diffJson_atomic_nonobjects (prev curr : Json) (pre : List String)
    (h : (∃ xs ys, prev = Json.arr xs ∧ curr = Json.arr ys) ∨
      (prev.isObj = false ∧ curr.isObj = false)) :
    diffJson prev curr pre = if prev = curr then [] else [(pre, prev, curr)] := by
  rcases h with ⟨xs, ys, rfl, rfl⟩ | ⟨h1, h2⟩
  · simp [diffJson]
  · cases prev <;> cases curr <;> simp_all [diffJson, Json.isObj]

/-- Witness for C9 at concrete arrays differing in one element. -/
theorem diffJson_atomic_nonobjects_witness :
    diffJson (Json.arr [Json.num 1, Json.num 2])
        (Json.arr [Json.num 1, Json.num 3]) ["zones"] =
      [(["zones"], Json.arr [Json.num 1, Json.num 2],
        Json.arr [Json.num 1, Json.num 3])] ∧
    diffJson (Json.arr [Json.num 1, Json.num 2])
        (Json.arr [Json.num 1, Json.num 2]) ["zones"] = [] := by
  constructor
  · rw [diffJson_atomic_nonobjects _ _ _ (Or.inl ⟨_, _, rfl, rfl⟩)]
    rw [if_neg]
    intro hc
    have := (Json.arr.inj hc)
    simp only [List.cons.injEq] at this
    exact absurd (Json.num.inj this.2.1) (by norm_num)
  · rw [diffJson_atomic_nonobjects _ _ _ (Or.inl ⟨_, _, rfl, rfl⟩)]
    rw [if_pos rfl]

/-- C4: set_setpoints rejects with the invalid-setpoints error (carrying the
device-rounded Celsius values and the 1.5 threshold) exactly when the rounded
cool value is below the rounded heat value plus 1.5, sending nothing in that
case; otherwise it never fails on deadband grounds.  In particular the
72F/73F pair is rejected and the 65F/75F pair passes the deadband check. -/
theorem setSetpoints_deadband_policy (st : ClientState) (zoneId : ℕ)
    (heat cool : Temperature) :
    (cool.toLennoxCelsius < heat.toLennoxCelsius + DEADBAND_C →
      setSetpoints st zoneId heat cool =
        (.error (.invalidSetpoints heat.toLennoxCelsius cool.toLennoxCelsius
          DEADBAND_C), [])) ∧
    (¬ cool.toLennoxCelsius < heat.toLennoxCelsius + DEADBAND_C →
      ∀ hc cc db, (setSetpoints st zoneId heat cool).1 ≠
        .error (.invalidSetpoints hc cc db)) ∧
    setSetpoints st zoneId (Temperature.fromFahrenheit 72)
        (Temperature.fromFahrenheit 73) =
      (.error (.invalidSetpoints 22 23 DEADBAND_C), []) ∧
    (∀ hc cc db, (setSetpoints st zoneId (Temperature.fromFahrenheit 65)
        (Temperature.fromFahrenheit 75)).1 ≠
      .error (.invalidSetpoints hc cc db)) := by
  refine ⟨fun h => setSetpoints_violation st zoneId heat cool h,
    fun h => setSetpoints_no_violation st zoneId heat cool h, ?_, ?_⟩
  · have h := setSetpoints_violation st zoneId (Temperature.fromFahrenheit 72)
      (Temperature.fromFahrenheit 73) (by rw [tlc_f72, tlc_f73]; norm_num [DEADBAND_C])
    rw [h, tlc_f72, tlc_f73]
  · exact setSetpoints_no_violation st zoneId (Temperature.fromFahrenheit 65)
      (Temperature.fromFahrenheit 75) (by rw [tlc_f65, tlc_f75]; norm_num [DEADBAND_C])

/-- Witness for C4: the rejection branch evaluated on the fresh client. -/
theorem setSetpoints_deadband_policy_witness :
    setSetpoints ClientState.initial 0 (Temperature.fromFahrenheit 72)
        (Temperature.fromFahrenheit 73) =
      (.error (.invalidSetpoints 22 23 DEADBAND_C), []) ∧
    (∀ hc cc db, (setSetpoints ClientState.initial 0
        (Temperature.fromFahrenheit 65) (Temperature.fromFahrenheit 75)).1 ≠
      .error (.invalidSetpoints hc cc db)) :=
  ⟨(setSetpoints_deadband_policy ClientState.initial 0
      (Temperature.fromFahrenheit 72) (Temperature.fromFahrenheit 73)).2.2.1,
   (setSetpoints_deadband_policy ClientState.initial 0
      (Temperature.fromFahrenheit 65) (Temperature.fromFahrenheit 75)).2.2.2⟩

/-- C10: the deadband validation of set_setpoints runs before the zone lookup
and the connection check — for every client state (including one that never
connected and knows no zones), a violating pair yields the invalid-setpoints
error, not invalid-zone and not not-connected, and no request is sent. -/
theorem setSetpoints_validates_before_lookup (st : ClientState) (zoneId : ℕ)
    (heat cool : Temperature)
    (h : cool.toLennoxCelsius < heat.toLennoxCelsius + DEADBAND_C) :
    setSetpoints st zoneId heat cool =
      (.error (.invalidSetpoints heat.toLennoxCelsius cool.toLennoxCelsius
        DEADBAND_C), []) ∧
    (setSetpoints st zoneId heat cool).1 ≠ .error (.invalidZone zoneId) ∧
    (setSetpoints st zoneId heat cool).1 ≠ .error .notConnected := by
  have heq := setSetpoints_violation st zoneId heat cool h
  refine ⟨heq, ?_, ?_⟩ <;> rw [heq] <;> simp

/-- Witness for C10 on the never-connected, zoneless fresh client. -/
theorem setSetpoints_validates_before_lookup_witness :
    ClientState.initial.connected = false ∧
    ClientState.initial.systems = [] ∧
    setSetpoints ClientState.initial 7 (Temperature.fromFahrenheit 72)
        (Temperature.fromFahrenheit 73) =
      (.error (.invalidSetpoints 22 23 DEADBAND_C), []) := by
  refine ⟨rfl, rfl, ?_⟩
  have h := (setSetpoints_validates_before_lookup ClientState.initial 7
    (Temperature.fromFahrenheit 72) (Temperature.fromFahrenheit 73)
    (by rw [tlc_f72, tlc_f73]; norm_num [DEADBAND_C])).1
  rw [h, tlc_f72, tlc_f73]

/-- The range parameter of the circuit scenario: min 60, max 240, inc 30. -/
def hpLockoutParam : Parameter :=
  ⟨304, "HP Lockout Time", "60", true, .range 60 240 30 "min"⟩

/-- C8: a write to a numeric range parameter is accepted exactly when the
value parses as a number that lies within the min-max bounds and lands on the
increment grid from min within tolerance 1e-9, and a validation failure makes
set_equipment_parameter return the invalid-parameter error with no request
built; with min 60, max 240, inc 30 the value 90 is accepted, 300 is out of
range and 65 is off the increment grid. -/
theorem validateParameter_range_policy (p : Parameter) (pmin pmax pinc : ℚ)
    (unit : String) (hd : p.descriptor = .range pmin pmax pinc unit)
    (hinc : 0 < pinc) (value : String) :
    (validateParameter p value = .ok value ↔
      ∃ v, parseNum value = some v ∧ pmin ≤ v ∧ v ≤ pmax ∧
        |pmin + (rustRound ((v - pmin) / pinc) : ℚ) * pinc - v| ≤ 1/1000000000) ∧
    (∀ (st : ClientState) (eid pid : ℕ) (equipment : Equipment),
      (st.systems.flatMap (fun s2 => s2.equipments)).find? (fun e2 => e2.id == eid)
        = some equipment →
      paramLookup equipment.parameters pid = some p →
      p.enabled = true →
      ∀ reason, validateParameter p value = .error reason →
        setEquipmentParameter st eid pid value =
          (.error (.invalidParameter eid pid reason), [])) ∧
    validateParameter hpLockoutParam "90" = .ok "90" ∧
    validateParameter hpLockoutParam "300" = .error (.outOfRange 300 60 240) ∧
    validateParameter hpLockoutParam "65" = .error (.offGrid 65 30 60) := by
  refine ⟨?_, ?_, ?_, ?_, ?_⟩
  · unfold validateParameter
    rw [hd]
    cases hp : parseNum value with
    | none => simp [hp]
    | some v =>
      dsimp only
      by_cases hrange : v < pmin ∨ v > pmax
      · rw [if_pos hrange]
        simp only [reduceCtorEq, false_iff, not_exists, not_and]
        intro v2 hv2 h1 h2
        cases hv2
        rcases hrange with h | h
        · exact absurd h1 (by linarith)
        · exact absurd h2 (by linarith)
      · rw [if_neg hrange, if_pos hinc]
        push_neg at hrange
        by_cases hgrid : |pmin + (rustRound ((v - pmin) / pinc) : ℚ) * pinc - v| >
            1/1000000000
        · rw [if_pos hgrid]
          simp only [reduceCtorEq, false_iff, not_exists, not_and]
          intro v2 hv2 h1 h2
          cases hv2
          intro hle
          linarith
        · rw [if_neg hgrid]
          push_neg at hgrid
          simp only [Except.ok.injEq, true_iff]
          exact ⟨v, rfl, hrange.1, hrange.2, hgrid⟩
  · intro st eid pid equipment hfind hlook hen reason hval
    unfold setEquipmentParameter
    rw [hfind]
    dsimp only
    rw [hlook]
    dsimp only
    rw [hen]
    simp only [Bool.not_true, Bool.false_eq_true, if_false]
    rw [hval]
  · simp [validateParameter, hpLockoutParam, parseNum, splitDot, splitDotAux,
      digitsToNat, digitsToNatAux, rustRound]
    norm_num
  · simp [validateParameter, hpLockoutParam, parseNum, splitDot, splitDotAux,
      digitsToNat, digitsToNatAux, rustRound]
    norm_num
  · simp [validateParameter, hpLockoutParam, parseNum, splitDot, splitDotAux,
      digitsToNat, digitsToNatAux, rustRound]
    norm_num

/-- Witness for C8: the concrete rejection flows through
set_equipment_parameter on a client holding the parameter. -/
theorem validateParameter_range_policy_witness :
    validateParameter hpLockoutParam "90" = .ok "90" ∧
    validateParameter hpLockoutParam "300" = .error (.outOfRange 300 60 240) :=
  ⟨(validateParameter_range_policy hpLockoutParam 60 240 30 "min" rfl
      (by norm_num) "90").2.2.1,
   (validateParameter_range_policy hpLockoutParam 60 240 30 "min" rfl
      (by norm_num) "300").2.2.2.1⟩

def enfTrace0 : DiagEnforcer := DiagEnforcer.new 2 0
def enfTrace1 : DiagEnforcer := ((enfTrace0.shouldSend 0).2).recordSent 0
def enfTrace2 : DiagEnforcer := ((enfTrace1.shouldSend 400).2).recordSent 400
def enfTrace3 : DiagEnforcer := ((enfTrace2.shouldSend 800).2).recordSent 800
def enfTrace4 : DiagEnforcer := (enfTrace3.shouldSend 1200).2

/-- C7: a reassertion send is permitted exactly when fewer than 3 attempts
stand recorded in the current rolling hour window (the counter resets once
3600 seconds have elapsed since the window began) and at least 300 seconds
have elapsed since the last send; consequently in the concrete trace the
first three sends pass, a 4th request in the same window is suppressed, and
after the window rolls over reassertion is permitted again. -/
theorem diagEnforcer_circuit_breaker :
    (∀ (e : DiagEnforcer) (now : ℕ),
      ((e.shouldSend now).1 = true ↔
        ((if now - e.hourStart ≥ 3600 then 0 else e.attemptsThisHour) < 3 ∧
         ∀ t, e.lastSent = some t → 300 ≤ now - t))) ∧
    (enfTrace0.shouldSend 0).1 = true ∧
    (enfTrace1.shouldSend 400).1 = true ∧
    (enfTrace2.shouldSend 800).1 = true ∧
    (enfTrace3.shouldSend 1200).1 = false ∧
    (enfTrace4.shouldSend 3600).1 = true := by
  refine ⟨?_, by decide, by decide, by decide, by decide, by decide⟩
  intro e now
  unfold DiagEnforcer.shouldSend
  by_cases hwin : now - e.hourStart ≥ 3600
  · rw [if_pos hwin, if_pos hwin]
    dsimp only
    rw [if_neg (by norm_num)]
    cases hls : e.lastSent with
    | none => simp
    | some t =>
      dsimp only
      by_cases hcd : now - t < 300
      · rw [if_pos hcd]
        simp only [Bool.false_eq_true, false_iff, not_and]
        intro _ hall
        exact absurd (hall t rfl) (by omega)
      · rw [if_neg hcd]
        simp only [true_iff]
        exact ⟨by norm_num, fun t2 ht2 => by cases ht2; omega⟩
  · rw [if_neg hwin, if_neg hwin]
    by_cases hatt : e.attemptsThisHour ≥ 3
    · rw [if_pos hatt]
      simp only [Bool.false_eq_true, false_iff, not_and]
      intro hlt
      omega
    · rw [if_neg hatt]
      cases hls : e.lastSent with
      | none =>
        simp only [true_iff]
        exact ⟨by omega, fun t2 ht2 => by cases ht2⟩
      | some t =>
        dsimp only
        by_cases hcd : now - t < 300
        · rw [if_pos hcd]
          simp only [Bool.false_eq_true, false_iff, not_and]
          intro _ hall
          exact absurd (hall t rfl) (by omega)
        · rw [if_neg hcd]
          simp only [true_iff]
          exact ⟨by omega, fun t2 ht2 => by cases ht2; omega⟩

/-- Witness for C7: the characterization applied to the fresh enforcer. -/
theorem diagEnforcer_circuit_breaker_witness :
    ((DiagEnforcer.new 2 0).shouldSend 0).1 = true :=
  (diagEnforcer_circuit_breaker.1 (DiagEnforcer.new 2 0) 0).mpr
    ⟨by decide, fun t ht => by cases ht⟩

/-- C6: for the folded Fahrenheit/Celsius temperature pairs, a changed
Fahrenheit leaf yields exactly one typed temperature event carrying the
Celsius value, the Celsius companion leaf yields no event of any kind from
either classifier phase, and when either member of the pair is absent or not
numeric no typed temperature event fires for the Fahrenheit leaf. -/
theorem temperature_pair_folding (parent newValue : Json) (zid : ℕ)
    (name : String) :
    (∀ f c,
      (((parent.get "status").getD .null).get "outdoorTemperature").bind
          Json.asNum = some f →
      (((parent.get "status").getD .null).get "outdoorTemperatureC").bind
          Json.asNum = some c →
      mapTypedEvent .system ["status", "outdoorTemperature"] newValue "" parent =
        some (.outdoorTempChanged ⟨c⟩)) ∧
    (∀ f c,
      (((parent.get "status").getD .null).get "temperature").bind
          Json.asNum = some f →
      (((parent.get "status").getD .null).get "temperatureC").bind
          Json.asNum = some c →
      mapTypedEvent (.zone zid) ["status", "temperature"] newValue name parent =
        some (.zoneTemperatureChanged zid name ⟨c⟩)) ∧
    (∀ scope,
      mapTypedEvent scope ["status", "outdoorTemperatureC"] newValue name parent
        = none ∧
      genericEvent scope ["status", "outdoorTemperatureC"] newValue = none ∧
      mapTypedEvent scope ["status", "temperatureC"] newValue name parent
        = none ∧
      genericEvent scope ["status", "temperatureC"] newValue = none) ∧
    ((((parent.get "status").getD .null).get "outdoorTemperature").bind
          Json.asNum = none ∨
      (((parent.get "status").getD .null).get "outdoorTemperatureC").bind
          Json.asNum = none →
      mapTypedEvent .system ["status", "outdoorTemperature"] newValue "" parent
        = none) ∧
    ((((parent.get "status").getD .null).get "temperature").bind
          Json.asNum = none ∨
      (((parent.get "status").getD .null).get "temperatureC").bind
          Json.asNum = none →
      mapTypedEvent (.zone zid) ["status", "temperature"] newValue name parent
        = none) := by
  refine ⟨?_, ?_, ?_, ?_, ?_⟩
  · intro f c hf hc
    simp [mapTypedEvent, tryBuildTemperature, celsiusCompanion, temperaturePairs,
      hf, hc, Temperature.fromPair]
  · intro f c hf hc
    simp [mapTypedEvent, tryBuildTemperature, celsiusCompanion, temperaturePairs,
      hf, hc, Temperature.fromPair]
  · intro scope
    refine ⟨?_, ?_, ?_, ?_⟩ <;> cases scope <;>
      simp [mapTypedEvent, genericEvent, isCelsiusCompanion, temperaturePairs]
  · intro h
    rcases h with h | h <;>
      simp [mapTypedEvent, tryBuildTemperature, celsiusCompanion,
        temperaturePairs, h]
  · intro h
    rcases h with h | h <;>
      simp [mapTypedEvent, tryBuildTemperature, celsiusCompanion,
        temperaturePairs, h]

/-- Witness for C6 on the concrete payload with outdoorTemperature 72 and
outdoorTemperatureC 22: exactly one typed event carrying 22 Celsius. -/
theorem temperature_pair_folding_witness :
    mapTypedEvent .system ["status", "outdoorTemperature"] (.num 72) ""
        (.obj [("status", .obj [("outdoorTemperature", .num 72),
          ("outdoorTemperatureC", .num 22)])]) =
      some (.outdoorTempChanged ⟨22⟩) ∧
    genericEvent .system ["status", "outdoorTemperatureC"] (.num 22) = none := by
  constructor
  · exact (temperature_pair_folding
      (.obj [("status", .obj [("outdoorTemperature", .num 72),
        ("outdoorTemperatureC", .num 22)])]) (.num 72) 0 "").1 72 22
      (by simp [Json.get, jlookup, Json.asNum])
      (by simp [Json.get, jlookup, Json.asNum])
  · exact ((temperature_pair_folding
      (.obj [("status", .obj [("outdoorTemperature", .num 72),
        ("outdoorTemperatureC", .num 22)])]) (.num 22) 0 "").2.2.1 .system).2.1

theorem seqCmd_ok_parts (a : Except Error Unit × List Request)
    (b : Unit → Except Error Unit × List Request)
    (h : (seqCmd a b).1 = .ok ()) :
    a.1 = .ok () ∧ (b ()).1 = .ok () ∧ (seqCmd a b).2 = a.2 ++ (b ()).2 := by
  rcases a with ⟨x, reqs⟩
  cases x with
  | error e => exact absurd h (by simp [seqCmd])
  | ok u => exact ⟨rfl, h, rfl⟩

theorem publishCommand_ok_eq (st : ClientState) (a : String) (z : Option ℕ)
    (d : Json) (h : (publishCommand st a z d).1 = .ok ()) :
    publishCommand st a z d = (.ok (), [⟨a, z, d⟩]) := by
  unfold publishCommand at h ⊢
  split at h
  next hcon => rw [if_pos hcon]
  next hcon => exact absurd h (by simp)

theorem seq_ensure_publish_fst_cases (st : ClientState) (zid : ℕ)
    (action : String) (z : Option ℕ) (d : Json) :
    (seqCmd (ensureManualSchedule st zid) (fun _ => publishCommand st action z d)).1
        = .ok () ∨
    (seqCmd (ensureManualSchedule st zid) (fun _ => publishCommand st action z d)).1
        = .error (.invalidZone zid) ∨
    (seqCmd (ensureManualSchedule st zid) (fun _ => publishCommand st action z d)).1
        = .error .notConnected := by
  rcases seqCmd_fst_cases (ensureManualSchedule st zid)
    (fun _ => publishCommand st action z d) with hs | ⟨_, hs⟩
  · rw [hs]
    exact ensureManualSchedule_fst_cases st zid
  · rw [hs]
    rcases publishCommand_fst_cases st action z d with h2 | h2 <;> simp [h2]

/-- A device-rounded Celsius value shifted by the deadband rounds to
itself. -/
theorem fromCelsius_tlc_deadband (t : Temperature) :
    (Temperature.fromCelsius (t.toLennoxCelsius + DEADBAND_C)).toLennoxCelsius =
      t.toLennoxCelsius + DEADBAND_C := by
  have h : t.toLennoxCelsius + DEADBAND_C =
      ((rustRound (t.c * 2) + 3 : ℤ) : ℚ) / 2 := by
    rw [toLennoxCelsius_eq_half]
    unfold DEADBAND_C
    push_cast
    ring
  rw [h]
  exact toLennoxCelsius_halfInt (rustRound (t.c * 2) + 3)

theorem fromCelsius_tlc_deadband_down (t : Temperature) :
    (Temperature.fromCelsius (t.toLennoxCelsius - DEADBAND_C)).toLennoxCelsius =
      t.toLennoxCelsius - DEADBAND_C := by
  have h : t.toLennoxCelsius - DEADBAND_C =
      ((rustRound (t.c * 2) - 3 : ℤ) : ℚ) / 2 := by
    rw [toLennoxCelsius_eq_half]
    unfold DEADBAND_C
    push_cast
    ring
  rw [h]
  exact toLennoxCelsius_halfInt (rustRound (t.c * 2) - 3)

/-- C5: single-setpoint commands never fail on deadband grounds; with a
recorded cool setpoint C, set_heat_setpoint pushes the outbound cool Celsius
value to exactly H plus 1.5 when C (rounded) is below H (rounded) plus 1.5
and otherwise sends the prior C (device-rounded) unchanged; symmetrically
set_cool_setpoint pushes the outbound heat value down to C minus 1.5 or
sends the prior heat unchanged. -/
theorem single_setpoint_autocorrect (st : ClientState) (zid : ℕ)
    (temp : Temperature) (zone : Zone) :
    (∀ hcv ccv db, (setHeatSetpoint st zid temp).1 ≠
      .error (.invalidSetpoints hcv ccv db)) ∧
    (∀ hcv ccv db, (setCoolSetpoint st zid temp).1 ≠
      .error (.invalidSetpoints hcv ccv db)) ∧
    (∀ c, findZone st zid = .ok zone → zone.coolSetpoint = some c →
      (setHeatSetpoint st zid temp).1 = .ok () →
      (c.toLennoxCelsius < temp.toLennoxCelsius + DEADBAND_C →
        ∃ cspF, ((setHeatSetpoint st zid temp).2.getLast? =
          some ⟨"set_heat_setpoint", some zid,
            setSetpointData (manualScheduleId zid) temp.toLennoxFahrenheit
              temp.toLennoxCelsius cspF
              (temp.toLennoxCelsius + DEADBAND_C)⟩) ∧
          temp.toLennoxCelsius + DEADBAND_C ≤ temp.toLennoxCelsius + DEADBAND_C) ∧
      (¬ c.toLennoxCelsius < temp.toLennoxCelsius + DEADBAND_C →
        ∃ cspF, (setHeatSetpoint st zid temp).2.getLast? =
          some ⟨"set_heat_setpoint", some zid,
            setSetpointData (manualScheduleId zid) temp.toLennoxFahrenheit
              temp.toLennoxCelsius cspF c.toLennoxCelsius⟩)) ∧
    (∀ h2, findZone st zid = .ok zone → zone.heatSetpoint = some h2 →
      (setCoolSetpoint st zid temp).1 = .ok () →
      (h2.toLennoxCelsius > temp.toLennoxCelsius - DEADBAND_C →
        ∃ hspF, (setCoolSetpoint st zid temp).2.getLast? =
          some ⟨"set_cool_setpoint", some zid,
            setSetpointData (manualScheduleId zid) hspF
              (temp.toLennoxCelsius - DEADBAND_C)
              temp.toLennoxFahrenheit temp.toLennoxCelsius⟩) ∧
      (¬ h2.toLennoxCelsius > temp.toLennoxCelsius - DEADBAND_C →
        ∃ hspF, (setCoolSetpoint st zid temp).2.getLast? =
          some ⟨"set_cool_setpoint", some zid,
            setSetpointData (manualScheduleId zid) hspF h2.toLennoxCelsius
              temp.toLennoxFahrenheit temp.toLennoxCelsius⟩)) := by
  refine ⟨?_, ?_, ?_, ?_⟩
  · intro hcv ccv db
    unfold setHeatSetpoint
    cases hz : findZone st zid with
    | error e =>
      have := findZone_error_eq st zid e hz
      subst this
      simp
    | ok z2 =>
      dsimp only
      rcases seq_ensure_publish_fst_cases st zid "set_heat_setpoint" (some zid)
        (setSetpointData (manualScheduleId zid) temp.toLennoxFahrenheit
          temp.toLennoxCelsius
          (match z2.coolSetpoint with
           | some c =>
             if c.toLennoxCelsius < temp.toLennoxCelsius + DEADBAND_C then
               ((Temperature.fromCelsius (temp.toLennoxCelsius + DEADBAND_C)).toLennoxCelsius,
                (Temperature.fromCelsius (temp.toLennoxCelsius + DEADBAND_C)).toLennoxFahrenheit)
             else (c.toLennoxCelsius, c.toLennoxFahrenheit)
           | none =>
             ((Temperature.fromCelsius (temp.toLennoxCelsius + DEADBAND_C)).toLennoxCelsius,
              (Temperature.fromCelsius (temp.toLennoxCelsius + DEADBAND_C)).toLennoxFahrenheit) : ℚ × ℤ).2
          (match z2.coolSetpoint with
           | some c =>
             if c.toLennoxCelsius < temp.toLennoxCelsius + DEADBAND_C then
               ((Temperature.fromCelsius (temp.toLennoxCelsius + DEADBAND_C)).toLennoxCelsius,
                (Temperature.fromCelsius (temp.toLennoxCelsius + DEADBAND_C)).toLennoxFahrenheit)
             else (c.toLennoxCelsius, c.toLennoxFahrenheit)
           | none =>
             ((Temperature.fromCelsius (temp.toLennoxCelsius + DEADBAND_C)).toLennoxCelsius,
              (Temperature.fromCelsius (temp.toLennoxCelsius + DEADBAND_C)).toLennoxFahrenheit) : ℚ × ℤ).1)
        with hs | hs | hs <;> rw [hs] <;> simp
  · intro hcv ccv db
    unfold setCoolSetpoint
    cases hz : findZone st zid with
    | error e =>
      have := findZone_error_eq st zid e hz
      subst this
      simp
    | ok z2 =>
      dsimp only
      rcases seq_ensure_publish_fst_cases st zid "set_cool_setpoint" (some zid)
        (setSetpointData (manualScheduleId zid)
          (match z2.heatSetpoint with
           | some h3 =>
             if h3.toLennoxCelsius > temp.toLennoxCelsius - DEADBAND_C then
               ((Temperature.fromCelsius (temp.toLennoxCelsius - DEADBAND_C)).toLennoxCelsius,
                (Temperature.fromCelsius (temp.toLennoxCelsius - DEADBAND_C)).toLennoxFahrenheit)
             else (h3.toLennoxCelsius, h3.toLennoxFahrenheit)
           | none =>
             ((Temperature.fromCelsius (temp.toLennoxCelsius - DEADBAND_C)).toLennoxCelsius,
              (Temperature.fromCelsius (temp.toLennoxCelsius - DEADBAND_C)).toLennoxFahrenheit) : ℚ × ℤ).2
          (match z2.heatSetpoint with
           | some h3 =>
             if h3.toLennoxCelsius > temp.toLennoxCelsius - DEADBAND_C then
               ((Temperature.fromCelsius (temp.toLennoxCelsius - DEADBAND_C)).toLennoxCelsius,
                (Temperature.fromCelsius (temp.toLennoxCelsius - DEADBAND_C)).toLennoxFahrenheit)
             else (h3.toLennoxCelsius, h3.toLennoxFahrenheit)
           | none =>
             ((Temperature.fromCelsius (temp.toLennoxCelsius - DEADBAND_C)).toLennoxCelsius,
              (Temperature.fromCelsius (temp.toLennoxCelsius - DEADBAND_C)).toLennoxFahrenheit) : ℚ × ℤ).1
          temp.toLennoxFahrenheit temp.toLennoxCelsius)
        with hs | hs | hs <;> rw [hs] <;> simp
  · intro c hz hc hok
    unfold setHeatSetpoint at hok ⊢
    rw [hz] at hok ⊢
    dsimp only at hok ⊢
    rw [hc] at hok ⊢
    dsimp only at hok ⊢
    constructor
    · intro hlt
      rw [if_pos hlt] at hok ⊢
      have hparts := seqCmd_ok_parts _ _ hok
      have hpub := publishCommand_ok_eq _ _ _ _ hparts.2.1
      refine ⟨(Temperature.fromCelsius (temp.toLennoxCelsius + DEADBAND_C)).toLennoxFahrenheit,
        ?_, le_refl _⟩
      rw [hparts.2.2, hpub]
      rw [fromCelsius_tlc_deadband]
      simp
    · intro hge
      rw [if_neg hge] at hok ⊢
      have hparts := seqCmd_ok_parts _ _ hok
      have hpub := publishCommand_ok_eq _ _ _ _ hparts.2.1
      refine ⟨c.toLennoxFahrenheit, ?_⟩
      rw [hparts.2.2, hpub]
      simp
  · intro h2 hz hh hok
    unfold setCoolSetpoint at hok ⊢
    rw [hz] at hok ⊢
    dsimp only at hok ⊢
    rw [hh] at hok ⊢
    dsimp only at hok ⊢
    constructor
    · intro hlt
      rw [if_pos hlt] at hok ⊢
      have hparts := seqCmd_ok_parts _ _ hok
      have hpub := publishCommand_ok_eq _ _ _ _ hparts.2.1
      refine ⟨(Temperature.fromCelsius (temp.toLennoxCelsius - DEADBAND_C)).toLennoxFahrenheit, ?_⟩
      rw [hparts.2.2, hpub]
      rw [fromCelsius_tlc_deadband_down]
      simp
    · intro hge
      rw [if_neg hge] at hok ⊢
      have hparts := seqCmd_ok_parts _ _ hok
      have hpub := publishCommand_ok_eq _ _ _ _ hparts.2.1
      refine ⟨h2.toLennoxFahrenheit, ?_⟩
      rw [hparts.2.2, hpub]
      simp

def autoCorrectZone : Zone :=
  { id := 0, heatSetpoint := some ⟨21⟩, coolSetpoint := some ⟨49/2⟩,
    scheduleId := some 16 }

def autoCorrectState : ClientState :=
  { connected := true
    systems := [{ id := "0", zones := [autoCorrectZone] }]
    prevMap := []
    diagEnforcer := none
    diagReassertNeeded := false }

/-- Witness for C5: heat set to 74F (23.5 rounded) with recorded cool 24.5
pushes the outbound cool value to 25. -/
theorem single_setpoint_autocorrect_witness :
    (Temperature.mk (49/2)).toLennoxCelsius <
        (Temperature.fromFahrenheit 74).toLennoxCelsius + DEADBAND_C ∧
    ∃ cspF,
      (setHeatSetpoint autoCorrectState 0 (Temperature.fromFahrenheit 74)).2.getLast? =
        some ⟨"set_heat_setpoint", some 0,
          setSetpointData (manualScheduleId 0)
            (Temperature.fromFahrenheit 74).toLennoxFahrenheit
            (Temperature.fromFahrenheit 74).toLennoxCelsius cspF
            ((Temperature.fromFahrenheit 74).toLennoxCelsius + DEADBAND_C)⟩ := by
  have hlt : (Temperature.mk (49/2)).toLennoxCelsius <
      (Temperature.fromFahrenheit 74).toLennoxCelsius + DEADBAND_C := by
    norm_num [Temperature.toLennoxCelsius, Temperature.fromFahrenheit, rustRound,
      DEADBAND_C]
  have hok : (setHeatSetpoint autoCorrectState 0 (Temperature.fromFahrenheit 74)).1
      = .ok () := by
    simp [setHeatSetpoint, findZone, ensureManualSchedule, seqCmd, publishCommand,
      autoCorrectState, autoCorrectZone, manualScheduleId]
  obtain ⟨cspF, hlast, _⟩ :=
    ((single_setpoint_autocorrect autoCorrectState 0 (Temperature.fromFahrenheit 74)
      autoCorrectZone).2.2.1 ⟨49/2⟩ rfl rfl hok).1 hlt
  exact ⟨hlt, cspF, hlast⟩

/-- Counterexample to C3 as stated: on the fresh, never-connected client the
zone-targeted command set_hvac_mode fails with the invalid-zone error, which
is not the not-connected error (the pre-connect domain model knows no
zones). -/
theorem preconnect_not_connected_counterexample :
    setHvacMode ClientState.initial 0 .heat = (.error (.invalidZone 0), []) ∧
    Error.invalidZone 0 ≠ Error.notConnected := by
  constructor
  · simp [setHvacMode, seqCmd, ensureManualSchedule, findZone, ClientState.initial]
  · simp

/-- C3 amended: every command and poll invoked before connect() has succeeded
(the client is not connected and its domain model is empty) fails and
performs no outbound request; poll and set_away fail with not-connected,
zone-targeted commands fail with invalid-zone, a deadband-violating
set_setpoints fails with invalid-setpoints, and set_equipment_parameter fails
with invalid-parameter. -/
theorem preconnect_commands_fail (st : ClientState) (hcon : st.connected = false)
    (hsys : st.systems = []) (zid : ℕ) (mode : HvacMode) (fm : FanMode)
    (t1 t2 heat cool : Temperature) (away hold : Bool) (eid pid : ℕ)
    (value : String) :
    pollGate st = (.error .notConnected, []) ∧
    setAway st away = (.error .notConnected, []) ∧
    setHvacMode st zid mode = (.error (.invalidZone zid), []) ∧
    setFanMode st zid fm = (.error (.invalidZone zid), []) ∧
    setHeatSetpoint st zid t1 = (.error (.invalidZone zid), []) ∧
    setCoolSetpoint st zid t2 = (.error (.invalidZone zid), []) ∧
    setScheduleHold st zid hold = (.error (.invalidZone zid), []) ∧
    (¬ cool.toLennoxCelsius < heat.toLennoxCelsius + DEADBAND_C →
      setSetpoints st zid heat cool = (.error (.invalidZone zid), [])) ∧
    (cool.toLennoxCelsius < heat.toLennoxCelsius + DEADBAND_C →
      setSetpoints st zid heat cool =
        (.error (.invalidSetpoints heat.toLennoxCelsius cool.toLennoxCelsius
          DEADBAND_C), [])) ∧
    setEquipmentParameter st eid pid value =
      (.error (.invalidParameter eid pid .equipmentNotFound), []) := by
  have hfz : findZone st zid = .error (.invalidZone zid) := by
    unfold findZone
    rw [hsys]
    rfl
  refine ⟨?_, ?_, ?_, ?_, ?_, ?_, ?_, ?_, ?_, ?_⟩
  · simp [pollGate, hcon]
  · simp [setAway, publishCommand, hcon]
  · simp [setHvacMode, seqCmd, ensureManualSchedule, hfz]
  · simp [setFanMode, seqCmd, ensureManualSchedule, hfz]
  · simp [setHeatSetpoint, hfz]
  · simp [setCoolSetpoint, hfz]
  · simp [setScheduleHold, hfz]
  · intro h
    unfold setSetpoints
    rw [if_neg h, hfz]
  · exact fun h => setSetpoints_violation st zid heat cool h
  · unfold setEquipmentParameter
    rw [hsys]
    rfl

/-- Witness for C3 amended on the fresh client. -/
theorem preconnect_commands_fail_witness :
    ClientState.initial.connected = false ∧
    setAway ClientState.initial true = (.error .notConnected, []) ∧
    setFanMode ClientState.initial 3 .auto = (.error (.invalidZone 3), []) := by
  refine ⟨rfl, ?_, ?_⟩
  · exact (preconnect_commands_fail ClientState.initial rfl rfl 3 .heat .auto
      ⟨0⟩ ⟨0⟩ ⟨0⟩ ⟨0⟩ true true 0 0 "").2.1
  · exact (preconnect_commands_fail ClientState.initial rfl rfl 3 .heat .auto
      ⟨0⟩ ⟨0⟩ ⟨0⟩ ⟨0⟩ true true 0 0 "").2.2.2.1

theorem digitCharToNat (d : ℕ) (hd : d < 10) :
    (Char.ofNat (48 + d)).toNat = 48 + d := by
  interval_cases d <;> decide

theorem digitsToNatAux_append (xs : List Char) (c : Char) (acc : ℕ) :
    digitsToNatAux (xs ++ [c]) acc =
      (digitsToNatAux xs acc).bind (fun v => digitsToNatAux [c] v) := by
  induction xs generalizing acc with
  | nil => simp [digitsToNatAux]
  | cons x xs ih =>
    simp only [List.cons_append, digitsToNatAux]
    split
    · exact ih _
    · simp

theorem digitsToNatAux_natChars (n : ℕ) :
    digitsToNatAux (natChars n) 0 = some n := by
  rw [natChars]
  split
  next h =>
    simp [digitsToNatAux, digitCharToNat n h]
    omega
  next h =>
    rw [digitsToNatAux_append, digitsToNatAux_natChars (n / 10)]
    simp [digitsToNatAux, digitCharToNat (n % 10) (by omega)]
    constructor
    · omega
    · omega
termination_by n
decreasing_by exact Nat.div_lt_self (by omega) (by omega)

theorem natKey_injective (a b : ℕ) (h : natKey a = natKey b) : a = b := by
  have h2 : natChars a = natChars b := congrArg String.data h
  have ha := digitsToNatAux_natChars a
  rw [h2, digitsToNatAux_natChars b] at ha
  exact (Option.some.inj ha).symm

theorem jlookup_setFirst_self (l : List (String × Json)) (k : String) (v : Json) :
    jlookup (setFirst l k v) k = some v := by
  induction l with
  | nil => simp [setFirst, jlookup]
  | cons kv rest ih =>
    rcases kv with ⟨k1, v1⟩
    unfold setFirst
    by_cases h : k1 = k
    · rw [if_pos h]
      simp [jlookup, h]
    · rw [if_neg h]
      simp [jlookup, h, ih]

theorem jlookup_setFirst_ne (l : List (String × Json)) (k k2 : String) (v : Json)
    (h : k2 ≠ k) : jlookup (setFirst l k v) k2 = jlookup l k2 := by
  induction l with
  | nil =>
    unfold setFirst jlookup
    rw [if_neg (fun hc => h hc.symm)]
    rfl
  | cons kv rest ih =>
    rcases kv with ⟨k1, v1⟩
    unfold setFirst
    by_cases h1 : k1 = k
    · rw [if_pos h1]
      have hk : ¬ k1 = k2 := fun hc => h (hc.symm.trans h1)
      unfold jlookup
      rw [if_neg hk, if_neg hk]
    · rw [if_neg h1]
      unfold jlookup
      by_cases h2 : k1 = k2
      · rw [if_pos h2, if_pos h2]
      · rw [if_neg h2, if_neg h2]
        exact ih

theorem jlookup_none_of_not_mem (l : List (String × Json)) (k : String)
    (h : k ∉ keysOf l) : jlookup l k = none := by
  induction l with
  | nil => rfl
  | cons kv rest ih =>
    rcases kv with ⟨k1, v1⟩
    simp only [keysOf, List.map_cons, List.mem_cons, not_or] at h
    unfold jlookup
    rw [if_neg (fun hc => h.1 hc.symm)]
    exact ih h.2

theorem not_mem_of_contains_false (ks : List String) (k : String)
    (h : ks.contains k = false) : k ∉ ks := by
  simp at h
  exact h

theorem lookup_deepMergeFields_absent (tf sf : List (String × Json)) (k : String)
    (h : jlookup sf k = none) :
    jlookup (deepMergeFields tf sf) k = jlookup tf k := by
  induction sf generalizing tf with
  | nil => simp [deepMergeFields]
  | cons kv rest ih =>
    rcases kv with ⟨k1, v1⟩
    unfold jlookup at h
    by_cases h1 : k1 = k
    · rw [if_pos h1] at h
      exact absurd h (by simp)
    · rw [if_neg h1] at h
      rw [deepMergeFields]
      rw [ih _ h]
      exact jlookup_setFirst_ne tf k1 k _ (fun hc => h1 hc.symm)

theorem lookup_deepMergeFields_present (tf sf : List (String × Json)) (k : String)
    (v : Json) (hnd : nodupKeys (keysOf sf) = true) (h : jlookup sf k = some v) :
    jlookup (deepMergeFields tf sf) k =
      some (deepMerge ((jlookup tf k).getD .null) v) := by
  induction sf generalizing tf with
  | nil => exact absurd h (by simp [jlookup])
  | cons kv rest ih =>
    rcases kv with ⟨k1, v1⟩
    unfold jlookup at h
    unfold keysOf at hnd
    rw [List.map_cons] at hnd
    unfold nodupKeys at hnd
    simp only [Bool.and_eq_true, Bool.not_eq_eq_eq_not, Bool.not_true] at hnd
    by_cases h1 : k1 = k
    · rw [if_pos h1] at h
      cases h
      subst h1
      rw [deepMergeFields]
      have hrest : jlookup rest k1 = none :=
        jlookup_none_of_not_mem rest k1
          (not_mem_of_contains_false _ _ hnd.1)
      rw [lookup_deepMergeFields_absent _ _ _ hrest]
      exact jlookup_setFirst_self tf k1 _
    · rw [if_neg h1] at h
      rw [deepMergeFields]
      rw [ih _ hnd.2 h]
      rw [jlookup_setFirst_ne tf k1 k _ (fun hc => h1 hc.symm)]

theorem wfFields_mem (sf : List (String × Json)) (k : String) (v : Json)
    (hw : wfFields sf = true) (h : jlookup sf k = some v) : wfJson v = true := by
  induction sf with
  | nil => exact absurd h (by simp [jlookup])
  | cons kv rest ih =>
    rcases kv with ⟨k1, v1⟩
    rw [wfFields] at hw
    simp only [Bool.and_eq_true] at hw
    unfold jlookup at h
    by_cases h1 : k1 = k
    · rw [if_pos h1] at h
      cases h
      exact hw.1
    · rw [if_neg h1] at h
      exact ih hw.2 h

theorem jlookup_self_of_nodup (l : List (String × Json)) (k : String) (v : Json)
    (hnd : nodupKeys (keysOf l) = true) (hm : (k, v) ∈ l) :
    jlookup l k = some v := by
  induction l with
  | nil => exact absurd hm (by simp)
  | cons kv rest ih =>
    rcases kv with ⟨k1, v1⟩
    unfold keysOf at hnd
    rw [List.map_cons] at hnd
    unfold nodupKeys at hnd
    simp only [Bool.and_eq_true, Bool.not_eq_eq_eq_not, Bool.not_true] at hnd
    rcases List.mem_cons.mp hm with h | h
    · cases h
      simp [jlookup]
    · unfold jlookup
      by_cases h1 : k1 = k
      · subst h1
        exact absurd (List.mem_map.mpr ⟨(k1, v), h, rfl⟩)
          (not_mem_of_contains_false _ _ hnd.1)
      · rw [if_neg h1]
        exact ih hnd.2 h

mutual

theorem diffJson_self : ∀ (j : Json) (pre : List String),
    wfJson j = true → diffJson j j pre = []
  | .obj f, pre, hw => by
    simp only [wfJson, Bool.and_eq_true] at hw
    simp only [diffJson]
    exact diffFields_self f f pre
      (fun kv hkv => jlookup_self_of_nodup f kv.1 kv.2 hw.1 hkv) hw.2
  | .null, pre, _ => by simp [diffJson]
  | .bool b, pre, _ => by simp [diffJson]
  | .num q, pre, _ => by simp [diffJson]
  | .str s2, pre, _ => by simp [diffJson]
  | .arr xs, pre, _ => by simp [diffJson]
termination_by j => sizeOf j
decreasing_by all_goals (simp_wf; try omega)

theorem diffFields_self : ∀ (L cf : List (String × Json)) (pre : List String),
    (∀ kv, kv ∈ cf → jlookup L kv.1 = some kv.2) → wfFields cf = true →
    diffFields L cf pre = []
  | L, [], pre, hl, hw => by simp [diffFields]
  | L, (k, cv) :: rest, pre, hl, hw => by
    simp only [wfFields, Bool.and_eq_true] at hw
    simp only [diffFields]
    rw [hl (k, cv) (List.mem_cons_self _ _)]
    dsimp only
    rw [diffJson_self cv (pre ++ [k]) hw.1]
    rw [diffFields_self L rest pre
      (fun kv2 h2 => hl kv2 (List.mem_cons_of_mem _ h2)) hw.2]
    rfl
termination_by L cf => sizeOf cf
decreasing_by all_goals (simp_wf; try omega)

end

mutual

theorem diffJson_deepMerge : ∀ (t s : Json) (pre : List String),
    wfJson s = true → diffJson (deepMerge t s) s pre = []
  | .obj tf, .obj sf, pre, hw => by
    simp only [wfJson, Bool.and_eq_true] at hw
    simp only [deepMerge, diffJson]
    exact diffFields_merged (deepMergeFields tf sf) sf pre
      (fun kv hkv => ⟨(jlookup tf kv.1).getD .null,
        lookup_deepMergeFields_present tf sf kv.1 kv.2 hw.1
          (jlookup_self_of_nodup sf kv.1 kv.2 hw.1 hkv)⟩) hw.2
  | .null, .obj sf, pre, hw => by
    simp only [deepMerge]
    exact diffJson_self _ pre hw
  | .bool b, .obj sf, pre, hw => by
    simp only [deepMerge]
    exact diffJson_self _ pre hw
  | .num q, .obj sf, pre, hw => by
    simp only [deepMerge]
    exact diffJson_self _ pre hw
  | .str s2, .obj sf, pre, hw => by
    simp only [deepMerge]
    exact diffJson_self _ pre hw
  | .arr xs, .obj sf, pre, hw => by
    simp only [deepMerge]
    exact diffJson_self _ pre hw
  | t, .null, pre, hw => by cases t <;> simp [deepMerge, diffJson]
  | t, .bool b, pre, hw => by cases t <;> simp [deepMerge, diffJson]
  | t, .num q, pre, hw => by cases t <;> simp [deepMerge, diffJson]
  | t, .str s2, pre, hw => by cases t <;> simp [deepMerge, diffJson]
  | t, .arr xs, pre, hw => by cases t <;> simp [deepMerge, diffJson]
termination_by t s => sizeOf s
decreasing_by all_goals (simp_wf; try omega)

theorem diffFields_merged : ∀ (M sf : List (String × Json)) (pre : List String),
    (∀ kv, kv ∈ sf → ∃ t0, jlookup M kv.1 = some (deepMerge t0 kv.2)) →
    wfFields sf = true → diffFields M sf pre = []
  | M, [], pre, hl, hw => by simp [diffFields]
  | M, (k, cv) :: rest, pre, hl, hw => by
    simp only [wfFields, Bool.and_eq_true] at hw
    obtain ⟨t0, ht⟩ := hl (k, cv) (List.mem_cons_self _ _)
    simp only [diffFields]
    rw [ht]
    dsimp only
    rw [diffJson_deepMerge t0 cv (pre ++ [k]) hw.1]
    rw [diffFields_merged M rest pre
      (fun kv2 h2 => hl kv2 (List.mem_cons_of_mem _ h2)) hw.2]
    rfl
termination_by M sf => sizeOf sf
decreasing_by all_goals (simp_wf; try omega)

end

/-- The leaf at a dotted path is omitted from a payload subtree: the subtree
stays object-structured along the path and the next segment is eventually
absent. -/
def omittedAt : Json → List String → Prop
  | _, [] => False
  | s, k :: rest =>
    match s with
    | .obj sf =>
      match jlookup sf k with
      | none => True
      | some v => omittedAt v rest
    | _ => False

theorem jptr_of_omitted : ∀ (s : Json) (p : List String),
    omittedAt s p → jptr s p = none
  | s, [], h => absurd h (by simp [omittedAt])
  | s, k :: rest, h => by
    cases s with
    | obj sf =>
      simp only [omittedAt] at h
      unfold jptr Json.get
      dsimp only
      cases hl : jlookup sf k with
      | none => rfl
      | some v =>
        rw [hl] at h
        try simp only [Option.bind_some]
        exact jptr_of_omitted v rest h
    | null => exact absurd h (by simp [omittedAt])
    | bool b => exact absurd h (by simp [omittedAt])
    | num q => exact absurd h (by simp [omittedAt])
    | str s2 => exact absurd h (by simp [omittedAt])
    | arr xs => exact absurd h (by simp [omittedAt])

theorem jptr_deepMerge_omitted : ∀ (t s : Json) (p : List String),
    omittedAt s p → wfJson s = true → jptr (deepMerge t s) p = jptr t p
  | t, s, [], h, _ => absurd h (by simp [omittedAt])
  | t, s, k :: rest, h, hw => by
    cases s with
    | obj sf =>
      simp only [omittedAt] at h
      simp only [wfJson, Bool.and_eq_true] at hw
      cases t with
      | obj tf =>
        simp only [deepMerge]
        unfold jptr Json.get
        dsimp only
        cases hl : jlookup sf k with
        | none =>
          rw [lookup_deepMergeFields_absent tf sf k hl]
        | some v =>
          rw [hl] at h
          rw [lookup_deepMergeFields_present tf sf k v hw.1 hl]
          try simp only [Option.bind_some]
          cases ht : jlookup tf k with
          | some u =>
            simp only [Option.getD_some, Option.bind_some]
            exact jptr_deepMerge_omitted u v rest h (wfFields_mem sf k v hw.2 hl)
          | none =>
            simp only [Option.getD_none, Option.bind_none]
            have hv : deepMerge .null v = v := by
              cases v <;> simp [deepMerge]
            rw [hv]
            exact jptr_of_omitted v rest h
      | null =>
        simp only [deepMerge]
        rw [jptr_of_omitted (Json.obj sf) (k :: rest) (by simpa [omittedAt] using h)]
        rfl
      | bool b =>
        simp only [deepMerge]
        rw [jptr_of_omitted (Json.obj sf) (k :: rest) (by simpa [omittedAt] using h)]
        rfl
      | num q =>
        simp only [deepMerge]
        rw [jptr_of_omitted (Json.obj sf) (k :: rest) (by simpa [omittedAt] using h)]
        rfl
      | str s2 =>
        simp only [deepMerge]
        rw [jptr_of_omitted (Json.obj sf) (k :: rest) (by simpa [omittedAt] using h)]
        rfl
      | arr xs =>
        simp only [deepMerge]
        rw [jptr_of_omitted (Json.obj sf) (k :: rest) (by simpa [omittedAt] using h)]
        rfl
    | null => exact absurd h (by simp [omittedAt])
    | bool b => exact absurd h (by simp [omittedAt])
    | num q => exact absurd h (by simp [omittedAt])
    | str s2 => exact absurd h (by simp [omittedAt])
    | arr xs => exact absurd h (by simp [omittedAt])

theorem enforcerStep_prevMap (st : ClientState) (now : ℕ) :
    (enforcerStep st now).prevMap = st.prevMap := by
  unfold enforcerStep
  split
  · rfl
  · split
    · split
      · rfl
      · rfl
    · rfl

theorem processAlertsSection_prevMap (d : Json) (p : PassOut) :
    (processAlertsSection d p).st.prevMap = p.st.prevMap := by
  unfold processAlertsSection
  split <;> rfl

theorem processSystemSection_prevMap_ne (d : Json) (p : PassOut) (k : String)
    (hk : k ≠ "system") :
    jlookup (processSystemSection d p).st.prevMap k = jlookup p.st.prevMap k := by
  unfold processSystemSection
  cases d.get "system" with
  | none => rfl
  | some sd => exact jlookup_setFirst_ne _ _ _ _ hk

theorem processSystemSection_prevMap_self (d sd : Json) (p : PassOut)
    (h : d.get "system" = some sd) :
    jlookup (processSystemSection d p).st.prevMap "system" =
      some (deepMerge ((jlookup p.st.prevMap "system").getD .null) sd) := by
  unfold processSystemSection
  rw [h]
  exact jlookup_setFirst_self _ _ _

theorem processOccupancySection_prevMap_ne (d : Json) (p : PassOut) (k : String)
    (hk : k ≠ "occupancy") :
    jlookup (processOccupancySection d p).st.prevMap k = jlookup p.st.prevMap k := by
  unfold processOccupancySection
  cases d.get "occupancy" with
  | none => rfl
  | some occ => exact jlookup_setFirst_ne _ _ _ _ hk

theorem insertEntityMirror_lookup_ne (m : List (String × Json))
    (sk idk : String) (d : Json) (k : String) (hk : k ≠ sk) :
    jlookup (insertEntityMirror m sk idk d) k = jlookup m k := by
  unfold insertEntityMirror
  split
  · exact jlookup_setFirst_ne _ _ _ _ hk
  · rfl
  · exact jlookup_setFirst_ne _ _ _ _ hk

theorem processZoneEntry_prevMap_ne (p : PassOut) (zd : Json) (k : String)
    (hk : k ≠ "zones") :
    jlookup (processZoneEntry p zd).st.prevMap k = jlookup p.st.prevMap k := by
  unfold processZoneEntry
  cases (zd.get "id").bind Json.asNat with
  | none => rfl
  | some rawId => exact insertEntityMirror_lookup_ne _ _ _ _ _ hk

theorem processEquipEntry_prevMap_ne (p : PassOut) (ed : Json) (k : String)
    (hk : k ≠ "equipments") :
    jlookup (processEquipEntry p ed).st.prevMap k = jlookup p.st.prevMap k := by
  unfold processEquipEntry
  cases (ed.get "id").bind Json.asNat with
  | none => rfl
  | some rawId => exact insertEntityMirror_lookup_ne _ _ _ _ _ hk

theorem foldl_lookup_pres {α : Type} (f : PassOut → α → PassOut) (k : String)
    (hf : ∀ p x, jlookup (f p x).st.prevMap k = jlookup p.st.prevMap k) :
    ∀ (l : List α) (p : PassOut),
      jlookup (List.foldl f p l).st.prevMap k = jlookup p.st.prevMap k
  | [], p => rfl
  | x :: xs, p => by
    rw [List.foldl_cons, foldl_lookup_pres f k hf xs (f p x), hf]

theorem processZonesSection_prevMap_ne (d : Json) (p : PassOut) (k : String)
    (hk : k ≠ "zones") :
    jlookup (processZonesSection d p).st.prevMap k = jlookup p.st.prevMap k := by
  unfold processZonesSection
  split
  · exact foldl_lookup_pres _ k (fun p2 x => processZoneEntry_prevMap_ne p2 x k hk) _ _
  · rfl

theorem processEquipmentsSection_prevMap_ne (d : Json) (p : PassOut) (k : String)
    (hk : k ≠ "equipments") :
    jlookup (processEquipmentsSection d p).st.prevMap k =
      jlookup p.st.prevMap k := by
  unfold processEquipmentsSection
  split
  · exact foldl_lookup_pres _ k (fun p2 x => processEquipEntry_prevMap_ne p2 x k hk) _ _
  · rfl

/-- The mirror entry under the zones key is absent or an object (holds for
every state the client can reach; the fresh client has an empty mirror). -/
def zonesSlotOk (m : List (String × Json)) : Prop :=
  match jlookup m "zones" with
  | none => True
  | some (.obj _) => True
  | some _ => False

theorem processZoneEntry_mirror_self (p : PassOut) (zd : Json) (rawId : ℕ)
    (hid : (zd.get "id").bind Json.asNat = some rawId)
    (hslot : zonesSlotOk p.st.prevMap) :
    ∃ inner,
      jlookup (processZoneEntry p zd).st.prevMap "zones" = some (.obj inner) ∧
      jlookup inner (natKey (rawId % 2 ^ 8)) = some zd := by
  unfold processZoneEntry
  rw [hid]
  dsimp only
  unfold zonesSlotOk at hslot
  unfold insertEntityMirror
  cases hz : jlookup p.st.prevMap "zones" with
  | none =>
    refine ⟨[(natKey (rawId % 2 ^ 8), zd)], ?_, ?_⟩
    · exact jlookup_setFirst_self _ _ _
    · simp [jlookup]
  | some j =>
    cases j with
    | obj inner0 =>
      refine ⟨setFirst inner0 (natKey (rawId % 2 ^ 8)) zd, ?_, ?_⟩
      · exact jlookup_setFirst_self _ _ _
      · exact jlookup_setFirst_self _ _ _
    | null => rw [hz] at hslot; exact absurd hslot (by simp)
    | bool b => rw [hz] at hslot; exact absurd hslot (by simp)
    | num q => rw [hz] at hslot; exact absurd hslot (by simp)
    | str s2 => rw [hz] at hslot; exact absurd hslot (by simp)
    | arr xs => rw [hz] at hslot; exact absurd hslot (by simp)

/-- Counterexample payloads for the mirror policy: a first payload carrying a
zone temperature and a later payload for the same zone carrying only a
humidity reading. -/
def zoneTempPayload : Json := .obj [("zones", .arr [.obj
  [("id", .num 0),
   ("status", .obj [("temperature", .num 70), ("temperatureC", .num 21)])]])]

def zoneHumidityPayload : Json := .obj [("zones", .arr [.obj
  [("id", .num 0), ("status", .obj [("humidity", .num 45)])]])]

/-- Core of the mirror-policy analysis: the system section deep-merges into
the previous-payload mirror, a singleton zones entry replaces its mirror
entry wholesale. -/
theorem mirror_merge_core (d : Json) (now : ℕ) (st : ClientState) :
    (∀ sd, d.get "system" = some sd →
      jlookup (processData d now st).st.prevMap "system" =
        some (deepMerge ((jlookup st.prevMap "system").getD .null) sd) ∧
      (∀ p, omittedAt sd p → wfJson sd = true →
        jptr ((jlookup (processData d now st).st.prevMap "system").getD .null) p =
          jptr ((jlookup st.prevMap "system").getD .null) p)) ∧
    (∀ zd rawId, d.get "zones" = some (.arr [zd]) →
      (zd.get "id").bind Json.asNat = some rawId →
      zonesSlotOk st.prevMap →
      (∃ inner,
        jlookup (processData d now st).st.prevMap "zones" = some (.obj inner) ∧
        jlookup inner (natKey (rawId % 2 ^ 8)) = some zd) ∧
      (∀ p, omittedAt zd p →
        ((jlookup (processData d now st).st.prevMap "zones").bind
          (fun zm => (zm.get (natKey (rawId % 2 ^ 8))).bind
            (fun z => jptr z p))) = none)) := by
  have hq0 : (processData d now st).st.prevMap =
      (processAlertsSection d
        (processEquipmentsSection d
          (processZonesSection d
            (processOccupancySection d
              (processSystemSection d ⟨st, [], []⟩))))).st.prevMap := by
    unfold processData
    rw [enforcerStep_prevMap]
  constructor
  · intro sd hsd
    have hsys : jlookup (processData d now st).st.prevMap "system" =
        some (deepMerge ((jlookup st.prevMap "system").getD .null) sd) := by
      rw [hq0, processAlertsSection_prevMap,
        processEquipmentsSection_prevMap_ne _ _ _ (by decide),
        processZonesSection_prevMap_ne _ _ _ (by decide),
        processOccupancySection_prevMap_ne _ _ _ (by decide),
        processSystemSection_prevMap_self d sd _ hsd]
    refine ⟨hsys, fun p hom hw => ?_⟩
    rw [hsys]
    simp only [Option.getD_some]
    exact jptr_deepMerge_omitted _ sd p hom hw
  · intro zd rawId hz hid hslot
    have hpres : jlookup (processOccupancySection d
        (processSystemSection d ⟨st, [], []⟩)).st.prevMap "zones" =
        jlookup st.prevMap "zones" := by
      rw [processOccupancySection_prevMap_ne _ _ _ (by decide),
        processSystemSection_prevMap_ne _ _ _ (by decide)]
    have hslot2 : zonesSlotOk (processOccupancySection d
        (processSystemSection d ⟨st, [], []⟩)).st.prevMap := by
      unfold zonesSlotOk at hslot ⊢
      rw [hpres]
      exact hslot
    have hzsec : processZonesSection d (processOccupancySection d
        (processSystemSection d ⟨st, [], []⟩)) =
        processZoneEntry (processOccupancySection d
          (processSystemSection d ⟨st, [], []⟩)) zd := by
      unfold processZonesSection
      rw [hz]
      dsimp only
      rw [List.foldl_cons, List.foldl_nil]
    obtain ⟨inner, h1, h2⟩ :=
      processZoneEntry_mirror_self _ zd rawId hid hslot2
    have hzon : jlookup (processData d now st).st.prevMap "zones" =
        some (.obj inner) := by
      rw [hq0, processAlertsSection_prevMap,
        processEquipmentsSection_prevMap_ne _ _ _ (by decide), hzsec, h1]
    refine ⟨⟨inner, hzon, h2⟩, fun p hom => ?_⟩
    rw [hzon]
    try simp only [Option.bind_some, Option.some_bind]
    show (jlookup inner (natKey (rawId % 2 ^ 8))).bind (fun z => jptr z p) = none
    rw [h2]
    try simp only [Option.bind_some, Option.some_bind]
    exact jptr_of_omitted zd p hom

/-- Counterexample to C2 as stated: the zone temperature leaf is present in
the mirror after the first payload, the second payload for the same zone
omits it (while staying object-structured), and after processing the second
payload the mirror has lost it — the zones mirror entry was replaced
wholesale, not deep-merged. -/
theorem mirror_wholesale_counterexample :
    ((jlookup (processData zoneTempPayload 0 ClientState.initial).st.prevMap
        "zones").bind (fun zm => (zm.get "0").bind
          (fun z => jptr z ["status", "temperature"]))) = some (.num 70) ∧
    omittedAt (.obj [("id", .num 0), ("status", .obj [("humidity", .num 45)])])
      ["status", "temperature"] ∧
    ((jlookup (processData zoneHumidityPayload 1
        (processData zoneTempPayload 0 ClientState.initial).st).st.prevMap
          "zones").bind (fun zm => (zm.get "0").bind
            (fun z => jptr z ["status", "temperature"]))) = none := by
  have hkey : natKey (0 % 2 ^ 8) = "0" := by simp [natKey, natChars]
  obtain ⟨⟨inner, hzon, h2⟩, _⟩ :=
    (mirror_merge_core zoneTempPayload 0 ClientState.initial).2
      (.obj [("id", .num 0),
        ("status", .obj [("temperature", .num 70), ("temperatureC", .num 21)])])
      0 rfl (by simp [Json.get, jlookup, Json.asNat])
      (by simp [zonesSlotOk, ClientState.initial, jlookup])
  rw [hkey] at h2
  have hom : omittedAt
      (.obj [("id", .num 0), ("status", .obj [("humidity", .num 45)])])
      ["status", "temperature"] := by
    simp [omittedAt, jlookup]
  refine ⟨?_, hom, ?_⟩
  · rw [hzon]
    simp only [Option.some_bind, Json.get]
    rw [h2]
    simp [jptr, Json.get, jlookup]
  · obtain ⟨_, hnone⟩ :=
      (mirror_merge_core zoneHumidityPayload 1
        (processData zoneTempPayload 0 ClientState.initial).st).2
        (.obj [("id", .num 0), ("status", .obj [("humidity", .num 45)])])
        0 rfl (by simp [Json.get, jlookup, Json.asNat])
        (by unfold zonesSlotOk; rw [hzon]; trivial)
    have := hnone ["status", "temperature"] hom
    rw [hkey] at this
    exact this

def sysDiagPayload : Json :=
  .obj [("system", .obj [("status", .obj [("diagLevel", .num 5)])])]


/-! ### C1: infrastructure for the second-pass idempotence analysis -/

/-- The id list of a systems vector. -/
def systemIds (ss : List System) : List String := ss.map System.id

/-- Position of system "0" in the systems vector. -/
def zeroIdx (ss : List System) : Option ℕ := findPos (fun s => s.id == "0") ss

/-- Either system "0" sits at index i, or it is absent and i is the index at
which ensure_system will create it. -/
def PreSat (i : ℕ) (ss : List System) : Prop :=
  zeroIdx ss = some i ∨ (zeroIdx ss = none ∧ ss.length = i)

/-- The away-relevant fields of a system (the inputs of System::is_away). -/
def awayA (s : System) : Bool × Bool × String :=
  (s.manualAway, s.smartAwayEnabled, s.smartAwaySetpointState)

/-- The transformer an occupancy payload applies to the away fields. -/
def occAway (occ : Json) (a : Bool × Bool × String) : Bool × Bool × String :=
  let m := match (occ.get "manualAway").bind Json.asBool with
    | some b => b
    | none => a.1
  match jptr occ ["smartAway"] with
  | some sa =>
    let e := match (sa.get "enabled").bind Json.asBool with
      | some b => b
      | none => a.2.1
    let v := match (sa.get "setpointState").bind Json.asStr with
      | some v => v
      | none => a.2.2
    (m, e, v)
  | none => (m, a.2.1, a.2.2)

/-- The transformer a zone payload applies to the override flag. -/
def zoneOverride (d : Json) (zoneId : ℕ) (b : Bool) : Bool :=
  match jptr d ["config", "scheduleHold"] with
  | some hold =>
    let holdSched := (((hold.get "scheduleId").bind Json.asNat).getD 0) % 2 ^ 32
    let enabled := ((hold.get "enabled").bind Json.asBool).getD false
    holdSched = overrideScheduleId zoneId ∧ enabled
  | none => b

/-- The zone entry list of a payload. -/
def zoneEntries (d : Json) : List Json :=
  match d.get "zones" with
  | some (.arr zs) => zs
  | _ => []

/-- The equipment entry list of a payload. -/
def equipEntries (d : Json) : List Json :=
  match d.get "equipments" with
  | some (.arr es) => es
  | _ => []

/-- The truncated zone id of a zone entry. -/
def zoneIdOf (e : Json) : Option ℕ :=
  ((e.get "id").bind Json.asNat).map (fun r => r % 2 ^ 8)

/-- The truncated equipment id of an equipment entry. -/
def equipIdOf (e : Json) : Option ℕ :=
  ((e.get "id").bind Json.asNat).map (fun r => r % 2 ^ 16)

/-- The parameter entry list of an equipment entry. -/
def paramEntriesOf (d : Json) : List Json :=
  match jptr d ["equipment", "parameters"] with
  | some (.arr ps) => ps
  | _ => []

/-- The truncated pid of a parameter entry. -/
def pidOf (pe : Json) : Option ℕ :=
  (pe.get "parameter").bind
    (fun pd => ((pd.get "pid").bind Json.asNat).map (fun r => r % 2 ^ 16))

/-- The payload carries no alerts.active array, so the alerts section is
skipped. -/
def noAlertsActive (d : Json) : Prop :=
  match (d.get "alerts").bind (fun a => a.get "active") with
  | some (.arr _) => False
  | _ => True

/-- The mirror entry under a section key is absent or an object (true in
every reachable client state: those keys are only ever written with
objects). -/
def slotObjOk (m : List (String × Json)) (k : String) : Prop :=
  match jlookup m k with
  | none => True
  | some (.obj _) => True
  | some _ => False

/-- The stored parameters of the equipment with a given id agree with the
parameter entries of an equipment payload entry. -/
def EquipFact (ss : List System) (i m : ℕ) (e : Json) : Prop :=
  ∀ q, ((getSys ss i).equipments.find? (fun x => x.id == m)) = some q →
    ∀ pe ∈ paramEntriesOf e, ∀ pd p, pe.get "parameter" = some pd →
      pidOf pe = some p → paramLookup q.parameters p = some (buildParam pd p)

/-- Everything one process_data pass guarantees about the resulting client
state relative to the same payload: the facts that make an immediate second
pass emit no events. -/
def Saturated (d : Json) (i : ℕ) (st : ClientState) : Prop :=
  PreSat i st.systems
  ∧ slotObjOk st.prevMap "zones"
  ∧ slotObjOk st.prevMap "equipments"
  ∧ (∀ sd, d.get "system" = some sd →
      ∃ p0, jlookup st.prevMap "system" = some (deepMerge p0 sd))
  ∧ (∀ occ, d.get "occupancy" = some occ →
      ∃ a0, awayA (getSys st.systems i) = occAway occ a0)
  ∧ (∀ e ∈ zoneEntries d, ∀ n, zoneIdOf e = some n →
      ((jlookup st.prevMap "zones").bind (fun zm => zm.get (natKey n))) = some e
      ∧ ∃ z0, ((getSys st.systems i).zones.find? (fun z => z.id == n)) =
          some (applyZoneJson z0 n e))
  ∧ (∀ e ∈ equipEntries d, ∀ m, equipIdOf e = some m →
      ((jlookup st.prevMap "equipments").bind (fun em => em.get (natKey m))) = some e
      ∧ EquipFact st.systems i m e)

/-- The payload hygiene assumptions of the idempotence theorem: well-formed
JSON and pairwise distinct entity ids and pids. -/
def WfPayload (d : Json) : Prop :=
  wfJson d = true
  ∧ ((zoneEntries d).filterMap zoneIdOf).Nodup
  ∧ ((equipEntries d).filterMap equipIdOf).Nodup
  ∧ (∀ e ∈ equipEntries d, ((paramEntriesOf e).filterMap pidOf).Nodup)

/-- The snapshot-set transformer of one zones/equipments entry. -/
def snapStep (idOf : Json → Option ℕ) (i : ℕ) (acc : List ℕ) (e : Json) :
    List ℕ :=
  match idOf e with
  | some _ => insertSnap acc i
  | none => acc

/-- The snapshot list one pass over an alert-free payload produces, as a
function of the payload and the index of system "0". -/
def snapsPlan (d : Json) (i : ℕ) : List ℕ :=
  let s1 : List ℕ := match d.get "system" with
    | some _ => insertSnap [] i
    | none => []
  let s2 := match d.get "occupancy" with
    | some _ => insertSnap s1 i
    | none => s1
  let s3 := (zoneEntries d).foldl (snapStep zoneIdOf i) s2
  (equipEntries d).foldl (snapStep equipIdOf i) s3

theorem zeroIdx_eq_of_ids (ss1 ss2 : List System)
    (h : systemIds ss1 = systemIds ss2) : zeroIdx ss1 = zeroIdx ss2 := by
  induction ss1 generalizing ss2 with
  | nil =>
    cases ss2 with
    | nil => rfl
    | cons b t => simp [systemIds] at h
  | cons a t ih =>
    cases ss2 with
    | nil => simp [systemIds] at h
    | cons b t2 =>
      simp only [systemIds, List.map_cons, List.cons.injEq] at h
      simp only [zeroIdx, findPos, h.1]
      by_cases hb : b.id == "0"
      · rw [if_pos hb, if_pos hb]
      · rw [if_neg hb, if_neg hb]
        have := ih t2 h.2
        simp only [zeroIdx] at this
        rw [this]

theorem zeroIdx_lt_length (ss : List System) (i : ℕ)
    (h : zeroIdx ss = some i) : i < ss.length := by
  induction ss generalizing i with
  | nil => simp [zeroIdx, findPos] at h
  | cons a t ih =>
    simp only [zeroIdx, findPos] at h
    by_cases ha : a.id == "0"
    · rw [if_pos ha] at h
      cases h
      simp
    · rw [if_neg ha] at h
      cases ht : findPos (fun s => s.id == "0") t with
      | none => rw [ht] at h; simp at h
      | some j =>
        rw [ht] at h
        simp at h
        have := ih j ht
        simp only [List.length_cons]
        omega

theorem zeroIdx_append_zero (ss : List System) (h : zeroIdx ss = none) :
    zeroIdx (ss ++ [{ id := "0" }]) = some ss.length := by
  induction ss with
  | nil => simp [zeroIdx, findPos]
  | cons a t ih =>
    simp only [zeroIdx, findPos, List.cons_append] at h ⊢
    by_cases ha : a.id == "0"
    · rw [if_pos ha] at h; simp at h
    · rw [if_neg ha] at h ⊢
      cases hft : findPos (fun s => s.id == "0") t with
      | some j => rw [hft] at h; simp at h
      | none =>
        have := ih (by simpa [zeroIdx] using hft)
        simp only [zeroIdx] at this
        simp only [List.append_eq]
        rw [this]
        simp

theorem getSys_modifyAt_self (ss : List System) (i : ℕ) (f : System → System)
    (h : i < ss.length) : getSys (modifyAt ss i f) i = f (getSys ss i) := by
  induction ss generalizing i with
  | nil => simp at h
  | cons a t ih =>
    cases i with
    | zero => simp [modifyAt, getSys]
    | succ j =>
      simp only [modifyAt, getSys, List.get?_cons_succ]
      exact ih j (by simpa using h)

theorem systemIds_modifyAt (ss : List System) (i : ℕ) (f : System → System)
    (hf : ∀ s, (f s).id = s.id) :
    systemIds (modifyAt ss i f) = systemIds ss := by
  induction ss generalizing i with
  | nil => rfl
  | cons a t ih =>
    cases i with
    | zero => simp [modifyAt, systemIds, hf]
    | succ j =>
      have := ih j
      simp only [systemIds] at this
      simp [modifyAt, systemIds, this]

theorem ensureSystem_presat (ss : List System) (i : ℕ) (h : PreSat i ss) :
    (ensureSystem ss "0").2 = i
    ∧ zeroIdx (ensureSystem ss "0").1 = some i
    ∧ awayA (getSys (ensureSystem ss "0").1 i) = awayA (getSys ss i)
    ∧ (getSys (ensureSystem ss "0").1 i).zones = (getSys ss i).zones
    ∧ (getSys (ensureSystem ss "0").1 i).equipments = (getSys ss i).equipments := by
  cases h with
  | inl hz =>
    have : ensureSystem ss "0" = (ss, i) := by
      unfold ensureSystem
      rw [show findPos (fun s => s.id == "0") ss = some i from hz]
    rw [this]
    exact ⟨rfl, hz, rfl, rfl, rfl⟩
  | inr hz =>
    obtain ⟨hn, hlen⟩ := hz
    have : ensureSystem ss "0" = (ss ++ [{ id := "0" }], ss.length) := by
      unfold ensureSystem
      rw [show findPos (fun s => s.id == "0") ss = none from hn]
    rw [this]
    subst hlen
    refine ⟨rfl, zeroIdx_append_zero ss hn, ?_, ?_, ?_⟩ <;>
    · have h1 : getSys (ss ++ [{ id := "0" }]) ss.length = { id := "0" } := by
        simp [getSys, List.get?_concat_length]
      have h2 : getSys ss ss.length = {} := by
        simp [getSys, List.get?_eq_none.mpr (le_refl ss.length)]
      rw [h1, h2]
      try rfl

theorem presat_some_of_ensure (ss : List System) (i : ℕ) (h : PreSat i ss) :
    zeroIdx (ensureSystem ss "0").1 = some i :=
  (ensureSystem_presat ss i h).2.1

theorem presat_init (ss : List System) : PreSat (ensureSystem ss "0").2 ss := by
  unfold ensureSystem PreSat zeroIdx
  cases h : findPos (fun s => s.id == "0") ss with
  | some i => exact Or.inl rfl
  | none => exact Or.inr ⟨rfl, rfl⟩

theorem updateSystemFromJson_frame (s : System) (d : Json) :
    (updateSystemFromJson s d).id = s.id
    ∧ awayA (updateSystemFromJson s d) = awayA s
    ∧ (updateSystemFromJson s d).zones = s.zones
    ∧ (updateSystemFromJson s d).equipments = s.equipments := by
  simp only [updateSystemFromJson, awayA]
  repeat' split
  all_goals exact ⟨rfl, rfl, rfl, rfl⟩

theorem applyOccupancy_frame (s : System) (occ : Json) :
    (applyOccupancy s occ).id = s.id
    ∧ (applyOccupancy s occ).zones = s.zones
    ∧ (applyOccupancy s occ).equipments = s.equipments := by
  simp only [applyOccupancy]
  repeat' split
  all_goals exact ⟨rfl, rfl, rfl⟩

theorem applyOccupancy_awayA (s : System) (occ : Json) :
    awayA (applyOccupancy s occ) = occAway occ (awayA s) := by
  unfold applyOccupancy occAway
  cases hsa : jptr occ ["smartAway"] with
  | none => cases hm : (occ.get "manualAway").bind Json.asBool <;> rfl
  | some sa =>
    dsimp only
    cases hm : (occ.get "manualAway").bind Json.asBool <;>
    cases he : (sa.get "enabled").bind Json.asBool <;>
    cases hv : (sa.get "setpointState").bind Json.asStr <;> rfl

theorem occAway_idem (occ : Json) (a : Bool × Bool × String) :
    occAway occ (occAway occ a) = occAway occ a := by
  unfold occAway
  cases hsa : jptr occ ["smartAway"] with
  | none => cases hm : (occ.get "manualAway").bind Json.asBool <;> rfl
  | some sa =>
    dsimp only
    cases hm : (occ.get "manualAway").bind Json.asBool <;>
    cases he : (sa.get "enabled").bind Json.asBool <;>
    cases hv : (sa.get "setpointState").bind Json.asStr <;> rfl

theorem isAway_eq_of_awayA (s1 s2 : System) (h : awayA s1 = awayA s2) :
    s1.isAway = s2.isAway := by
  simp only [awayA, Prod.mk.injEq] at h
  simp only [System.isAway, h.1, h.2.1, h.2.2]

theorem zoneNameStage_frame (z : Zone) (d : Json) :
    (zoneNameStage z d).id = z.id
    ∧ (zoneNameStage z d).overrideActive = z.overrideActive := by
  simp only [zoneNameStage]
  repeat' split
  all_goals exact ⟨rfl, rfl⟩

theorem zoneStatusStage1_frame (z : Zone) (status : Json) :
    (zoneStatusStage1 z status).id = z.id
    ∧ (zoneStatusStage1 z status).overrideActive = z.overrideActive := by
  simp only [zoneStatusStage1]
  repeat' split
  all_goals exact ⟨rfl, rfl⟩

theorem zonePeriodStage_frame (z : Zone) (period : Json) :
    (zonePeriodStage z period).id = z.id
    ∧ (zonePeriodStage z period).overrideActive = z.overrideActive := by
  simp only [zonePeriodStage]
  repeat' split
  all_goals exact ⟨rfl, rfl⟩

theorem zoneStatusStage2_frame (z : Zone) (status : Json) :
    (zoneStatusStage2 z status).id = z.id
    ∧ (zoneStatusStage2 z status).overrideActive = z.overrideActive := by
  simp only [zoneStatusStage2]
  repeat' split
  all_goals exact ⟨rfl, rfl⟩

theorem zoneCfgStage_frame (z : Zone) (d : Json) :
    (zoneCfgStage z d).id = z.id
    ∧ (zoneCfgStage z d).overrideActive = z.overrideActive := by
  simp only [zoneCfgStage]
  repeat' split
  all_goals exact ⟨rfl, rfl⟩

theorem applyZoneJson_id (z : Zone) (n : ℕ) (d : Json) :
    (applyZoneJson z n d).id = z.id := by
  simp only [applyZoneJson]
  split
  · dsimp only
    rw [(zoneCfgStage_frame _ _).1, (zoneStatusStage2_frame _ _).1,
      (zonePeriodStage_frame _ _).1, (zoneStatusStage1_frame _ _).1,
      (zoneNameStage_frame _ _).1]
  · rw [(zoneCfgStage_frame _ _).1, (zoneStatusStage2_frame _ _).1,
      (zonePeriodStage_frame _ _).1, (zoneStatusStage1_frame _ _).1,
      (zoneNameStage_frame _ _).1]

theorem applyZoneJson_override (z : Zone) (n : ℕ) (d : Json) :
    (applyZoneJson z n d).overrideActive = zoneOverride d n z.overrideActive := by
  simp only [applyZoneJson, zoneOverride]
  split
  · rfl
  · rw [(zoneCfgStage_frame _ _).2, (zoneStatusStage2_frame _ _).2,
      (zonePeriodStage_frame _ _).2, (zoneStatusStage1_frame _ _).2,
      (zoneNameStage_frame _ _).2]

theorem zoneOverride_idem (d : Json) (n : ℕ) (b : Bool) :
    zoneOverride d n (zoneOverride d n b) = zoneOverride d n b := by
  unfold zoneOverride
  cases jptr d ["config", "scheduleHold"] <;> rfl

theorem updateZoneFromJson_frame (s : System) (n : ℕ) (d : Json) :
    (updateZoneFromJson s n d).id = s.id
    ∧ awayA (updateZoneFromJson s n d) = awayA s
    ∧ (updateZoneFromJson s n d).equipments = s.equipments := by
  unfold updateZoneFromJson
  split <;> exact ⟨rfl, rfl, rfl⟩

theorem find?_append_single {α : Type} (p : α → Bool) (l : List α) (y : α)
    (hy : p y = false) : (l ++ [y]).find? p = l.find? p := by
  induction l with
  | nil => simp [List.find?, hy]
  | cons a t ih =>
    cases hpa : p a with
    | true =>
      rw [List.cons_append, List.find?_cons_of_pos _ hpa,
        List.find?_cons_of_pos _ hpa]
    | false =>
      rw [List.cons_append,
        List.find?_cons_of_neg _ (by simp [hpa]),
        List.find?_cons_of_neg _ (by simp [hpa]), ih]

theorem find?_append_pred {α : Type} (p : α → Bool) (l : List α) (y : α)
    (hl : l.find? p = none) (hy : p y = true) :
    (l ++ [y]).find? p = some y := by
  induction l with
  | nil => simp [List.find?, hy]
  | cons a t ih =>
    cases hpa : p a with
    | true => rw [List.find?_cons_of_pos _ hpa] at hl; exact absurd hl (by simp)
    | false =>
      rw [List.find?_cons_of_neg _ (by simp [hpa])] at hl
      rw [List.cons_append, List.find?_cons_of_neg _ (by simp [hpa]), ih hl]

theorem find?_isSome_any {α : Type} (p : α → Bool) (l : List α) :
    (l.find? p).isSome = l.any p := by
  induction l with
  | nil => rfl
  | cons a t ih =>
    cases hpa : p a <;> simp [List.find?, List.any_cons, hpa, ih]

theorem find?_updateFirstZone_self (zs : List Zone) (n : ℕ) (f : Zone → Zone)
    (z : Zone) (hz : zs.find? (fun x => x.id == n) = some z)
    (hid : (f z).id = z.id) :
    (updateFirstZone zs n f).find? (fun x => x.id == n) = some (f z) := by
  induction zs with
  | nil => simp [List.find?] at hz
  | cons a t ih =>
    by_cases ha : a.id = n
    · have hpa : (a.id == n) = true := by simpa using ha
      simp only [List.find?, hpa] at hz
      cases hz
      simp only [updateFirstZone, if_pos ha]
      have hfa : ((f z).id == n) = true := by simp [hid, ha]
      simp only [List.find?, hfa]
    · have hpa : (a.id == n) = false := by simpa using ha
      simp only [List.find?, hpa] at hz
      simp only [updateFirstZone, if_neg ha, List.find?, hpa]
      exact ih hz

theorem find?_updateFirstZone_ne (zs : List Zone) (n n2 : ℕ) (f : Zone → Zone)
    (hne : ¬ n2 = n) (hid : ∀ z, z.id = n → (f z).id = n) :
    (updateFirstZone zs n f).find? (fun x => x.id == n2) =
      zs.find? (fun x => x.id == n2) := by
  induction zs with
  | nil => rfl
  | cons a t ih =>
    by_cases ha : a.id = n
    · simp only [updateFirstZone, if_pos ha]
      have hfa : ((f a).id == n2) = false := by
        simp [hid a ha]
        exact fun hc => hne hc.symm
      have haa : (a.id == n2) = false := by
        simp [ha]
        exact fun hc => hne hc.symm
      simp only [List.find?, hfa, haa]
    · simp only [updateFirstZone, if_neg ha]
      cases hpa : (a.id == n2) with
      | true => simp only [List.find?, hpa]
      | false => simp only [List.find?, hpa]; exact ih

theorem find?_updateFirstEquip_self (es : List Equipment) (m : ℕ)
    (f : Equipment → Equipment) (q : Equipment)
    (hq : es.find? (fun x => x.id == m) = some q) (hid : (f q).id = q.id) :
    (updateFirstEquip es m f).find? (fun x => x.id == m) = some (f q) := by
  induction es with
  | nil => simp [List.find?] at hq
  | cons a t ih =>
    by_cases ha : a.id = m
    · have hpa : (a.id == m) = true := by simpa using ha
      simp only [List.find?, hpa] at hq
      cases hq
      simp only [updateFirstEquip, if_pos ha]
      have hfa : ((f q).id == m) = true := by simp [hid, ha]
      simp only [List.find?, hfa]
    · have hpa : (a.id == m) = false := by simpa using ha
      simp only [List.find?, hpa] at hq
      simp only [updateFirstEquip, if_neg ha, List.find?, hpa]
      exact ih hq

theorem find?_updateFirstEquip_ne (es : List Equipment) (m m2 : ℕ)
    (f : Equipment → Equipment) (hne : ¬ m2 = m)
    (hid : ∀ q, q.id = m → (f q).id = m) :
    (updateFirstEquip es m f).find? (fun x => x.id == m2) =
      es.find? (fun x => x.id == m2) := by
  induction es with
  | nil => rfl
  | cons a t ih =>
    by_cases ha : a.id = m
    · simp only [updateFirstEquip, if_pos ha]
      have hfa : ((f a).id == m2) = false := by
        simp [hid a ha]
        exact fun hc => hne hc.symm
      have haa : (a.id == m2) = false := by
        simp [ha]
        exact fun hc => hne hc.symm
      simp only [List.find?, hfa, haa]
    · simp only [updateFirstEquip, if_neg ha]
      cases hpa : (a.id == m2) with
      | true => simp only [List.find?, hpa]
      | false => simp only [List.find?, hpa]; exact ih

theorem paramLookup_insert_self (ps : List (ℕ × Parameter)) (pid : ℕ)
    (p : Parameter) : paramLookup (paramInsert ps pid p) pid = some p := by
  induction ps with
  | nil => simp [paramInsert, paramLookup]
  | cons kv rest ih =>
    obtain ⟨k, v⟩ := kv
    by_cases hk : k = pid
    · simp [paramInsert, paramLookup, hk]
    · simp [paramInsert, paramLookup, hk, ih]

theorem paramLookup_insert_ne (ps : List (ℕ × Parameter)) (pid pid2 : ℕ)
    (p : Parameter) (h : ¬ pid2 = pid) :
    paramLookup (paramInsert ps pid p) pid2 = paramLookup ps pid2 := by
  have h2 : ¬ pid = pid2 := fun hc => h hc.symm
  induction ps with
  | nil => simp [paramInsert, paramLookup, h2]
  | cons kv rest ih =>
    obtain ⟨k, v⟩ := kv
    by_cases hk : k = pid
    · subst hk
      simp [paramInsert, paramLookup, h2]
    · by_cases hk2 : k = pid2
      · simp [paramInsert, paramLookup, hk, hk2, h]
      · simp [paramInsert, paramLookup, hk, hk2, ih]

theorem pidOf_some_param (pe : Json) (p : ℕ) (hp : pidOf pe = some p) :
    ∃ pd, pe.get "parameter" = some pd := by
  unfold pidOf at hp
  cases hg : pe.get "parameter" with
  | none => rw [hg] at hp; simp at hp
  | some pd => exact ⟨pd, rfl⟩

theorem applyParamEntry_skip (acc : List (ℕ × Parameter) × List Event)
    (pe : Json) (h : pidOf pe = none) : applyParamEntry acc pe = acc := by
  unfold applyParamEntry
  unfold pidOf at h
  cases hpd : pe.get "parameter" with
  | none => rfl
  | some pd =>
    rw [hpd] at h
    simp only [Option.some_bind] at h
    dsimp only
    cases hraw : (pd.get "pid").bind Json.asNat with
    | none => rfl
    | some raw => rw [hraw] at h; simp at h

theorem applyParamEntry_eq (acc : List (ℕ × Parameter) × List Event)
    (pe pd : Json) (p : ℕ) (hpd : pe.get "parameter" = some pd)
    (hp : pidOf pe = some p) :
    applyParamEntry acc pe =
      (paramInsert acc.1 p (buildParam pd p),
       if (paramLookup acc.1 p).map Parameter.value ≠ some (buildParam pd p).value
           ∧ ((paramLookup acc.1 p).map Parameter.value).isSome then
         acc.2 ++ [.parameterChanged 0 p (buildParam pd p).name (buildParam pd p).value]
       else acc.2) := by
  unfold applyParamEntry
  unfold pidOf at hp
  rw [hpd]
  rw [hpd] at hp
  simp only [Option.some_bind] at hp
  dsimp only
  cases hraw : (pd.get "pid").bind Json.asNat with
  | none => rw [hraw] at hp; simp at hp
  | some raw =>
    rw [hraw] at hp
    simp only [Option.map_some'] at hp
    cases hp
    dsimp only
    split <;> rfl

theorem params_fold_preserve (ps : List Json) :
    ∀ (acc : List (ℕ × Parameter) × List Event) (p : ℕ),
    (∀ pe ∈ ps, pidOf pe ≠ some p) →
    paramLookup (ps.foldl applyParamEntry acc).1 p = paramLookup acc.1 p := by
  induction ps with
  | nil => intro acc p _; rfl
  | cons e0 rest ih =>
    intro acc p h
    rw [List.foldl_cons]
    rw [ih (applyParamEntry acc e0) p
      (fun x hx => h x (List.mem_cons_of_mem _ hx))]
    cases hpid : pidOf e0 with
    | none => rw [applyParamEntry_skip acc e0 hpid]
    | some p2 =>
      obtain ⟨pd, hpd⟩ := pidOf_some_param e0 p2 hpid
      rw [applyParamEntry_eq acc e0 pd p2 hpd hpid]
      dsimp only
      have hne : ¬ p = p2 := by
        intro hc
        exact h e0 (List.mem_cons_self _ _) (by rw [hpid, hc])
      exact paramLookup_insert_ne _ _ _ _ hne

theorem params_fold_establish (ps : List Json) :
    ∀ (acc : List (ℕ × Parameter) × List Event),
    ((ps.filterMap pidOf).Nodup) →
    ∀ pe ∈ ps, ∀ pd p, pe.get "parameter" = some pd → pidOf pe = some p →
      paramLookup (ps.foldl applyParamEntry acc).1 p = some (buildParam pd p) := by
  induction ps with
  | nil =>
    intro acc _ pe hmem
    exact absurd hmem (List.not_mem_nil _)
  | cons e0 rest ih =>
    intro acc hnd pe hmem pd p hpd hp
    rw [List.foldl_cons]
    rcases List.mem_cons.mp hmem with rfl | hmem2
    · have hfm : (pe :: rest).filterMap pidOf = p :: rest.filterMap pidOf := by
        simp [List.filterMap_cons, hp]
      rw [hfm] at hnd
      have hnotin := (List.nodup_cons.mp hnd).1
      have hpres : ∀ x ∈ rest, pidOf x ≠ some p := by
        intro x hx hc
        exact hnotin (List.mem_filterMap.mpr ⟨x, hx, hc⟩)
      rw [params_fold_preserve rest _ p hpres]
      rw [applyParamEntry_eq acc pe pd p hpd hp]
      dsimp only
      exact paramLookup_insert_self _ _ _
    · have hnd2 : (rest.filterMap pidOf).Nodup := by
        rw [List.filterMap_cons] at hnd
        cases hpe0 : pidOf e0 with
        | none => rw [hpe0] at hnd; exact hnd
        | some p0 => rw [hpe0] at hnd; exact (List.nodup_cons.mp hnd).2
      exact ih _ hnd2 pe hmem2 pd p hpd hp

theorem params_fold_noevents (ps : List Json) :
    ∀ (acc : List (ℕ × Parameter) × List Event),
    ((ps.filterMap pidOf).Nodup) →
    (∀ pe ∈ ps, ∀ pd p, pe.get "parameter" = some pd → pidOf pe = some p →
      paramLookup acc.1 p = none ∨ paramLookup acc.1 p = some (buildParam pd p)) →
    (ps.foldl applyParamEntry acc).2 = acc.2 := by
  induction ps with
  | nil => intro acc _ _; rfl
  | cons e0 rest ih =>
    intro acc hnd hfacts
    rw [List.foldl_cons]
    have hnd2 : (rest.filterMap pidOf).Nodup := by
      rw [List.filterMap_cons] at hnd
      cases hpe0 : pidOf e0 with
      | none => rw [hpe0] at hnd; exact hnd
      | some p0 => rw [hpe0] at hnd; exact (List.nodup_cons.mp hnd).2
    cases hpid : pidOf e0 with
    | none =>
      rw [applyParamEntry_skip acc e0 hpid]
      exact ih acc hnd2
        (fun x hx => hfacts x (List.mem_cons_of_mem _ hx))
    | some p0 =>
      obtain ⟨pd0, hpd0⟩ := pidOf_some_param e0 p0 hpid
      have hfe := hfacts e0 (List.mem_cons_self _ _) pd0 p0 hpd0 hpid
      have hcond : ¬ ((paramLookup acc.1 p0).map Parameter.value ≠
          some (buildParam pd0 p0).value
          ∧ ((paramLookup acc.1 p0).map Parameter.value).isSome) := by
        cases hfe with
        | inl hnonef => rw [hnonef]; simp
        | inr hsomef => rw [hsomef]; simp
      rw [applyParamEntry_eq acc e0 pd0 p0 hpd0 hpid]
      rw [if_neg hcond]
      have hnotin0 : p0 ∉ rest.filterMap pidOf := by
        have hfm : (e0 :: rest).filterMap pidOf = p0 :: rest.filterMap pidOf := by
          simp [List.filterMap_cons, hpid]
        rw [hfm] at hnd
        exact (List.nodup_cons.mp hnd).1
      apply ih (paramInsert acc.1 p0 (buildParam pd0 p0), acc.2) hnd2
      intro x hx pdx px hpdx hpx
      have hne : ¬ px = p0 := by
        intro hc
        subst hc
        exact hnotin0 (List.mem_filterMap.mpr ⟨x, hx, hpx⟩)
      dsimp only
      rw [paramLookup_insert_ne _ _ _ _ hne]
      exact hfacts x (List.mem_cons_of_mem _ hx) pdx px hpdx hpx

theorem equipUpd_id (mId : ℕ) (d : Json) (q : Equipment) :
    (equipUpd mId d q).1.id = q.id := by
  simp only [equipUpd]
  repeat' split
  all_goals rfl

theorem equipUpd_parameters (mId : ℕ) (d : Json) (q : Equipment) :
    (equipUpd mId d q).1.parameters =
      ((paramEntriesOf d).foldl applyParamEntry (q.parameters, [])).1 := by
  simp only [equipUpd, paramEntriesOf]
  repeat' split
  all_goals rfl

theorem equipUpd_events (mId : ℕ) (d : Json) (q : Equipment) :
    (equipUpd mId d q).2 =
      ((paramEntriesOf d).foldl applyParamEntry (q.parameters, [])).2.map
        (fun ev => match ev with
          | .parameterChanged _ pid n v => .parameterChanged mId pid n v
          | other => other) := by
  simp only [equipUpd, paramEntriesOf]
  repeat' split
  all_goals rfl

theorem find?_id_eq (l : List Equipment) (m : ℕ) (q : Equipment)
    (h : l.find? (fun x => x.id == m) = some q) : q.id = m := by
  have := List.find?_some h
  simpa using this

theorem zfind?_id_eq (l : List Zone) (n : ℕ) (z : Zone)
    (h : l.find? (fun x => x.id == n) = some z) : z.id = n := by
  have := List.find?_some h
  simpa using this

theorem updateEquipmentFromJson_frame (s : System) (m : ℕ) (d : Json) :
    (updateEquipmentFromJson s m d).1.id = s.id
    ∧ awayA (updateEquipmentFromJson s m d).1 = awayA s
    ∧ (updateEquipmentFromJson s m d).1.zones = s.zones := by
  simp only [updateEquipmentFromJson]
  split
  all_goals exact ⟨rfl, rfl, rfl⟩

theorem any_false_find_none (l : List Equipment) (m : ℕ)
    (h : ¬ l.any (fun e => e.id == m) = true) :
    l.find? (fun x => x.id == m) = none := by
  have hi := find?_isSome_any (fun x => x.id == m) l
  cases hf : l.find? (fun x => x.id == m) with
  | none => rfl
  | some q =>
    rw [hf] at hi
    exact absurd hi.symm (by simpa using h)

theorem updateEquipmentFromJson_find_self (s : System) (m : ℕ) (d : Json) :
    ∃ base : List (ℕ × Parameter),
      ∀ q, ((updateEquipmentFromJson s m d).1.equipments.find?
          (fun x => x.id == m)) = some q →
        q.parameters = ((paramEntriesOf d).foldl applyParamEntry (base, [])).1 := by
  simp only [updateEquipmentFromJson]
  split
  next hany =>
    have hfs : (s.equipments.find? (fun e => e.id == m)).isSome = true := by
      rw [find?_isSome_any]; exact hany
    obtain ⟨q0, hq0⟩ := Option.isSome_iff_exists.mp hfs
    refine ⟨q0.parameters, ?_⟩
    intro q hq
    dsimp only at hq
    rw [hq0, Option.getD_some] at hq
    rw [find?_updateFirstEquip_self s.equipments m _ q0 hq0
      (by rw [equipUpd_id])] at hq
    cases hq
    rw [equipUpd_parameters]
  next hany =>
    refine ⟨[], ?_⟩
    intro q hq
    dsimp only at hq
    have hnone := any_false_find_none s.equipments m hany
    rw [find?_append_pred _ _ _ hnone (by simp [equipUpd_id])] at hq
    cases hq
    rw [equipUpd_parameters]

theorem updateEquipmentFromJson_find_ne (s : System) (m m2 : ℕ) (d : Json)
    (hne : ¬ m2 = m) :
    ((updateEquipmentFromJson s m d).1.equipments.find?
      (fun x => x.id == m2)) = s.equipments.find? (fun x => x.id == m2) := by
  simp only [updateEquipmentFromJson]
  split
  next hany =>
    have hfs : (s.equipments.find? (fun e => e.id == m)).isSome = true := by
      rw [find?_isSome_any]; exact hany
    obtain ⟨q0, hq0⟩ := Option.isSome_iff_exists.mp hfs
    dsimp only
    rw [hq0, Option.getD_some]
    apply find?_updateFirstEquip_ne _ _ _ _ hne
    intro q hqid
    rw [equipUpd_id]
    exact find?_id_eq _ _ _ hq0
  next hany =>
    dsimp only
    apply find?_append_single
    simp [equipUpd_id]
    exact fun hc => hne hc.symm

theorem updateEquipmentFromJson_noevents (s : System) (m : ℕ) (d : Json)
    (hnd : ((paramEntriesOf d).filterMap pidOf).Nodup)
    (hf : ∀ q, (s.equipments.find? (fun x => x.id == m)) = some q →
      ∀ pe ∈ paramEntriesOf d, ∀ pd p, pe.get "parameter" = some pd →
        pidOf pe = some p → paramLookup q.parameters p = some (buildParam pd p)) :
    (updateEquipmentFromJson s m d).2 = [] := by
  simp only [updateEquipmentFromJson]
  split
  next hany =>
    have hfs : (s.equipments.find? (fun e => e.id == m)).isSome = true := by
      rw [find?_isSome_any]; exact hany
    obtain ⟨q0, hq0⟩ := Option.isSome_iff_exists.mp hfs
    dsimp only
    rw [hq0, Option.getD_some, equipUpd_events]
    rw [params_fold_noevents _ _ hnd
      (fun pe hpe pd p hpd hp => Or.inr (hf q0 hq0 pe hpe pd p hpd hp))]
    rfl
  next hany =>
    dsimp only
    rw [equipUpd_events]
    rw [params_fold_noevents (paramEntriesOf d)
      ((({ id := m } : Equipment)).parameters, []) hnd
      (fun pe hpe pd p hpd hp => Or.inl rfl)]
    rfl

theorem slotObjOk_of_eq (m1 m2 : List (String × Json)) (k : String)
    (h : jlookup m2 k = jlookup m1 k) (ho : slotObjOk m1 k) :
    slotObjOk m2 k := by
  unfold slotObjOk at ho ⊢
  rw [h]
  exact ho

theorem insertEntityMirror_slotOk (m : List (String × Json)) (sk k : String)
    (d : Json) (h : slotObjOk m sk) :
    slotObjOk (insertEntityMirror m sk k d) sk := by
  unfold slotObjOk at h ⊢
  unfold insertEntityMirror
  cases hz : jlookup m sk with
  | none =>
    rw [jlookup_setFirst_self]
    trivial
  | some j =>
    rw [hz] at h
    cases j with
    | obj inner => rw [jlookup_setFirst_self]; trivial
    | null => rw [hz]; exact h
    | bool b => rw [hz]; exact h
    | num q => rw [hz]; exact h
    | str s2 => rw [hz]; exact h
    | arr xs => rw [hz]; exact h

theorem insertEntityMirror_get_ne (m : List (String × Json)) (sk k1 k2 : String)
    (d : Json) (hk : ¬ k1 = k2) :
    ((jlookup (insertEntityMirror m sk k2 d) sk).bind (fun zm => zm.get k1)) =
      ((jlookup m sk).bind (fun zm => zm.get k1)) := by
  unfold insertEntityMirror
  cases hz : jlookup m sk with
  | none =>
    dsimp only
    rw [jlookup_setFirst_self]
    have h2 : ¬ k2 = k1 := fun hc => hk hc.symm
    simp [Json.get, jlookup, h2]
  | some j =>
    cases j with
    | obj inner =>
      dsimp only
      rw [jlookup_setFirst_self]
      simp only [Option.some_bind]
      simp [Json.get, jlookup_setFirst_ne _ _ _ _ hk]
    | null => dsimp only; rw [hz]
    | bool b => dsimp only; rw [hz]
    | num q => dsimp only; rw [hz]
    | str s2 => dsimp only; rw [hz]
    | arr xs => dsimp only; rw [hz]

theorem insertEntityMirror_get_self (m : List (String × Json)) (sk k : String)
    (d : Json) (h : slotObjOk m sk) :
    ((jlookup (insertEntityMirror m sk k d) sk).bind (fun zm => zm.get k)) =
      some d := by
  unfold slotObjOk at h
  unfold insertEntityMirror
  cases hz : jlookup m sk with
  | none =>
    rw [jlookup_setFirst_self]
    simp [Json.get, jlookup]
  | some j =>
    rw [hz] at h
    cases j with
    | obj inner =>
      rw [jlookup_setFirst_self]
      simp [Json.get, jlookup_setFirst_self]
    | null => exact h.elim
    | bool b => exact h.elim
    | num q => exact h.elim
    | str s2 => exact h.elim
    | arr xs => exact h.elim

theorem wfJson_get (d : Json) (k : String) (v : Json) (hw : wfJson d = true)
    (h : d.get k = some v) : wfJson v = true := by
  cases d with
  | obj f =>
    rw [wfJson] at hw
    simp only [Bool.and_eq_true] at hw
    exact wfFields_mem f k v hw.2 h
  | null => simp [Json.get] at h
  | bool b => simp [Json.get] at h
  | num q => simp [Json.get] at h
  | str s2 => simp [Json.get] at h
  | arr xs => simp [Json.get] at h

theorem wfList_mem (xs : List Json) (e : Json) (hw : wfList xs = true)
    (he : e ∈ xs) : wfJson e = true := by
  induction xs with
  | nil => exact absurd he (List.not_mem_nil _)
  | cons a t ih =>
    rw [wfList] at hw
    simp only [Bool.and_eq_true] at hw
    rcases List.mem_cons.mp he with rfl | h2
    · exact hw.1
    · exact ih hw.2 h2

theorem wf_zoneEntries (d e : Json) (hw : wfJson d = true)
    (he : e ∈ zoneEntries d) : wfJson e = true := by
  unfold zoneEntries at he
  cases hz : d.get "zones" with
  | none => rw [hz] at he; exact absurd he (List.not_mem_nil _)
  | some j =>
    rw [hz] at he
    cases j with
    | arr xs =>
      have hwa := wfJson_get d "zones" (.arr xs) hw hz
      rw [wfJson] at hwa
      exact wfList_mem xs e hwa he
    | null => exact absurd he (List.not_mem_nil _)
    | bool b => exact absurd he (List.not_mem_nil _)
    | num q => exact absurd he (List.not_mem_nil _)
    | str s2 => exact absurd he (List.not_mem_nil _)
    | obj f => exact absurd he (List.not_mem_nil _)

theorem wf_equipEntries (d e : Json) (hw : wfJson d = true)
    (he : e ∈ equipEntries d) : wfJson e = true := by
  unfold equipEntries at he
  cases hz : d.get "equipments" with
  | none => rw [hz] at he; exact absurd he (List.not_mem_nil _)
  | some j =>
    rw [hz] at he
    cases j with
    | arr xs =>
      have hwa := wfJson_get d "equipments" (.arr xs) hw hz
      rw [wfJson] at hwa
      exact wfList_mem xs e hwa he
    | null => exact absurd he (List.not_mem_nil _)
    | bool b => exact absurd he (List.not_mem_nil _)
    | num q => exact absurd he (List.not_mem_nil _)
    | str s2 => exact absurd he (List.not_mem_nil _)
    | obj f => exact absurd he (List.not_mem_nil _)

theorem updateZoneFromJson_find_self (s : System) (n : ℕ) (d : Json) (z1 : Zone)
    (hz : s.zones.find? (fun z => z.id == n) = some z1) :
    ((updateZoneFromJson s n d).zones.find? (fun z => z.id == n)) =
      some (applyZoneJson z1 n d) := by
  unfold updateZoneFromJson
  have hany : s.zones.any (fun z => z.id == n) = true := by
    rw [← find?_isSome_any, hz]; rfl
  rw [if_pos hany]
  exact find?_updateFirstZone_self s.zones n _ z1 hz (applyZoneJson_id _ _ _)

theorem updateZoneFromJson_find_create (s : System) (n : ℕ) (d : Json)
    (hz : s.zones.find? (fun z => z.id == n) = none) :
    ((updateZoneFromJson s n d).zones.find? (fun z => z.id == n)) =
      some (applyZoneJson { id := n } n d) := by
  unfold updateZoneFromJson
  have hany : s.zones.any (fun z => z.id == n) = false := by
    rw [← find?_isSome_any, hz]; rfl
  rw [if_neg (by simp [hany])]
  dsimp only
  exact find?_append_pred _ _ _ hz (by simp [applyZoneJson_id])

theorem updateZoneFromJson_find_exists (s : System) (n : ℕ) (d : Json) :
    ∃ z0, ((updateZoneFromJson s n d).zones.find? (fun z => z.id == n)) =
      some (applyZoneJson z0 n d) := by
  cases hz : s.zones.find? (fun z => z.id == n) with
  | some z1 => exact ⟨z1, updateZoneFromJson_find_self s n d z1 hz⟩
  | none => exact ⟨{ id := n }, updateZoneFromJson_find_create s n d hz⟩

theorem updateZoneFromJson_find_ne (s : System) (n n2 : ℕ) (d : Json)
    (hne : ¬ n2 = n) :
    ((updateZoneFromJson s n d).zones.find? (fun z => z.id == n2)) =
      s.zones.find? (fun z => z.id == n2) := by
  unfold updateZoneFromJson
  split
  · dsimp only
    exact find?_updateFirstZone_ne _ _ _ _ hne
      (fun z hzid => by rw [applyZoneJson_id, hzid])
  · dsimp only
    apply find?_append_single
    simp [applyZoneJson_id]
    exact fun hc => hne hc.symm

theorem enforcerStep_systems (st : ClientState) (now : ℕ) :
    (enforcerStep st now).systems = st.systems := by
  unfold enforcerStep
  split
  · rfl
  · split
    · split
      · rfl
      · rfl
    · rfl

theorem alertsSection_skip (d : Json) (p : PassOut) (hna : noAlertsActive d) :
    processAlertsSection d p = p := by
  unfold processAlertsSection
  unfold noAlertsActive at hna
  cases hb : (d.get "alerts").bind (fun a => a.get "active") with
  | none => rfl
  | some j =>
    rw [hb] at hna
    cases j with
    | arr xs => exact hna.elim
    | null => rfl
    | bool b => rfl
    | num q => rfl
    | str s2 => rfl
    | obj f => rfl

theorem saturated_transfer (d : Json) (i : ℕ) (st st2 : ClientState)
    (hsat : Saturated d i st)
    (hps : PreSat i st2.systems)
    (hz : jlookup st2.prevMap "zones" = jlookup st.prevMap "zones")
    (he : jlookup st2.prevMap "equipments" = jlookup st.prevMap "equipments")
    (hsys : ∀ sd, d.get "system" = some sd →
      ∃ p0, jlookup st2.prevMap "system" = some (deepMerge p0 sd))
    (haway : awayA (getSys st2.systems i) = awayA (getSys st.systems i))
    (hzs : (getSys st2.systems i).zones = (getSys st.systems i).zones)
    (heq : (getSys st2.systems i).equipments = (getSys st.systems i).equipments) :
    Saturated d i st2 := by
  obtain ⟨_, hslz, hsle, _, hocc, hzf, hef⟩ := hsat
  refine ⟨hps, slotObjOk_of_eq _ _ _ hz hslz, slotObjOk_of_eq _ _ _ he hsle,
    hsys, ?_, ?_, ?_⟩
  · intro occ hocc2
    obtain ⟨a0, ha0⟩ := hocc occ hocc2
    exact ⟨a0, by rw [haway, ha0]⟩
  · intro e hmem n hn
    obtain ⟨hm, z0, hz0⟩ := hzf e hmem n hn
    exact ⟨by rw [hz]; exact hm, ⟨z0, by rw [hzs]; exact hz0⟩⟩
  · intro e hmem m hm2
    obtain ⟨hm, hef2⟩ := hef e hmem m hm2
    refine ⟨by rw [he]; exact hm, ?_⟩
    unfold EquipFact at hef2 ⊢
    intro q hq
    rw [heq] at hq
    exact hef2 q hq

theorem processSystemSection_pass2 (d : Json) (i : ℕ) (p : PassOut)
    (hw : wfJson d = true) (hsat : Saturated d i p.st) :
    (processSystemSection d p).events = p.events
    ∧ (processSystemSection d p).snaps =
        (match d.get "system" with
         | some _ => insertSnap p.snaps i
         | none => p.snaps)
    ∧ Saturated d i (processSystemSection d p).st := by
  cases hsys : d.get "system" with
  | none =>
    unfold processSystemSection
    rw [hsys]
    exact ⟨rfl, rfl, hsat⟩
  | some sd =>
    have hsat0 := hsat
    obtain ⟨hps, hslz, hsle, hsysf, hocc, hzf, hef⟩ := hsat
    have hens := ensureSystem_presat p.st.systems i hps
    obtain ⟨p0, hp0⟩ := hsysf sd hsys
    have hwsd : wfJson sd = true := wfJson_get d "system" sd hw hsys
    have hdiff : diffJson ((jlookup p.st.prevMap "system").getD (.obj []))
        sd [] = [] := by
      rw [hp0]
      exact diffJson_deepMerge p0 sd [] hwsd
    have hlen : i < (ensureSystem p.st.systems "0").1.length :=
      zeroIdx_lt_length _ i hens.2.1
    unfold processSystemSection
    rw [hsys]
    dsimp only
    rw [hdiff, hens.1]
    have hids : systemIds (modifyAt (ensureSystem p.st.systems "0").1 i
        (fun s => updateSystemFromJson s sd)) =
        systemIds (ensureSystem p.st.systems "0").1 :=
      systemIds_modifyAt _ _ _ (fun s => (updateSystemFromJson_frame s sd).1)
    have hget : getSys (modifyAt (ensureSystem p.st.systems "0").1 i
        (fun s => updateSystemFromJson s sd)) i =
        updateSystemFromJson (getSys (ensureSystem p.st.systems "0").1 i) sd :=
      getSys_modifyAt_self _ i _ hlen
    refine ⟨by simp [classifyChanges], rfl, ?_⟩
    apply saturated_transfer d i p.st _ hsat0
    · exact Or.inl (by rw [zeroIdx_eq_of_ids _ _ hids]; exact hens.2.1)
    · exact jlookup_setFirst_ne _ _ _ _ (by intro hc; simp at hc)
    · exact jlookup_setFirst_ne _ _ _ _ (by intro hc; simp at hc)
    · intro sd2 hsd2
      rw [hsys] at hsd2
      cases hsd2
      exact ⟨(jlookup p.st.prevMap "system").getD .null,
        jlookup_setFirst_self _ _ _⟩
    · rw [hget, (updateSystemFromJson_frame _ _).2.1, hens.2.2.1]
    · rw [hget, (updateSystemFromJson_frame _ _).2.2.1, hens.2.2.2.1]
    · rw [hget, (updateSystemFromJson_frame _ _).2.2.2, hens.2.2.2.2]

theorem processOccupancySection_pass2 (d : Json) (i : ℕ) (p : PassOut)
    (hsat : Saturated d i p.st) :
    (processOccupancySection d p).events = p.events
    ∧ (processOccupancySection d p).snaps =
        (match d.get "occupancy" with
         | some _ => insertSnap p.snaps i
         | none => p.snaps)
    ∧ Saturated d i (processOccupancySection d p).st := by
  cases hocc : d.get "occupancy" with
  | none =>
    unfold processOccupancySection
    rw [hocc]
    exact ⟨rfl, rfl, hsat⟩
  | some occ =>
    have hsat0 := hsat
    obtain ⟨hps, hslz, hsle, hsysf, hoccf, hzf, hef⟩ := hsat
    have hens := ensureSystem_presat p.st.systems i hps
    obtain ⟨a0, ha0⟩ := hoccf occ hocc
    have hlen : i < (ensureSystem p.st.systems "0").1.length :=
      zeroIdx_lt_length _ i hens.2.1
    have hget : getSys (modifyAt (ensureSystem p.st.systems "0").1 i
        (fun s => applyOccupancy s occ)) i =
        applyOccupancy (getSys (ensureSystem p.st.systems "0").1 i) occ :=
      getSys_modifyAt_self _ i _ hlen
    have haw : awayA (applyOccupancy
        (getSys (ensureSystem p.st.systems "0").1 i) occ) =
        awayA (getSys (ensureSystem p.st.systems "0").1 i) := by
      rw [applyOccupancy_awayA, hens.2.2.1, ha0, occAway_idem]
    unfold processOccupancySection
    rw [hocc]
    dsimp only
    rw [hens.1]
    have hnoev : ¬ ((getSys (modifyAt (ensureSystem p.st.systems "0").1 i
        (fun s => applyOccupancy s occ)) i).isAway ≠
        (getSys (ensureSystem p.st.systems "0").1 i).isAway) := by
      rw [hget]
      simp only [ne_eq, not_not]
      exact isAway_eq_of_awayA _ _ (by rw [haw])
    rw [if_neg hnoev]
    have hids : systemIds (modifyAt (ensureSystem p.st.systems "0").1 i
        (fun s => applyOccupancy s occ)) =
        systemIds (ensureSystem p.st.systems "0").1 :=
      systemIds_modifyAt _ _ _ (fun s => (applyOccupancy_frame s occ).1)
    refine ⟨by simp, rfl, ?_⟩
    apply saturated_transfer d i p.st _ hsat0
    · exact Or.inl (by rw [zeroIdx_eq_of_ids _ _ hids]; exact hens.2.1)
    · exact jlookup_setFirst_ne _ _ _ _ (by intro hc; simp at hc)
    · exact jlookup_setFirst_ne _ _ _ _ (by intro hc; simp at hc)
    · intro sd2 hsd2
      obtain ⟨q0, hq0⟩ := hsysf sd2 hsd2
      refine ⟨q0, ?_⟩
      unfold mergeIntoPrev
      rw [jlookup_setFirst_ne _ _ _ _ (by intro hc; simp at hc)]
      exact hq0
    · rw [hget, haw, hens.2.2.1]
    · rw [hget, (applyOccupancy_frame _ _).2.1, hens.2.2.2.1]
    · rw [hget, (applyOccupancy_frame _ _).2.2, hens.2.2.2.2]

theorem natKey_ne (n n2 : ℕ) (h : ¬ n2 = n) : ¬ natKey n2 = natKey n :=
  fun hc => h (natKey_injective n2 n hc)

theorem systemIds_modifyAt_at (ss : List System) (i : ℕ) (f : System → System)
    (hf : (f (getSys ss i)).id = (getSys ss i).id) :
    systemIds (modifyAt ss i f) = systemIds ss := by
  induction ss generalizing i with
  | nil => rfl
  | cons a t ih =>
    cases i with
    | zero =>
      have : getSys (a :: t) 0 = a := rfl
      rw [this] at hf
      simp [modifyAt, systemIds, hf]
    | succ j =>
      have hstep : getSys (a :: t) (j + 1) = getSys t j := by
        simp [getSys]
      rw [hstep] at hf
      have := ih j hf
      simp only [systemIds] at this
      simp [modifyAt, systemIds, this]

theorem processZoneEntry_pass2 (d : Json) (i : ℕ) (p : PassOut) (e : Json)
    (hin : e ∈ zoneEntries d) (hw : wfJson d = true)
    (hsat : Saturated d i p.st) :
    (processZoneEntry p e).events = p.events
    ∧ (processZoneEntry p e).snaps =
        (match zoneIdOf e with
         | some _ => insertSnap p.snaps i
         | none => p.snaps)
    ∧ Saturated d i (processZoneEntry p e).st := by
  cases hid : (e.get "id").bind Json.asNat with
  | none =>
    have hzid : zoneIdOf e = none := by unfold zoneIdOf; rw [hid]; rfl
    unfold processZoneEntry
    rw [hid, hzid]
    exact ⟨rfl, rfl, hsat⟩
  | some raw =>
    have hzid : zoneIdOf e = some (raw % 2 ^ 8) := by
      unfold zoneIdOf; rw [hid]; rfl
    have hsat0 := hsat
    obtain ⟨hps, hslz, hsle, hsysf, hoccf, hzf, hef⟩ := hsat
    obtain ⟨hmir, z0, hdom⟩ := hzf e hin (raw % 2 ^ 8) hzid
    have hens := ensureSystem_presat p.st.systems i hps
    have hlen : i < (ensureSystem p.st.systems "0").1.length :=
      zeroIdx_lt_length _ i hens.2.1
    have hwe : wfJson e = true := wf_zoneEntries d e hw hin
    have hprev : ((jlookup p.st.prevMap "zones").bind
        (fun zm => zm.get (natKey (raw % 2 ^ 8)))).getD (.obj []) = e := by
      rw [hmir]; rfl
    have hfind1 : ((getSys (ensureSystem p.st.systems "0").1 i).zones.find?
        (fun z => z.id == raw % 2 ^ 8)) =
        some (applyZoneJson z0 (raw % 2 ^ 8) e) := by
      rw [hens.2.2.2.1]; exact hdom
    have hget : getSys (modifyAt (ensureSystem p.st.systems "0").1 i
        (fun s => updateZoneFromJson s (raw % 2 ^ 8) e)) i =
        updateZoneFromJson (getSys (ensureSystem p.st.systems "0").1 i)
          (raw % 2 ^ 8) e :=
      getSys_modifyAt_self _ i _ hlen
    have hfind2 : ((updateZoneFromJson
        (getSys (ensureSystem p.st.systems "0").1 i) (raw % 2 ^ 8) e).zones.find?
        (fun z => z.id == raw % 2 ^ 8)) =
        some (applyZoneJson (applyZoneJson z0 (raw % 2 ^ 8) e) (raw % 2 ^ 8) e) :=
      updateZoneFromJson_find_self _ _ _ _ hfind1
    have hov : (applyZoneJson (applyZoneJson z0 (raw % 2 ^ 8) e)
        (raw % 2 ^ 8) e).overrideActive =
        (applyZoneJson z0 (raw % 2 ^ 8) e).overrideActive := by
      rw [applyZoneJson_override, applyZoneJson_override, zoneOverride_idem]
    have hids : systemIds (modifyAt (ensureSystem p.st.systems "0").1 i
        (fun s => updateZoneFromJson s (raw % 2 ^ 8) e)) =
        systemIds (ensureSystem p.st.systems "0").1 :=
      systemIds_modifyAt _ _ _
        (fun s => (updateZoneFromJson_frame s (raw % 2 ^ 8) e).1)
    unfold processZoneEntry
    rw [hid]
    dsimp only
    rw [hens.1, hprev, diffJson_self e [] hwe, hget, hfind1, hfind2]
    refine ⟨?_, by rw [hzid], ?_⟩
    · simp only [Option.getD_some, Option.map_some', hov, ne_eq,
        not_true_eq_false, if_false, classifyChanges, List.append_nil]
    · refine ⟨?_, ?_, ?_, ?_, ?_, ?_, ?_⟩
      · exact Or.inl (by rw [zeroIdx_eq_of_ids _ _ hids]; exact hens.2.1)
      · exact insertEntityMirror_slotOk _ _ _ _ hslz
      · exact slotObjOk_of_eq _ _ _
          (insertEntityMirror_lookup_ne _ _ _ _ _ (by intro hc; simp at hc)) hsle
      · intro sd2 hsd2
        obtain ⟨q0, hq0⟩ := hsysf sd2 hsd2
        refine ⟨q0, ?_⟩
        rw [insertEntityMirror_lookup_ne _ _ _ _ _ (by intro hc; simp at hc)]
        exact hq0
      · intro occ hocc2
        obtain ⟨a0, ha0⟩ := hoccf occ hocc2
        refine ⟨a0, ?_⟩
        rw [hget, (updateZoneFromJson_frame _ _ _).2.1, hens.2.2.1]
        exact ha0
      · intro e2 hin2 n2 hn2
        obtain ⟨hmir2, z02, hdom2⟩ := hzf e2 hin2 n2 hn2
        by_cases hnn : n2 = raw % 2 ^ 8
        · subst hnn
          have hee : e2 = e := by
            have := hmir2.symm.trans hmir
            exact Option.some.inj this
          subst hee
          refine ⟨insertEntityMirror_get_self _ _ _ _ hslz, ?_⟩
          exact ⟨applyZoneJson z0 (raw % 2 ^ 8) e2,
            by rw [hget]; exact hfind2⟩
        · refine ⟨?_, ?_⟩
          · rw [insertEntityMirror_get_ne _ _ _ _ _ (natKey_ne _ _ hnn)]
            exact hmir2
          · refine ⟨z02, ?_⟩
            rw [hget, updateZoneFromJson_find_ne _ _ _ _ hnn, hens.2.2.2.1]
            exact hdom2
      · intro e2 hin2 m2 hm2
        obtain ⟨hmir2, hef2⟩ := hef e2 hin2 m2 hm2
        refine ⟨?_, ?_⟩
        · have hlk := insertEntityMirror_lookup_ne p.st.prevMap "zones"
            (natKey (raw % 2 ^ 8)) e "equipments" (by intro hc; simp at hc)
          rw [hlk]
          exact hmir2
        · unfold EquipFact at hef2 ⊢
          intro q hq
          apply hef2
          rw [← hens.2.2.2.2]
          rw [hget, (updateZoneFromJson_frame _ _ _).2.2] at hq
          exact hq

theorem processEquipEntry_pass2 (d : Json) (i : ℕ) (p : PassOut) (e : Json)
    (hin : e ∈ equipEntries d) (hw : wfJson d = true)
    (hpn : ∀ e2 ∈ equipEntries d, ((paramEntriesOf e2).filterMap pidOf).Nodup)
    (hsat : Saturated d i p.st) :
    (processEquipEntry p e).events = p.events
    ∧ (processEquipEntry p e).snaps =
        (match equipIdOf e with
         | some _ => insertSnap p.snaps i
         | none => p.snaps)
    ∧ Saturated d i (processEquipEntry p e).st := by
  cases hid : (e.get "id").bind Json.asNat with
  | none =>
    have heid : equipIdOf e = none := by unfold equipIdOf; rw [hid]; rfl
    unfold processEquipEntry
    rw [hid, heid]
    exact ⟨rfl, rfl, hsat⟩
  | some raw =>
    have heid : equipIdOf e = some (raw % 2 ^ 16) := by
      unfold equipIdOf; rw [hid]; rfl
    have hsat0 := hsat
    obtain ⟨hps, hslz, hsle, hsysf, hoccf, hzf, hef⟩ := hsat
    obtain ⟨hmir, heqf⟩ := hef e hin (raw % 2 ^ 16) heid
    have hens := ensureSystem_presat p.st.systems i hps
    have hlen : i < (ensureSystem p.st.systems "0").1.length :=
      zeroIdx_lt_length _ i hens.2.1
    have hwe : wfJson e = true := wf_equipEntries d e hw hin
    have hprev : ((jlookup p.st.prevMap "equipments").bind
        (fun em => em.get (natKey (raw % 2 ^ 16)))).getD (.obj []) = e := by
      rw [hmir]; rfl
    have hnoev : (updateEquipmentFromJson
        (getSys (ensureSystem p.st.systems "0").1 i) (raw % 2 ^ 16) e).2 = [] := by
      apply updateEquipmentFromJson_noevents _ _ _ (hpn e hin)
      intro q hq
      apply heqf
      rw [← hens.2.2.2.2]
      exact hq
    have hget : getSys (modifyAt (ensureSystem p.st.systems "0").1 i
        (fun _ => (updateEquipmentFromJson
          (getSys (ensureSystem p.st.systems "0").1 i) (raw % 2 ^ 16) e).1)) i =
        (updateEquipmentFromJson (getSys (ensureSystem p.st.systems "0").1 i)
          (raw % 2 ^ 16) e).1 :=
      getSys_modifyAt_self _ i _ hlen
    have hids : systemIds (modifyAt (ensureSystem p.st.systems "0").1 i
        (fun _ => (updateEquipmentFromJson
          (getSys (ensureSystem p.st.systems "0").1 i) (raw % 2 ^ 16) e).1)) =
        systemIds (ensureSystem p.st.systems "0").1 :=
      systemIds_modifyAt_at _ _ _
        (updateEquipmentFromJson_frame (getSys (ensureSystem p.st.systems "0").1 i)
          (raw % 2 ^ 16) e).1
    unfold processEquipEntry
    rw [hid]
    dsimp only
    rw [hens.1, hprev, diffJson_self e [] hwe, hnoev]
    refine ⟨?_, by rw [heid], ?_⟩
    · simp only [classifyGenericChanges, List.append_nil]
    · refine ⟨?_, ?_, ?_, ?_, ?_, ?_, ?_⟩
      · exact Or.inl (by rw [zeroIdx_eq_of_ids _ _ hids]; exact hens.2.1)
      · exact slotObjOk_of_eq _ _ _
          (insertEntityMirror_lookup_ne _ _ _ _ _ (by intro hc; simp at hc)) hslz
      · exact insertEntityMirror_slotOk _ _ _ _ hsle
      · intro sd2 hsd2
        obtain ⟨q0, hq0⟩ := hsysf sd2 hsd2
        refine ⟨q0, ?_⟩
        rw [insertEntityMirror_lookup_ne _ _ _ _ _ (by intro hc; simp at hc)]
        exact hq0
      · intro occ hocc2
        obtain ⟨a0, ha0⟩ := hoccf occ hocc2
        refine ⟨a0, ?_⟩
        rw [hget, (updateEquipmentFromJson_frame _ _ _).2.1, hens.2.2.1]
        exact ha0
      · intro e2 hin2 n2 hn2
        obtain ⟨hmir2, z02, hdom2⟩ := hzf e2 hin2 n2 hn2
        refine ⟨?_, ?_⟩
        · have hlk := insertEntityMirror_lookup_ne p.st.prevMap "equipments"
            (natKey (raw % 2 ^ 16)) e "zones" (by intro hc; simp at hc)
          rw [hlk]
          exact hmir2
        · refine ⟨z02, ?_⟩
          rw [hget, (updateEquipmentFromJson_frame _ _ _).2.2, hens.2.2.2.1]
          exact hdom2
      · intro e2 hin2 m2 hm2
        obtain ⟨hmir2, hef2⟩ := hef e2 hin2 m2 hm2
        by_cases hmm : m2 = raw % 2 ^ 16
        · subst hmm
          have hee : e2 = e := by
            have := hmir2.symm.trans hmir
            exact Option.some.inj this
          subst hee
          refine ⟨insertEntityMirror_get_self _ _ _ _ hsle, ?_⟩
          unfold EquipFact
          intro q hq
          obtain ⟨base, hbase⟩ :=
            updateEquipmentFromJson_find_self
              (getSys (ensureSystem p.st.systems "0").1 i) (raw % 2 ^ 16) e2
          rw [hget] at hq
          have hqp := hbase q hq
          intro pe hpe pd pp hpd hpp
          rw [hqp]
          exact params_fold_establish (paramEntriesOf e2) (base, [])
            (hpn e2 hin2) pe hpe pd pp hpd hpp
        · refine ⟨?_, ?_⟩
          · rw [insertEntityMirror_get_ne _ _ _ _ _ (natKey_ne _ _ hmm)]
            exact hmir2
          · unfold EquipFact at hef2 ⊢
            intro q hq
            apply hef2
            rw [← hens.2.2.2.2]
            rw [hget] at hq
            rw [updateEquipmentFromJson_find_ne _ _ _ _ hmm] at hq
            exact hq

theorem processZonesSection_fold (d : Json) (p : PassOut) :
    processZonesSection d p = (zoneEntries d).foldl processZoneEntry p := by
  unfold processZonesSection zoneEntries
  cases d.get "zones" with
  | none => rfl
  | some j => cases j <;> rfl

theorem processEquipmentsSection_fold (d : Json) (p : PassOut) :
    processEquipmentsSection d p =
      (equipEntries d).foldl processEquipEntry p := by
  unfold processEquipmentsSection equipEntries
  cases d.get "equipments" with
  | none => rfl
  | some j => cases j <;> rfl

theorem zonesFold_pass2 (d : Json) (i : ℕ) (zs : List Json) :
    ∀ (p : PassOut), (∀ e ∈ zs, e ∈ zoneEntries d) → wfJson d = true →
    Saturated d i p.st →
    ((zs.foldl processZoneEntry p).events = p.events
     ∧ (zs.foldl processZoneEntry p).snaps =
         zs.foldl (snapStep zoneIdOf i) p.snaps
     ∧ Saturated d i (zs.foldl processZoneEntry p).st) := by
  induction zs with
  | nil => intro p _ _ hsat; exact ⟨rfl, rfl, hsat⟩
  | cons e t ih =>
    intro p hsub hw hsat
    obtain ⟨hev1, hsn1, hsat1⟩ :=
      processZoneEntry_pass2 d i p e (hsub e (List.mem_cons_self _ _)) hw hsat
    rw [List.foldl_cons]
    obtain ⟨hev2, hsn2, hsat2⟩ := ih (processZoneEntry p e)
      (fun x hx => hsub x (List.mem_cons_of_mem _ hx)) hw hsat1
    refine ⟨by rw [hev2, hev1], ?_, hsat2⟩
    rw [hsn2, hsn1, List.foldl_cons]
    rfl

theorem equipsFold_pass2 (d : Json) (i : ℕ) (zs : List Json) :
    ∀ (p : PassOut), (∀ e ∈ zs, e ∈ equipEntries d) → wfJson d = true →
    (∀ e ∈ equipEntries d, ((paramEntriesOf e).filterMap pidOf).Nodup) →
    Saturated d i p.st →
    ((zs.foldl processEquipEntry p).events = p.events
     ∧ (zs.foldl processEquipEntry p).snaps =
         zs.foldl (snapStep equipIdOf i) p.snaps
     ∧ Saturated d i (zs.foldl processEquipEntry p).st) := by
  induction zs with
  | nil => intro p _ _ _ hsat; exact ⟨rfl, rfl, hsat⟩
  | cons e t ih =>
    intro p hsub hw hpn hsat
    obtain ⟨hev1, hsn1, hsat1⟩ :=
      processEquipEntry_pass2 d i p e (hsub e (List.mem_cons_self _ _)) hw hpn hsat
    rw [List.foldl_cons]
    obtain ⟨hev2, hsn2, hsat2⟩ := ih (processEquipEntry p e)
      (fun x hx => hsub x (List.mem_cons_of_mem _ hx)) hw hpn hsat1
    refine ⟨by rw [hev2, hev1], ?_, hsat2⟩
    rw [hsn2, hsn1, List.foldl_cons]
    rfl

theorem processData_pass2 (d : Json) (now : ℕ) (st : ClientState) (i : ℕ)
    (hw : wfJson d = true) (hna : noAlertsActive d)
    (hpn : ∀ e ∈ equipEntries d, ((paramEntriesOf e).filterMap pidOf).Nodup)
    (hsat : Saturated d i st) :
    (processData d now st).events = []
    ∧ (processData d now st).snaps = snapsPlan d i := by
  unfold processData
  rw [alertsSection_skip d _ hna, processEquipmentsSection_fold,
    processZonesSection_fold]
  obtain ⟨hev1, hsn1, hsat1⟩ :=
    processSystemSection_pass2 d i ⟨st, [], []⟩ hw hsat
  obtain ⟨hev2, hsn2, hsat2⟩ :=
    processOccupancySection_pass2 d i _ hsat1
  obtain ⟨hev3, hsn3, hsat3⟩ :=
    zonesFold_pass2 d i (zoneEntries d) _ (fun x hx => hx) hw hsat2
  obtain ⟨hev4, hsn4, hsat4⟩ :=
    equipsFold_pass2 d i (equipEntries d) _ (fun x hx => hx) hw hpn hsat3
  constructor
  · show (List.foldl processEquipEntry _ (equipEntries d)).events = []
    rw [hev4, hev3, hev2, hev1]
  · show (List.foldl processEquipEntry _ (equipEntries d)).snaps = snapsPlan d i
    rw [hsn4, hsn3, hsn2, hsn1]
    rfl

theorem processSystemSection_pass1 (d : Json) (p : PassOut) (i : ℕ)
    (hps : PreSat i p.st.systems) :
    PreSat i (processSystemSection d p).st.systems
    ∧ (∀ sd, d.get "system" = some sd →
        ∃ p0, jlookup (processSystemSection d p).st.prevMap "system" =
          some (deepMerge p0 sd))
    ∧ (processSystemSection d p).snaps =
        (match d.get "system" with
         | some _ => insertSnap p.snaps i
         | none => p.snaps)
    ∧ awayA (getSys (processSystemSection d p).st.systems i) =
        awayA (getSys p.st.systems i)
    ∧ (getSys (processSystemSection d p).st.systems i).zones =
        (getSys p.st.systems i).zones
    ∧ (getSys (processSystemSection d p).st.systems i).equipments =
        (getSys p.st.systems i).equipments := by
  cases hsys : d.get "system" with
  | none =>
    unfold processSystemSection
    rw [hsys]
    exact ⟨hps, fun sd hsd => by simp at hsd, rfl, rfl, rfl, rfl⟩
  | some sd =>
    have hens := ensureSystem_presat p.st.systems i hps
    have hlen : i < (ensureSystem p.st.systems "0").1.length :=
      zeroIdx_lt_length _ i hens.2.1
    have hget : getSys (modifyAt (ensureSystem p.st.systems "0").1 i
        (fun s => updateSystemFromJson s sd)) i =
        updateSystemFromJson (getSys (ensureSystem p.st.systems "0").1 i) sd :=
      getSys_modifyAt_self _ i _ hlen
    have hids : systemIds (modifyAt (ensureSystem p.st.systems "0").1 i
        (fun s => updateSystemFromJson s sd)) =
        systemIds (ensureSystem p.st.systems "0").1 :=
      systemIds_modifyAt _ _ _ (fun s => (updateSystemFromJson_frame s sd).1)
    unfold processSystemSection
    rw [hsys]
    dsimp only
    rw [hens.1]
    refine ⟨?_, ?_, rfl, ?_, ?_, ?_⟩
    · exact Or.inl (by rw [zeroIdx_eq_of_ids _ _ hids]; exact hens.2.1)
    · intro sd2 hsd2
      cases hsd2
      exact ⟨(jlookup p.st.prevMap "system").getD .null,
        jlookup_setFirst_self _ _ _⟩
    · rw [hget, (updateSystemFromJson_frame _ _).2.1, hens.2.2.1]
    · rw [hget, (updateSystemFromJson_frame _ _).2.2.1, hens.2.2.2.1]
    · rw [hget, (updateSystemFromJson_frame _ _).2.2.2, hens.2.2.2.2]

theorem processOccupancySection_pass1 (d : Json) (p : PassOut) (i : ℕ)
    (hps : PreSat i p.st.systems) :
    PreSat i (processOccupancySection d p).st.systems
    ∧ (∀ occ, d.get "occupancy" = some occ →
        ∃ a0, awayA (getSys (processOccupancySection d p).st.systems i) =
          occAway occ a0)
    ∧ (processOccupancySection d p).snaps =
        (match d.get "occupancy" with
         | some _ => insertSnap p.snaps i
         | none => p.snaps)
    ∧ (getSys (processOccupancySection d p).st.systems i).zones =
        (getSys p.st.systems i).zones
    ∧ (getSys (processOccupancySection d p).st.systems i).equipments =
        (getSys p.st.systems i).equipments := by
  cases hocc : d.get "occupancy" with
  | none =>
    unfold processOccupancySection
    rw [hocc]
    exact ⟨hps, fun occ hc => by simp at hc, rfl, rfl, rfl⟩
  | some occ =>
    have hens := ensureSystem_presat p.st.systems i hps
    have hlen : i < (ensureSystem p.st.systems "0").1.length :=
      zeroIdx_lt_length _ i hens.2.1
    have hget : getSys (modifyAt (ensureSystem p.st.systems "0").1 i
        (fun s => applyOccupancy s occ)) i =
        applyOccupancy (getSys (ensureSystem p.st.systems "0").1 i) occ :=
      getSys_modifyAt_self _ i _ hlen
    have hids : systemIds (modifyAt (ensureSystem p.st.systems "0").1 i
        (fun s => applyOccupancy s occ)) =
        systemIds (ensureSystem p.st.systems "0").1 :=
      systemIds_modifyAt _ _ _ (fun s => (applyOccupancy_frame s occ).1)
    unfold processOccupancySection
    rw [hocc]
    dsimp only
    rw [hens.1]
    refine ⟨?_, ?_, rfl, ?_, ?_⟩
    · exact Or.inl (by rw [zeroIdx_eq_of_ids _ _ hids]; exact hens.2.1)
    · intro occ2 hocc2
      cases hocc2
      refine ⟨awayA (getSys (ensureSystem p.st.systems "0").1 i), ?_⟩
      rw [hget, applyOccupancy_awayA]
    · rw [hget, (applyOccupancy_frame _ _).2.1, hens.2.2.2.1]
    · rw [hget, (applyOccupancy_frame _ _).2.2, hens.2.2.2.2]

theorem processZoneEntry_pass1 (p : PassOut) (e : Json) (i : ℕ)
    (hps : PreSat i p.st.systems) (hslz : slotObjOk p.st.prevMap "zones") :
    PreSat i (processZoneEntry p e).st.systems
    ∧ slotObjOk (processZoneEntry p e).st.prevMap "zones"
    ∧ (∀ n, zoneIdOf e = some n →
        ((jlookup (processZoneEntry p e).st.prevMap "zones").bind
          (fun zm => zm.get (natKey n))) = some e
        ∧ ∃ z0, ((getSys (processZoneEntry p e).st.systems i).zones.find?
            (fun z => z.id == n)) = some (applyZoneJson z0 n e))
    ∧ (processZoneEntry p e).snaps = snapStep zoneIdOf i p.snaps e
    ∧ awayA (getSys (processZoneEntry p e).st.systems i) =
        awayA (getSys p.st.systems i)
    ∧ (getSys (processZoneEntry p e).st.systems i).equipments =
        (getSys p.st.systems i).equipments
    ∧ (∀ n2, ¬ zoneIdOf e = some n2 →
        ((jlookup (processZoneEntry p e).st.prevMap "zones").bind
          (fun zm => zm.get (natKey n2))) =
          ((jlookup p.st.prevMap "zones").bind (fun zm => zm.get (natKey n2)))
        ∧ ((getSys (processZoneEntry p e).st.systems i).zones.find?
            (fun z => z.id == n2)) =
          ((getSys p.st.systems i).zones.find? (fun z => z.id == n2))) := by
  cases hid : (e.get "id").bind Json.asNat with
  | none =>
    have hzid : zoneIdOf e = none := by unfold zoneIdOf; rw [hid]; rfl
    unfold processZoneEntry snapStep
    rw [hid, hzid]
    exact ⟨hps, hslz, fun n hn => by simp [hzid] at hn, rfl, rfl, rfl,
      fun n2 _ => ⟨rfl, rfl⟩⟩
  | some raw =>
    have hzid : zoneIdOf e = some (raw % 2 ^ 8) := by
      unfold zoneIdOf; rw [hid]; rfl
    have hens := ensureSystem_presat p.st.systems i hps
    have hlen : i < (ensureSystem p.st.systems "0").1.length :=
      zeroIdx_lt_length _ i hens.2.1
    have hget : getSys (modifyAt (ensureSystem p.st.systems "0").1 i
        (fun s => updateZoneFromJson s (raw % 2 ^ 8) e)) i =
        updateZoneFromJson (getSys (ensureSystem p.st.systems "0").1 i)
          (raw % 2 ^ 8) e :=
      getSys_modifyAt_self _ i _ hlen
    have hids : systemIds (modifyAt (ensureSystem p.st.systems "0").1 i
        (fun s => updateZoneFromJson s (raw % 2 ^ 8) e)) =
        systemIds (ensureSystem p.st.systems "0").1 :=
      systemIds_modifyAt _ _ _
        (fun s => (updateZoneFromJson_frame s (raw % 2 ^ 8) e).1)
    unfold processZoneEntry snapStep
    rw [hid, hzid]
    dsimp only
    rw [hens.1]
    refine ⟨?_, ?_, ?_, rfl, ?_, ?_, ?_⟩
    · exact Or.inl (by rw [zeroIdx_eq_of_ids _ _ hids]; exact hens.2.1)
    · exact insertEntityMirror_slotOk _ _ _ _ hslz
    · intro n hn
      cases hn
      refine ⟨insertEntityMirror_get_self _ _ _ _ hslz, ?_⟩
      rw [hget]
      exact updateZoneFromJson_find_exists _ _ _
    · rw [hget, (updateZoneFromJson_frame _ _ _).2.1, hens.2.2.1]
    · rw [hget, (updateZoneFromJson_frame _ _ _).2.2, hens.2.2.2.2]
    · intro n2 hn2
      have hne : ¬ n2 = raw % 2 ^ 8 := by
        intro hc
        exact hn2 (by rw [hc])
      refine ⟨?_, ?_⟩
      · rw [insertEntityMirror_get_ne _ _ _ _ _ (natKey_ne _ _ hne)]
      · rw [hget, updateZoneFromJson_find_ne _ _ _ _ hne, hens.2.2.2.1]

theorem zonesFold_pass1 (i : ℕ) (zs : List Json) :
    ∀ (p : PassOut), PreSat i p.st.systems → slotObjOk p.st.prevMap "zones" →
    ((zs.filterMap zoneIdOf).Nodup) →
    PreSat i (zs.foldl processZoneEntry p).st.systems
    ∧ slotObjOk (zs.foldl processZoneEntry p).st.prevMap "zones"
    ∧ (∀ e ∈ zs, ∀ n, zoneIdOf e = some n →
        ((jlookup (zs.foldl processZoneEntry p).st.prevMap "zones").bind
          (fun zm => zm.get (natKey n))) = some e
        ∧ ∃ z0, ((getSys (zs.foldl processZoneEntry p).st.systems i).zones.find?
            (fun z => z.id == n)) = some (applyZoneJson z0 n e))
    ∧ (zs.foldl processZoneEntry p).snaps =
        zs.foldl (snapStep zoneIdOf i) p.snaps
    ∧ awayA (getSys (zs.foldl processZoneEntry p).st.systems i) =
        awayA (getSys p.st.systems i)
    ∧ (getSys (zs.foldl processZoneEntry p).st.systems i).equipments =
        (getSys p.st.systems i).equipments
    ∧ (∀ n2, (∀ e ∈ zs, ¬ zoneIdOf e = some n2) →
        ((jlookup (zs.foldl processZoneEntry p).st.prevMap "zones").bind
          (fun zm => zm.get (natKey n2))) =
          ((jlookup p.st.prevMap "zones").bind (fun zm => zm.get (natKey n2)))
        ∧ ((getSys (zs.foldl processZoneEntry p).st.systems i).zones.find?
            (fun z => z.id == n2)) =
          ((getSys p.st.systems i).zones.find? (fun z => z.id == n2))) := by
  induction zs with
  | nil =>
    intro p hps hslz _
    exact ⟨hps, hslz, fun e he => absurd he (List.not_mem_nil _), rfl, rfl, rfl,
      fun n2 _ => ⟨rfl, rfl⟩⟩
  | cons e t ih =>
    intro p hps hslz hnd
    have hnd2 : (t.filterMap zoneIdOf).Nodup := by
      rw [List.filterMap_cons] at hnd
      cases hz0 : zoneIdOf e with
      | none => rw [hz0] at hnd; exact hnd
      | some n0 => rw [hz0] at hnd; exact (List.nodup_cons.mp hnd).2
    obtain ⟨h1ps, h1slz, h1est, h1sn, h1aw, h1eq, h1fr⟩ :=
      processZoneEntry_pass1 p e i hps hslz
    rw [List.foldl_cons]
    obtain ⟨h2ps, h2slz, h2est, h2sn, h2aw, h2eq, h2fr⟩ :=
      ih (processZoneEntry p e) h1ps h1slz hnd2
    refine ⟨h2ps, h2slz, ?_, ?_, ?_, ?_, ?_⟩
    · intro e2 hmem n hn
      rcases List.mem_cons.mp hmem with rfl | hmem2
      · -- the head entry: its facts survive the tail fold
        have hnotin : ∀ x ∈ t, ¬ zoneIdOf x = some n := by
          intro x hx hc
          rw [List.filterMap_cons, hn] at hnd
          exact (List.nodup_cons.mp hnd).1
            (List.mem_filterMap.mpr ⟨x, hx, hc⟩)
        obtain ⟨hfa, hfb⟩ := h2fr n hnotin
        obtain ⟨hma, z0, hmb⟩ := h1est n hn
        exact ⟨by rw [hfa]; exact hma, ⟨z0, by rw [hfb]; exact hmb⟩⟩
      · exact h2est e2 hmem2 n hn
    · rw [h2sn, h1sn, List.foldl_cons]
    · rw [h2aw, h1aw]
    · rw [h2eq, h1eq]
    · intro n2 hall
      have hne := hall e (List.mem_cons_self _ _)
      obtain ⟨hfa1, hfb1⟩ := h1fr n2 hne
      obtain ⟨hfa2, hfb2⟩ := h2fr n2
        (fun x hx => hall x (List.mem_cons_of_mem _ hx))
      exact ⟨by rw [hfa2, hfa1], by rw [hfb2, hfb1]⟩

theorem processEquipEntry_pass1 (p : PassOut) (e : Json) (i : ℕ)
    (hps : PreSat i p.st.systems) (hsle : slotObjOk p.st.prevMap "equipments")
    (hpe : ((paramEntriesOf e).filterMap pidOf).Nodup) :
    PreSat i (processEquipEntry p e).st.systems
    ∧ slotObjOk (processEquipEntry p e).st.prevMap "equipments"
    ∧ (∀ m, equipIdOf e = some m →
        ((jlookup (processEquipEntry p e).st.prevMap "equipments").bind
          (fun em => em.get (natKey m))) = some e
        ∧ EquipFact (processEquipEntry p e).st.systems i m e)
    ∧ (processEquipEntry p e).snaps = snapStep equipIdOf i p.snaps e
    ∧ awayA (getSys (processEquipEntry p e).st.systems i) =
        awayA (getSys p.st.systems i)
    ∧ (getSys (processEquipEntry p e).st.systems i).zones =
        (getSys p.st.systems i).zones
    ∧ (∀ m2, ¬ equipIdOf e = some m2 →
        ((jlookup (processEquipEntry p e).st.prevMap "equipments").bind
          (fun em => em.get (natKey m2))) =
          ((jlookup p.st.prevMap "equipments").bind (fun em => em.get (natKey m2)))
        ∧ ((getSys (processEquipEntry p e).st.systems i).equipments.find?
            (fun x => x.id == m2)) =
          ((getSys p.st.systems i).equipments.find? (fun x => x.id == m2))) := by
  cases hid : (e.get "id").bind Json.asNat with
  | none =>
    have heid : equipIdOf e = none := by unfold equipIdOf; rw [hid]; rfl
    unfold processEquipEntry snapStep
    rw [hid, heid]
    exact ⟨hps, hsle, fun m hm => by simp at hm, rfl, rfl, rfl,
      fun m2 _ => ⟨rfl, rfl⟩⟩
  | some raw =>
    have heid : equipIdOf e = some (raw % 2 ^ 16) := by
      unfold equipIdOf; rw [hid]; rfl
    have hens := ensureSystem_presat p.st.systems i hps
    have hlen : i < (ensureSystem p.st.systems "0").1.length :=
      zeroIdx_lt_length _ i hens.2.1
    have hget : getSys (modifyAt (ensureSystem p.st.systems "0").1 i
        (fun _ => (updateEquipmentFromJson
          (getSys (ensureSystem p.st.systems "0").1 i) (raw % 2 ^ 16) e).1)) i =
        (updateEquipmentFromJson (getSys (ensureSystem p.st.systems "0").1 i)
          (raw % 2 ^ 16) e).1 :=
      getSys_modifyAt_self _ i _ hlen
    have hids : systemIds (modifyAt (ensureSystem p.st.systems "0").1 i
        (fun _ => (updateEquipmentFromJson
          (getSys (ensureSystem p.st.systems "0").1 i) (raw % 2 ^ 16) e).1)) =
        systemIds (ensureSystem p.st.systems "0").1 :=
      systemIds_modifyAt_at _ _ _
        (updateEquipmentFromJson_frame
          (getSys (ensureSystem p.st.systems "0").1 i) (raw % 2 ^ 16) e).1
    unfold processEquipEntry snapStep
    rw [hid, heid]
    dsimp only
    rw [hens.1]
    refine ⟨?_, ?_, ?_, rfl, ?_, ?_, ?_⟩
    · exact Or.inl (by rw [zeroIdx_eq_of_ids _ _ hids]; exact hens.2.1)
    · exact insertEntityMirror_slotOk _ _ _ _ hsle
    · intro m hm
      cases hm
      refine ⟨insertEntityMirror_get_self _ _ _ _ hsle, ?_⟩
      unfold EquipFact
      intro q hq
      obtain ⟨base, hbase⟩ := updateEquipmentFromJson_find_self
        (getSys (ensureSystem p.st.systems "0").1 i) (raw % 2 ^ 16) e
      rw [hget] at hq
      have hqp := hbase q hq
      intro pe2 hpe2 pd pp hpd hpp
      rw [hqp]
      exact params_fold_establish (paramEntriesOf e) (base, [])
        hpe pe2 hpe2 pd pp hpd hpp
    · rw [hget, (updateEquipmentFromJson_frame _ _ _).2.1, hens.2.2.1]
    · rw [hget, (updateEquipmentFromJson_frame _ _ _).2.2, hens.2.2.2.1]
    · intro m2 hm2
      have hne : ¬ m2 = raw % 2 ^ 16 := by
        intro hc
        exact hm2 (by rw [hc])
      refine ⟨?_, ?_⟩
      · rw [insertEntityMirror_get_ne _ _ _ _ _ (natKey_ne _ _ hne)]
      · rw [hget, updateEquipmentFromJson_find_ne _ _ _ _ hne, hens.2.2.2.2]

theorem equipsFold_pass1 (i : ℕ) (zs : List Json) :
    ∀ (p : PassOut), PreSat i p.st.systems →
    slotObjOk p.st.prevMap "equipments" →
    ((zs.filterMap equipIdOf).Nodup) →
    (∀ e ∈ zs, ((paramEntriesOf e).filterMap pidOf).Nodup) →
    PreSat i (zs.foldl processEquipEntry p).st.systems
    ∧ slotObjOk (zs.foldl processEquipEntry p).st.prevMap "equipments"
    ∧ (∀ e ∈ zs, ∀ m, equipIdOf e = some m →
        ((jlookup (zs.foldl processEquipEntry p).st.prevMap "equipments").bind
          (fun em => em.get (natKey m))) = some e
        ∧ EquipFact (zs.foldl processEquipEntry p).st.systems i m e)
    ∧ (zs.foldl processEquipEntry p).snaps =
        zs.foldl (snapStep equipIdOf i) p.snaps
    ∧ awayA (getSys (zs.foldl processEquipEntry p).st.systems i) =
        awayA (getSys p.st.systems i)
    ∧ (getSys (zs.foldl processEquipEntry p).st.systems i).zones =
        (getSys p.st.systems i).zones
    ∧ (∀ m2, (∀ e ∈ zs, ¬ equipIdOf e = some m2) →
        ((jlookup (zs.foldl processEquipEntry p).st.prevMap "equipments").bind
          (fun em => em.get (natKey m2))) =
          ((jlookup p.st.prevMap "equipments").bind (fun em => em.get (natKey m2)))
        ∧ ((getSys (zs.foldl processEquipEntry p).st.systems i).equipments.find?
            (fun x => x.id == m2)) =
          ((getSys p.st.systems i).equipments.find? (fun x => x.id == m2))) := by
  induction zs with
  | nil =>
    intro p hps hsle _ _
    exact ⟨hps, hsle, fun e he => absurd he (List.not_mem_nil _), rfl, rfl, rfl,
      fun m2 _ => ⟨rfl, rfl⟩⟩
  | cons e t ih =>
    intro p hps hsle hnd hpn
    have hnd2 : (t.filterMap equipIdOf).Nodup := by
      rw [List.filterMap_cons] at hnd
      cases hz0 : equipIdOf e with
      | none => rw [hz0] at hnd; exact hnd
      | some n0 => rw [hz0] at hnd; exact (List.nodup_cons.mp hnd).2
    obtain ⟨h1ps, h1sle, h1est, h1sn, h1aw, h1zs, h1fr⟩ :=
      processEquipEntry_pass1 p e i hps hsle (hpn e (List.mem_cons_self _ _))
    rw [List.foldl_cons]
    obtain ⟨h2ps, h2sle, h2est, h2sn, h2aw, h2zs, h2fr⟩ :=
      ih (processEquipEntry p e) h1ps h1sle hnd2
        (fun x hx => hpn x (List.mem_cons_of_mem _ hx))
    refine ⟨h2ps, h2sle, ?_, ?_, ?_, ?_, ?_⟩
    · intro e2 hmem m hm
      rcases List.mem_cons.mp hmem with rfl | hmem2
      · have hnotin : ∀ x ∈ t, ¬ equipIdOf x = some m := by
          intro x hx hc
          rw [List.filterMap_cons, hm] at hnd
          exact (List.nodup_cons.mp hnd).1
            (List.mem_filterMap.mpr ⟨x, hx, hc⟩)
        obtain ⟨hfa, hfb⟩ := h2fr m hnotin
        obtain ⟨hma, heqf⟩ := h1est m hm
        refine ⟨by rw [hfa]; exact hma, ?_⟩
        unfold EquipFact at heqf ⊢
        intro q hq
        rw [hfb] at hq
        exact heqf q hq
      · exact h2est e2 hmem2 m hm
    · rw [h2sn, h1sn, List.foldl_cons]
    · rw [h2aw, h1aw]
    · rw [h2zs, h1zs]
    · intro m2 hall
      obtain ⟨hfa1, hfb1⟩ := h1fr m2 (hall e (List.mem_cons_self _ _))
      obtain ⟨hfa2, hfb2⟩ := h2fr m2
        (fun x hx => hall x (List.mem_cons_of_mem _ hx))
      exact ⟨by rw [hfa2, hfa1], by rw [hfb2, hfb1]⟩

theorem saturated_of_parts (d : Json) (i : ℕ) (st st2 : ClientState)
    (h1 : st2.systems = st.systems) (h2 : st2.prevMap = st.prevMap)
    (hsat : Saturated d i st) : Saturated d i st2 := by
  unfold Saturated EquipFact at hsat ⊢
  rw [h1, h2]
  exact hsat

theorem processData_pass1 (d : Json) (now : ℕ) (st0 : ClientState)
    (hw : wfJson d = true) (hna : noAlertsActive d)
    (hzn : ((zoneEntries d).filterMap zoneIdOf).Nodup)
    (hen : ((equipEntries d).filterMap equipIdOf).Nodup)
    (hpn : ∀ e ∈ equipEntries d, ((paramEntriesOf e).filterMap pidOf).Nodup)
    (hsz : slotObjOk st0.prevMap "zones")
    (hse : slotObjOk st0.prevMap "equipments") :
    Saturated d (ensureSystem st0.systems "0").2 (processData d now st0).st
    ∧ (processData d now st0).snaps =
        snapsPlan d (ensureSystem st0.systems "0").2 := by
  have hps0 : PreSat (ensureSystem st0.systems "0").2 st0.systems :=
    presat_init st0.systems
  unfold processData
  rw [alertsSection_skip d _ hna, processEquipmentsSection_fold,
    processZonesSection_fold]
  obtain ⟨h1ps, h1sysf, h1sn, h1aw, h1zs, h1eq⟩ :=
    processSystemSection_pass1 d ⟨st0, [], []⟩ _ hps0
  obtain ⟨h2ps, h2occf, h2sn, h2zs, h2eq⟩ :=
    processOccupancySection_pass1 d _ _ h1ps
  have hsz2 : slotObjOk (processOccupancySection d
      (processSystemSection d ⟨st0, [], []⟩)).st.prevMap "zones" := by
    apply slotObjOk_of_eq st0.prevMap _ _ _ hsz
    rw [processOccupancySection_prevMap_ne _ _ _ (by intro hc; simp at hc),
      processSystemSection_prevMap_ne _ _ _ (by intro hc; simp at hc)]
  obtain ⟨h3ps, h3slz, h3est, h3sn, h3aw, h3eq, h3fr⟩ :=
    zonesFold_pass1 _ (zoneEntries d) _ h2ps hsz2 hzn
  have hse3 : slotObjOk ((zoneEntries d).foldl processZoneEntry
      (processOccupancySection d
        (processSystemSection d ⟨st0, [], []⟩))).st.prevMap "equipments" := by
    apply slotObjOk_of_eq st0.prevMap _ _ _ hse
    rw [foldl_lookup_pres processZoneEntry "equipments"
      (fun p2 x => processZoneEntry_prevMap_ne p2 x _ (by intro hc; simp at hc)),
      processOccupancySection_prevMap_ne _ _ _ (by intro hc; simp at hc),
      processSystemSection_prevMap_ne _ _ _ (by intro hc; simp at hc)]
  obtain ⟨h4ps, h4sle, h4est, h4sn, h4aw, h4zs, h4fr⟩ :=
    equipsFold_pass1 _ (equipEntries d) _ h3ps hse3 hen hpn
  have heqz : jlookup ((equipEntries d).foldl processEquipEntry
      ((zoneEntries d).foldl processZoneEntry
        (processOccupancySection d
          (processSystemSection d ⟨st0, [], []⟩)))).st.prevMap "zones" =
      jlookup ((zoneEntries d).foldl processZoneEntry
        (processOccupancySection d
          (processSystemSection d ⟨st0, [], []⟩))).st.prevMap "zones" :=
    foldl_lookup_pres processEquipEntry "zones"
      (fun p2 x => processEquipEntry_prevMap_ne p2 x _
        (by intro hc; simp at hc)) _ _
  constructor
  · apply saturated_of_parts _ _ _ _ (enforcerStep_systems _ _)
      (enforcerStep_prevMap _ _)
    refine ⟨h4ps, ?_, h4sle, ?_, ?_, ?_, h4est⟩
    · exact slotObjOk_of_eq _ _ _ heqz h3slz
    · intro sd hsd
      obtain ⟨q0, hq0⟩ := h1sysf sd hsd
      refine ⟨q0, ?_⟩
      rw [foldl_lookup_pres processEquipEntry "system"
        (fun p2 x => processEquipEntry_prevMap_ne p2 x _
          (by intro hc; simp at hc)),
        foldl_lookup_pres processZoneEntry "system"
        (fun p2 x => processZoneEntry_prevMap_ne p2 x _
          (by intro hc; simp at hc)),
        processOccupancySection_prevMap_ne _ _ _ (by intro hc; simp at hc)]
      exact hq0
    · intro occ hocc
      obtain ⟨a0, ha0⟩ := h2occf occ hocc
      refine ⟨a0, ?_⟩
      rw [h4aw, h3aw]
      exact ha0
    · intro e hmem n hn
      obtain ⟨hma, z0, hmb⟩ := h3est e hmem n hn
      refine ⟨by rw [heqz]; exact hma, ⟨z0, ?_⟩⟩
      rw [h4zs]
      exact hmb
  · show ((equipEntries d).foldl processEquipEntry _).snaps = _
    rw [h4sn, h3sn, h2sn, h1sn]
    rfl

def alertsPayload : Json :=
  .obj [("alerts", .obj [("active", .arr [.obj
    [("id", .num 0),
     ("alert", .obj [("code", .num 18), ("isStillActive", .bool true)])]])])]

/-- C1 counterexample: a payload carrying only an alerts.active entry fires
an alert-changed event and a snapshot notification again on the immediate
second pass, so a second delivery of an identical payload is not observer
silent. -/
theorem second_pass_alert_refire_counterexample :
    (processData alertsPayload 1
      (processData alertsPayload 0 ClientState.initial).st).events =
      [.alertChanged 18 true]
    ∧ (processData alertsPayload 1
      (processData alertsPayload 0 ClientState.initial).st).snaps = [0] := by
  constructor <;>
    simp [processData, processSystemSection, processOccupancySection,
      processZonesSection, processEquipmentsSection, processAlertsSection,
      processZoneEntry, processEquipEntry, applyAlertEntry, ensureSystem,
      findPos, getSys, modifyAt, insertSnap, enforcerStep, ClientState.initial,
      alertsPayload, Json.get, jlookup, Json.asNat, Json.asBool, System.isAway]

/-- C1 (amended): for an alert-free, well-formed payload whose zone ids,
equipment ids and per-equipment pids are pairwise distinct, processing it a
second time immediately after the first pass emits zero events; snapshot
notifications, however, are delivered again, exactly as on the first pass
(the alerts section refires alert events on every pass, which the
counterexample shows). -/
theorem process_data_second_pass_silent (d : Json) (now1 now2 : ℕ)
    (st0 : ClientState)
    (hw : wfJson d = true) (hna : noAlertsActive d)
    (hzn : ((zoneEntries d).filterMap zoneIdOf).Nodup)
    (hen : ((equipEntries d).filterMap equipIdOf).Nodup)
    (hpn : ∀ e ∈ equipEntries d, ((paramEntriesOf e).filterMap pidOf).Nodup)
    (hsz : slotObjOk st0.prevMap "zones")
    (hse : slotObjOk st0.prevMap "equipments") :
    (processData d now2 (processData d now1 st0).st).events = []
    ∧ (processData d now2 (processData d now1 st0).st).snaps =
        (processData d now1 st0).snaps := by
  obtain ⟨hsat, hsn1⟩ := processData_pass1 d now1 st0 hw hna hzn hen hpn hsz hse
  obtain ⟨hev2, hsn2⟩ := processData_pass2 d now2 _ _ hw hna hpn hsat
  exact ⟨hev2, by rw [hsn2, hsn1]⟩

def idempotencePayload : Json :=
  .obj [("system", .obj [("status", .obj [("diagLevel", .num 5)])]),
        ("zones", .arr [.obj [("id", .num 0),
          ("status", .obj [("humidity", .num 45)])]])]

/-- Witness for C1 (amended): a concrete system-and-zone payload processed
twice from the fresh client emits no events on the second pass and repeats
the first-pass snapshot notification. -/
theorem process_data_second_pass_silent_witness :
    (processData idempotencePayload 1
      (processData idempotencePayload 0 ClientState.initial).st).events = []
    ∧ (processData idempotencePayload 1
      (processData idempotencePayload 0 ClientState.initial).st).snaps =
        (processData idempotencePayload 0 ClientState.initial).snaps :=
  process_data_second_pass_silent idempotencePayload 0 1 ClientState.initial
    (by simp [idempotencePayload, wfJson, wfList, wfFields, nodupKeys, keysOf])
    (by simp [noAlertsActive, idempotencePayload, Json.get, jlookup])
    (by simp [zoneEntries, idempotencePayload, Json.get, jlookup, zoneIdOf,
      Json.asNat])
    (by simp [equipEntries, idempotencePayload, Json.get, jlookup])
    (by simp [equipEntries, idempotencePayload, Json.get, jlookup])
    (by trivial)
    (by trivial)

/-- The last zones/equipments array entry carrying a given entity id: since
the section loop processes entries in order and each entry overwrites the
per-id mirror slot, this is the object the pass leaves in the mirror. -/
def lastEntryFor (idOf : Json → Option ℕ) (n : ℕ) : List Json → Option Json
  | [] => none
  | e :: t =>
    match lastEntryFor idOf n t with
    | some r => some r
    | none => if idOf e = some n then some e else none

theorem processZoneEntry_eq_of_none (p : PassOut) (e : Json)
    (hid : (e.get "id").bind Json.asNat = none) : processZoneEntry p e = p := by
  unfold processZoneEntry
  rw [hid]

theorem processZoneEntry_prevMap_eq (p : PassOut) (e : Json) (raw : ℕ)
    (hid : (e.get "id").bind Json.asNat = some raw) :
    (processZoneEntry p e).st.prevMap =
      insertEntityMirror p.st.prevMap "zones" (natKey (raw % 2 ^ 8)) e := by
  unfold processZoneEntry
  rw [hid]

theorem processEquipEntry_eq_of_none (p : PassOut) (e : Json)
    (hid : (e.get "id").bind Json.asNat = none) : processEquipEntry p e = p := by
  unfold processEquipEntry
  rw [hid]

theorem processEquipEntry_prevMap_eq (p : PassOut) (e : Json) (raw : ℕ)
    (hid : (e.get "id").bind Json.asNat = some raw) :
    (processEquipEntry p e).st.prevMap =
      insertEntityMirror p.st.prevMap "equipments" (natKey (raw % 2 ^ 16)) e := by
  unfold processEquipEntry
  rw [hid]

theorem zonesFold_mirror_last (zs : List Json) :
    ∀ (p : PassOut) (n : ℕ), slotObjOk p.st.prevMap "zones" →
    ((jlookup (zs.foldl processZoneEntry p).st.prevMap "zones").bind
      (fun zm => zm.get (natKey n))) =
      (match lastEntryFor zoneIdOf n zs with
       | some e => some e
       | none =>
         ((jlookup p.st.prevMap "zones").bind (fun zm => zm.get (natKey n)))) := by
  induction zs with
  | nil => intro p n _; rfl
  | cons e t ih =>
    intro p n hslot
    rw [List.foldl_cons]
    have hcons : lastEntryFor zoneIdOf n (e :: t) =
        (match lastEntryFor zoneIdOf n t with
         | some r => some r
         | none => if zoneIdOf e = some n then some e else none) := rfl
    rw [hcons]
    cases hid : (e.get "id").bind Json.asNat with
    | none =>
      have hzid : zoneIdOf e = none := by unfold zoneIdOf; rw [hid]; rfl
      rw [processZoneEntry_eq_of_none p e hid, ih p n hslot]
      cases hl : lastEntryFor zoneIdOf n t with
      | some r => rfl
      | none =>
        rw [hzid, if_neg (by simp)]
    | some raw =>
      have hzid : zoneIdOf e = some (raw % 2 ^ 8) := by
        unfold zoneIdOf; rw [hid]; rfl
      have hslot2 : slotObjOk (processZoneEntry p e).st.prevMap "zones" := by
        rw [processZoneEntry_prevMap_eq p e raw hid]
        exact insertEntityMirror_slotOk _ _ _ _ hslot
      rw [ih _ n hslot2]
      cases hl : lastEntryFor zoneIdOf n t with
      | some r => rfl
      | none =>
        rw [hzid]
        by_cases hn : n = raw % 2 ^ 8
        · subst hn
          rw [if_pos rfl]
          rw [processZoneEntry_prevMap_eq p e raw hid]
          exact insertEntityMirror_get_self _ _ _ _ hslot
        · rw [if_neg (fun hc => hn (Option.some.inj hc).symm)]
          rw [processZoneEntry_prevMap_eq p e raw hid]
          exact insertEntityMirror_get_ne _ _ _ _ _ (natKey_ne _ _ hn)

theorem equipsFold_mirror_last (zs : List Json) :
    ∀ (p : PassOut) (m : ℕ), slotObjOk p.st.prevMap "equipments" →
    ((jlookup (zs.foldl processEquipEntry p).st.prevMap "equipments").bind
      (fun em => em.get (natKey m))) =
      (match lastEntryFor equipIdOf m zs with
       | some e => some e
       | none =>
         ((jlookup p.st.prevMap "equipments").bind
           (fun em => em.get (natKey m)))) := by
  induction zs with
  | nil => intro p m _; rfl
  | cons e t ih =>
    intro p m hslot
    rw [List.foldl_cons]
    have hcons : lastEntryFor equipIdOf m (e :: t) =
        (match lastEntryFor equipIdOf m t with
         | some r => some r
         | none => if equipIdOf e = some m then some e else none) := rfl
    rw [hcons]
    cases hid : (e.get "id").bind Json.asNat with
    | none =>
      have heid : equipIdOf e = none := by unfold equipIdOf; rw [hid]; rfl
      rw [processEquipEntry_eq_of_none p e hid, ih p m hslot]
      cases hl : lastEntryFor equipIdOf m t with
      | some r => rfl
      | none =>
        rw [heid, if_neg (by simp)]
    | some raw =>
      have heid : equipIdOf e = some (raw % 2 ^ 16) := by
        unfold equipIdOf; rw [hid]; rfl
      have hslot2 : slotObjOk (processEquipEntry p e).st.prevMap "equipments" := by
        rw [processEquipEntry_prevMap_eq p e raw hid]
        exact insertEntityMirror_slotOk _ _ _ _ hslot
      rw [ih _ m hslot2]
      cases hl : lastEntryFor equipIdOf m t with
      | some r => rfl
      | none =>
        rw [heid]
        by_cases hm : m = raw % 2 ^ 16
        · subst hm
          rw [if_pos rfl]
          rw [processEquipEntry_prevMap_eq p e raw hid]
          exact insertEntityMirror_get_self _ _ _ _ hslot
        · rw [if_neg (fun hc => hm (Option.some.inj hc).symm)]
          rw [processEquipEntry_prevMap_eq p e raw hid]
          exact insertEntityMirror_get_ne _ _ _ _ _ (natKey_ne _ _ hm)

theorem processOccupancySection_prevMap_self (d occ : Json) (p : PassOut)
    (h : d.get "occupancy" = some occ) :
    jlookup (processOccupancySection d p).st.prevMap "occupancy" =
      some (deepMerge ((jlookup p.st.prevMap "occupancy").getD .null) occ) := by
  unfold processOccupancySection
  rw [h]
  exact jlookup_setFirst_self _ _ _

theorem bind_get_bind (o : Option Json) (k : String) (f : Json → Option Json) :
    (o.bind (fun zm => (zm.get k).bind f)) =
      (o.bind (fun zm => zm.get k)).bind f := by
  cases o <;> rfl

/-- C2 amended: the system and occupancy sections are deep-merged into the
previous-payload mirror key by key, so leaves omitted from a later payload
keep their last known value there; but the zones and equipments sections
replace the mirror entry for each entity id wholesale with the last array
entry carrying that id, so the mirror entry afterwards is exactly that new
subtree, leaves omitted from it are gone, and ids without an entry keep
their previous mirror entry. -/
theorem mirror_merge_policy (d : Json) (now : ℕ) (st : ClientState) :
    (∀ sd, d.get "system" = some sd →
      jlookup (processData d now st).st.prevMap "system" =
        some (deepMerge ((jlookup st.prevMap "system").getD .null) sd) ∧
      (∀ p, omittedAt sd p → wfJson sd = true →
        jptr ((jlookup (processData d now st).st.prevMap "system").getD .null) p =
          jptr ((jlookup st.prevMap "system").getD .null) p)) ∧
    (∀ occ, d.get "occupancy" = some occ →
      jlookup (processData d now st).st.prevMap "occupancy" =
        some (deepMerge ((jlookup st.prevMap "occupancy").getD .null) occ) ∧
      (∀ p, omittedAt occ p → wfJson occ = true →
        jptr ((jlookup (processData d now st).st.prevMap "occupancy").getD
            .null) p =
          jptr ((jlookup st.prevMap "occupancy").getD .null) p)) ∧
    (slotObjOk st.prevMap "zones" →
      ∀ n,
        ((jlookup (processData d now st).st.prevMap "zones").bind
          (fun zm => zm.get (natKey n))) =
          (match lastEntryFor zoneIdOf n (zoneEntries d) with
           | some e => some e
           | none =>
             ((jlookup st.prevMap "zones").bind
               (fun zm => zm.get (natKey n))))
        ∧ (∀ e, lastEntryFor zoneIdOf n (zoneEntries d) = some e →
            ∀ p, omittedAt e p →
              ((jlookup (processData d now st).st.prevMap "zones").bind
                (fun zm => (zm.get (natKey n)).bind
                  (fun z => jptr z p))) = none)) ∧
    (slotObjOk st.prevMap "equipments" →
      ∀ m,
        ((jlookup (processData d now st).st.prevMap "equipments").bind
          (fun em => em.get (natKey m))) =
          (match lastEntryFor equipIdOf m (equipEntries d) with
           | some e => some e
           | none =>
             ((jlookup st.prevMap "equipments").bind
               (fun em => em.get (natKey m))))
        ∧ (∀ e, lastEntryFor equipIdOf m (equipEntries d) = some e →
            ∀ p, omittedAt e p →
              ((jlookup (processData d now st).st.prevMap "equipments").bind
                (fun em => (em.get (natKey m)).bind
                  (fun z => jptr z p))) = none)) := by
  have hq0 : (processData d now st).st.prevMap =
      (processAlertsSection d
        (processEquipmentsSection d
          (processZonesSection d
            (processOccupancySection d
              (processSystemSection d ⟨st, [], []⟩))))).st.prevMap := by
    unfold processData
    rw [enforcerStep_prevMap]
  refine ⟨(mirror_merge_core d now st).1, ?_, ?_, ?_⟩
  · intro occ hocc
    have hoccl : jlookup (processData d now st).st.prevMap "occupancy" =
        some (deepMerge ((jlookup st.prevMap "occupancy").getD .null) occ) := by
      rw [hq0, processAlertsSection_prevMap,
        processEquipmentsSection_prevMap_ne _ _ _ (by decide),
        processZonesSection_prevMap_ne _ _ _ (by decide),
        processOccupancySection_prevMap_self d occ _ hocc,
        processSystemSection_prevMap_ne _ _ _ (by decide)]
    refine ⟨hoccl, fun p hom hw => ?_⟩
    rw [hoccl]
    simp only [Option.getD_some]
    exact jptr_deepMerge_omitted _ occ p hom hw
  · intro hslot n
    have hpres2 : jlookup (processOccupancySection d
        (processSystemSection d ⟨st, [], []⟩)).st.prevMap "zones" =
        jlookup st.prevMap "zones" := by
      rw [processOccupancySection_prevMap_ne _ _ _ (by decide),
        processSystemSection_prevMap_ne _ _ _ (by decide)]
    have hslot2 : slotObjOk (processOccupancySection d
        (processSystemSection d ⟨st, [], []⟩)).st.prevMap "zones" :=
      slotObjOk_of_eq _ _ _ hpres2 hslot
    have hmain : ((jlookup (processData d now st).st.prevMap "zones").bind
        (fun zm => zm.get (natKey n))) =
        (match lastEntryFor zoneIdOf n (zoneEntries d) with
         | some e => some e
         | none =>
           ((jlookup st.prevMap "zones").bind
             (fun zm => zm.get (natKey n)))) := by
      rw [hq0, processAlertsSection_prevMap,
        processEquipmentsSection_prevMap_ne _ _ _ (by decide),
        processZonesSection_fold,
        zonesFold_mirror_last (zoneEntries d) _ n hslot2, hpres2]
    refine ⟨hmain, ?_⟩
    intro e hle p hom
    rw [bind_get_bind, hmain, hle]
    simp only [Option.some_bind]
    exact jptr_of_omitted e p hom
  · intro hslot m
    have hpres3 : jlookup (processZonesSection d
        (processOccupancySection d
          (processSystemSection d ⟨st, [], []⟩))).st.prevMap "equipments" =
        jlookup st.prevMap "equipments" := by
      rw [processZonesSection_prevMap_ne _ _ _ (by decide),
        processOccupancySection_prevMap_ne _ _ _ (by decide),
        processSystemSection_prevMap_ne _ _ _ (by decide)]
    have hslot3 : slotObjOk (processZonesSection d
        (processOccupancySection d
          (processSystemSection d ⟨st, [], []⟩))).st.prevMap "equipments" :=
      slotObjOk_of_eq _ _ _ hpres3 hslot
    have hmain : ((jlookup (processData d now st).st.prevMap "equipments").bind
        (fun em => em.get (natKey m))) =
        (match lastEntryFor equipIdOf m (equipEntries d) with
         | some e => some e
         | none =>
           ((jlookup st.prevMap "equipments").bind
             (fun em => em.get (natKey m)))) := by
      rw [hq0, processAlertsSection_prevMap,
        processEquipmentsSection_fold,
        equipsFold_mirror_last (equipEntries d) _ m hslot3, hpres3]
    refine ⟨hmain, ?_⟩
    intro e hle p hom
    rw [bind_get_bind, hmain, hle]
    simp only [Option.some_bind]
    exact jptr_of_omitted e p hom

def twoZonePayload : Json := .obj [("zones", .arr
  [.obj [("id", .num 0), ("status", .obj [("humidity", .num 40)])],
   .obj [("id", .num 1), ("status", .obj [("humidity", .num 50)])]])]

/-- Witness for C2 amended: on the fresh client the system section merges
into the empty mirror, leaving exactly the payload subtree there, and a
two-entry zones payload leaves the second entry object wholesale in the
mirror under its zone id. -/
theorem mirror_merge_policy_witness :
    jlookup (processData sysDiagPayload 0 ClientState.initial).st.prevMap
      "system" = some (.obj [("status", .obj [("diagLevel", .num 5)])])
    ∧ ((jlookup (processData twoZonePayload 0 ClientState.initial).st.prevMap
        "zones").bind (fun zm => zm.get (natKey 1))) =
      some (.obj [("id", .num 1), ("status", .obj [("humidity", .num 50)])]) := by
  constructor
  · have h := (mirror_merge_policy sysDiagPayload 0 ClientState.initial).1
      (.obj [("status", .obj [("diagLevel", .num 5)])]) rfl
    rw [h.1]
    simp [ClientState.initial, jlookup, deepMerge]
  · have h := ((mirror_merge_policy twoZonePayload 0 ClientState.initial).2.2.1
      (by trivial) 1).1
    rw [h]
    simp [lastEntryFor, zoneEntries, twoZonePayload, zoneIdOf, Json.get,
      jlookup, Json.asNat]
